import Mathlib

/-!
# Quiz contest backend: participation and scoring engine

A shallow embedding of the request handlers of `src/controllers/contestController.js`
and of the middleware of `src/middleware/contest.js`, over the Mongoose models of
`src/models/`.

Modelling conventions.

* A JSON request value is a `JsVal`.  Numbers are integers (indices and scores); the
  fractional part of an IEEE double is not modelled.
* A collection is the list of its documents in insertion order and `findOne` returns
  the first document that matches the filter.
* Every `new Date()` of a handler is an input of the handler, collected in a clock record
  (`JoinClock`, `AnswerClock`, `SubmitClock`);
  times are milliseconds.
* The surrounding `try / catch` of every handler (a failure of the database itself,
  answered with status 500) is not modelled: the store never fails.
-/

namespace QuizContest

/-! ## Values of a request body -/

/-- A value of a parsed JSON request body, or of a `Mixed` field of a document. -/
inductive JsVal where
  | null
  | bool (b : Bool)
  | num (n : Int)
  | str (s : String)
  | arr (items : List JsVal)
  | obj (fields : List (String × JsVal))

/-- The operator `===`.  Primitives are compared by type and value.  An array or an
object is equal only to itself as a reference, and a value parsed from the request body
never shares a reference with a stored document, so such a comparison is `false`. -/
def strictEq : JsVal → JsVal → Bool
  | .null, .null => true
  | .bool a, .bool b => a == b
  | .num a, .num b => a == b
  | .str a, .str b => a == b
  | _, _ => false

/-- The method `Array.prototype.includes`: some element is the same value as `item`
(for the values of `JsVal` the comparison `SameValueZero` agrees with `===`). -/
def includes (xs : List JsVal) (item : JsVal) : Bool :=
  xs.any (fun x => strictEq x item)

/-! ## Documents (`src/models`) -/

/-- Field `status` of `ContestSchema`. -/
inductive ContestStatus where
  | cancelled
  | pending
  | live
  | complete
  deriving DecidableEq, Repr

/-- Field `questionType` of `QuestionSchema`. -/
inductive QuestionType where
  | single
  | multiple
  | boolean
  deriving DecidableEq, Repr

/-- Field `submissionState` of `ParticipationSchema`. -/
inductive SubmissionState where
  | pending
  | submitted
  deriving DecidableEq, Repr

/-- Modelled from the spec: the `User` model (`src/models/User.js`) is missing from the
sources; the handlers only compare `userType` with `'VIP'`, and the spec names the other
kind of user `Normal`. -/
inductive UserType where
  | Normal
  | VIP
  deriving DecidableEq, Repr

/-- The authenticated principal `req.user`, as far as the handlers read it. -/
structure User where
  _id : Nat
  userType : UserType
  isAdmin : Bool := false
  deriving DecidableEq, Repr

/-- A document of `QuestionSchema`, as far as the handlers read it. -/
structure Question where
  _id : Nat
  questionType : QuestionType
  correctOption : JsVal
  score : Int

/-- A document of `ContestSchema` with `questions` populated.  The schema declares
`participantsCount` and `maxParticipants` as `Number`, without a validator.
`maxParticipants` is the number that `updateContest` (through `findByIdAndUpdate`) or
`createContest` received in the request body (`maxParticipants || ...`), so it is a
rational number here, not necessarily whole.
`participantsCount` is never taken from a request: it is the default 0, the seeder's
`participants.length`, or the result of `$inc: { participantsCount: 1 }`, a whole
number. -/
structure Contest where
  _id : Nat
  status : ContestStatus
  participantsCount : Int
  maxParticipants : ℚ
  isVipOnly : Bool
  questions : List Question

/-- An element of `answers` of `ParticipationSchema`. -/
structure Answer where
  questionId : Nat
  selectedOptions : JsVal

/-- A document of `ParticipationSchema`; `updatedAt` is kept by `timestamps: true`. -/
structure Participation where
  _id : Nat
  contestId : Nat
  userId : Nat
  score : Int
  submissionState : SubmissionState
  submissionTime : Option Int
  currentQuestionIndex : Nat
  answers : List Answer
  startTime : Int
  updatedAt : Int

/-- A document of `LeaderboardSchema`. -/
structure LeaderboardEntry where
  contestId : Nat
  userId : Nat
  participationId : Nat
  score : Int
  submissionTime : Option Int
  deriving DecidableEq, Repr

/-! ## Configuration (`src/config/config.js`) -/

/-- The constant `QUESTIONS_PER_CONTEST`. -/
def QUESTIONS_PER_CONTEST : Nat := 15

/-- The constant `QUESTION_TIME_LIMIT`, in seconds. -/
def QUESTION_TIME_LIMIT : Int := 60

/-- The constant `POINTS_PER_CORRECT_ANSWER`, the default of `score` in `QuestionSchema`. -/
def POINTS_PER_CORRECT_ANSWER : Int := 5

/-- The constant `MAX_SCORE_PER_CONTEST`. -/
def MAX_SCORE_PER_CONTEST : Int := 75

/-! ## Answer evaluation (`submitAnswer`, "Calculate score for the answer") -/

/-- The two variables `isCorrect` and `scoreForQuestion` of `submitAnswer`. -/
structure Evaluation where
  isCorrect : Bool
  scoreForQuestion : Int
  deriving DecidableEq, Repr

/-- The block of `submitAnswer` that computes `scoreForQuestion` and `isCorrect` from
`currentQuestion` and `selectedOptions`. -/
def evaluate (currentQuestion : Question) (selectedOptions : JsVal) : Evaluation :=
  match currentQuestion.questionType with
  | .single | .boolean =>
    if strictEq selectedOptions currentQuestion.correctOption then
      { isCorrect := true, scoreForQuestion := currentQuestion.score }
    else
      { isCorrect := false, scoreForQuestion := 0 }
  | .multiple =>
    match selectedOptions, currentQuestion.correctOption with
    | .arr sel, .arr cor =>
      if sel.length == cor.length && sel.all (fun item => includes cor item) then
        { isCorrect := true, scoreForQuestion := currentQuestion.score }
      else
        { isCorrect := false, scoreForQuestion := 0 }
    | _, _ => { isCorrect := false, scoreForQuestion := 0 }

/-- A list of indices as the JSON array of its numbers. -/
def indexArray (xs : List Int) : JsVal :=
  .arr (xs.map JsVal.num)

/-! ## The store -/

/-- The three collections the handlers read and write, each in insertion order, and the
next fresh `ObjectId` (a counter: every created document gets a new `_id`). -/
structure Store where
  contests : List Contest
  participations : List Participation
  leaderboard : List LeaderboardEntry
  nextId : Nat

/-- An update of the first document that matches (`findByIdAndUpdate`, `save`). -/
def updateFirst {α : Type} (p : α → Bool) (f : α → α) : List α → List α
  | [] => []
  | x :: xs => if p x then f x :: xs else x :: updateFirst p f xs

/-- The query `Contest.findById(id)`. -/
def findContestById (s : Store) (id : Nat) : Option Contest :=
  s.contests.find? (fun c => c._id == id)

/-- The query `Participation.findOne({ contestId, userId })`. -/
def findParticipation (s : Store) (contestId userId : Nat) : Option Participation :=
  s.participations.find? (fun p => p.contestId == contestId && p.userId == userId)

/-- The query `Participation.findOne({ userId, submissionState: 'pending' })`. -/
def findPendingOfUser (s : Store) (userId : Nat) : Option Participation :=
  s.participations.find? (fun p => p.userId == userId && p.submissionState == .pending)

/-- The query `Participation.findOne({ contestId, userId, submissionState: 'pending' })`. -/
def findActiveParticipation (s : Store) (contestId userId : Nat) : Option Participation :=
  s.participations.find?
    (fun p => p.contestId == contestId && p.userId == userId && p.submissionState == .pending)

/-- The document stored under a participation `_id`. -/
def findParticipationById (s : Store) (id : Nat) : Option Participation :=
  s.participations.find? (fun p => p._id == id)

/-- The call `participation.save()`: the stored document with the same `_id` is replaced. -/
def saveParticipation (s : Store) (p : Participation) : Store :=
  { s with participations := updateFirst (fun x => x._id == p._id) (fun _ => p) s.participations }

/-- The middleware `checkContestExists`: the contest put on the request; `none` is the
answer 404. -/
def checkContestExists (s : Store) (contestId : Nat) : Option Contest :=
  findContestById s contestId

/-- The middleware `hasActiveParticipation`: the participation put on the request; `none`
is the answer 404. -/
def hasActiveParticipation (s : Store) (contestId : Nat) (user : User) : Option Participation :=
  findActiveParticipation s contestId user._id

/-- The call `Leaderboard.create(entry)`: one more document in the collection. -/
def createLeaderboardEntry (s : Store) (e : LeaderboardEntry) : Store :=
  { s with leaderboard := s.leaderboard ++ [e] }

/-! ## Joining a contest
Route `POST /:contestId/participate`:
`checkContestExists, canParticipate, participateInContest`. -/

/-- The answers of the join route. -/
inductive JoinResponse where
  /-- Status 404: `Contest not found` -/
  | contestNotFound
  /-- Status 400: `Cannot participate in a contest with status: ...` -/
  | statusNotPending (status : ContestStatus)
  /-- Status 403: `This contest is for VIP users only` -/
  | vipOnly
  /-- Status 400: `Contest has reached maximum participants limit` -/
  | maxParticipantsReached
  /-- Status 400: `You are already participating in another contest` (middleware) -/
  | inAnotherContest
  /-- Status 400: `You are already participating in this contest` -/
  | inThisContest
  /-- Status 400: `You are already participating in another active contest` (controller) -/
  | inAnotherActiveContest
  /-- Status 201: `Successfully registered for the contest` -/
  | registered (participation : Participation)

/-- The query both `canParticipate` and `participateInContest` run under the comment
"Check if user is already participating in another ... contest": the one pending
participation `findOne` returns, and whether its contest is pending or live. -/
def hasActiveContest (s : Store) (userId : Nat) : Bool :=
  match findPendingOfUser s userId with
  | none => false
  | some activeParticipation =>
    match findContestById s activeParticipation.contestId with
    | none => false
    | some activeContest =>
      activeContest.status == .pending || activeContest.status == .live

/-- The middleware `canParticipate`: `none` is `next()`. -/
def canParticipate (s : Store) (contest : Contest) (user : User) : Option JoinResponse :=
  if contest.status != .pending then
    some (.statusNotPending contest.status)
  else if contest.isVipOnly && user.userType != .VIP then
    some .vipOnly
  else if (contest.participantsCount : ℚ) ≥ contest.maxParticipants then
    some .maxParticipantsReached
  else if hasActiveContest s user._id then
    some .inAnotherContest
  else
    none

/-- The clock reads of the join handler: `startTime: new Date()` and the time stamp
written by `Participation.create`. -/
structure JoinClock where
  started : Int
  saved : Int

/-- The document `participateInContest` creates. -/
def newParticipation (s : Store) (contestId userId : Nat) (clk : JoinClock) : Participation :=
  { _id := s.nextId
    contestId := contestId
    userId := userId
    score := 0
    submissionState := .pending
    submissionTime := none
    currentQuestionIndex := 0
    answers := []
    startTime := clk.started
    updatedAt := clk.saved }

/-- The handler `participateInContest`. -/
def participateInContest (s : Store) (contestId : Nat) (user : User) (clk : JoinClock) :
    JoinResponse × Store :=
  match findContestById s contestId with
  | none => (.contestNotFound, s)
  | some contest =>
    if contest.status != .pending then
      (.statusNotPending contest.status, s)
    else if contest.isVipOnly && user.userType != .VIP then
      (.vipOnly, s)
    else if (findParticipation s contest._id user._id).isSome then
      (.inThisContest, s)
    else if hasActiveContest s user._id then
      (.inAnotherActiveContest, s)
    else
      let participation := newParticipation s contest._id user._id clk
      (.registered participation,
        { s with
          participations := s.participations ++ [participation]
          contests := updateFirst (fun c => c._id == contest._id)
            (fun c => { c with participantsCount := c.participantsCount + 1 }) s.contests
          nextId := s.nextId + 1 })

/-- The join route: `checkContestExists`, then `canParticipate`, then the handler. -/
def join (s : Store) (contestId : Nat) (user : User) (clk : JoinClock) : JoinResponse × Store :=
  match checkContestExists s contestId with
  | none => (.contestNotFound, s)
  | some contest =>
    match canParticipate s contest user with
    | some rejection => (rejection, s)
    | none => participateInContest s contestId user clk

/-! ## Submitting an answer
Route `POST /:contestId/submit-answer`:
`checkContestExists, hasActiveParticipation, validateQuestionSubmission, submitAnswer`. -/

/-- The body of a submit-answer request; a key that is absent reads as `undefined`,
here `none`. -/
structure AnswerBody where
  questionIndex : Option JsVal
  selectedOptions : Option JsVal

/-- The clock reads of one submit-answer request, in program order: `currentTime` of
`validateQuestionSubmission`, `currentTime` of `submitAnswer`, the `new Date()` stored
as `submissionTime`, and the time stamp `save()` writes to `updatedAt`. -/
structure AnswerClock where
  validated : Int
  checked : Int
  submitted : Int
  saved : Int

/-- Field `data` of the answer 200 of `submitAnswer`. -/
structure AnswerData where
  isCorrect : Bool
  scoreForQuestion : Int
  totalScore : Int
  nextQuestionIndex : Nat
  isContestCompleted : Bool
  deriving DecidableEq, Repr

/-- The answers of the submit-answer route. -/
inductive AnswerResponse where
  /-- Status 404: `Contest not found` -/
  | contestNotFound
  /-- Status 404: `No active participation found for this contest` -/
  | noActiveParticipation
  /-- Status 400: `Invalid question index` -/
  | invalidQuestionIndex
  /-- Status 400: `Time limit exceeded for this question` -/
  | timeLimitExceeded
  /-- Status 400: `Please provide questionIndex and selectedOptions` -/
  | missingFields
  /-- Status 404: `Contest or question not found` -/
  | questionNotFound
  /-- Status 200: `Correct answer!` or `Incorrect answer` -/
  | ok (data : AnswerData)
  deriving DecidableEq, Repr

/-- The test `questionIndex !== participation.currentQuestionIndex`, negated. -/
def indexMatches (questionIndex : Option JsVal) (currentQuestionIndex : Nat) : Bool :=
  match questionIndex with
  | none => false
  | some v => strictEq v (.num currentQuestionIndex)

/-- The test `elapsedSeconds > config.QUESTION_TIME_LIMIT`, where
`elapsedSeconds = (currentTime - questionStartTime) / 1000`; on whole milliseconds the
quotient exceeds the limit exactly when the difference exceeds a thousand times it. -/
def timeLimitExceeded (currentTime questionStartTime : Int) : Bool :=
  decide (currentTime - questionStartTime > QUESTION_TIME_LIMIT * 1000)

/-- The middleware `validateQuestionSubmission`: `none` is `next()`. -/
def validateQuestionSubmission (participation : Participation) (body : AnswerBody)
    (clk : AnswerClock) : Option AnswerResponse :=
  if !indexMatches body.questionIndex participation.currentQuestionIndex then
    some .invalidQuestionIndex
  else if timeLimitExceeded clk.validated participation.updatedAt then
    some .timeLimitExceeded
  else
    none

/-- The populated `contest.questions` of `submitAnswer`, with `limit: 1` and
`skip: questionIndex`: the question documents of a contest are stored in the order of
`contest.questions`, so the result is the question at that position, if there is one. -/
def populateQuestion (contest : Contest) (questionIndex : Nat) : List Question :=
  (contest.questions.drop questionIndex).take 1

/-- The three updates of `submitAnswer` under "Save the answer", "Update score" and
"Move to next question", on the participation in memory. -/
def recordAnswer (participation : Participation) (currentQuestion : Question)
    (selectedOptions : JsVal) (scoreForQuestion : Int) : Participation :=
  { participation with
    answers := participation.answers ++
      [{ questionId := currentQuestion._id, selectedOptions := selectedOptions }]
    score := participation.score + scoreForQuestion
    currentQuestionIndex := participation.currentQuestionIndex + 1 }

/-- The handler `submitAnswer`. -/
def submitAnswer (s : Store) (contestId : Nat) (user : User) (body : AnswerBody)
    (clk : AnswerClock) : AnswerResponse × Store :=
  match body.questionIndex, body.selectedOptions with
  | none, _ => (.missingFields, s)
  | _, none => (.missingFields, s)
  | some _, some selectedOptions =>
    match findActiveParticipation s contestId user._id with
    | none => (.noActiveParticipation, s)
    | some participation =>
      if !indexMatches body.questionIndex participation.currentQuestionIndex then
        (.invalidQuestionIndex, s)
      else
        match findContestById s contestId with
        | none => (.questionNotFound, s)
        | some contest =>
          match populateQuestion contest participation.currentQuestionIndex with
          | [] => (.questionNotFound, s)
          | currentQuestion :: _ =>
            if timeLimitExceeded clk.checked participation.updatedAt then
              (.timeLimitExceeded, s)
            else
              let result := evaluate currentQuestion selectedOptions
              let answered :=
                recordAnswer participation currentQuestion selectedOptions result.scoreForQuestion
              let completion : Participation × Store :=
                if answered.currentQuestionIndex ≥ QUESTIONS_PER_CONTEST then
                  let finished : Participation :=
                    { answered with
                      submissionState := .submitted
                      submissionTime := some clk.submitted }
                  (finished, createLeaderboardEntry s
                    { contestId := contest._id
                      userId := user._id
                      participationId := finished._id
                      score := finished.score
                      submissionTime := finished.submissionTime })
                else
                  (answered, s)
              (.ok
                { isCorrect := result.isCorrect
                  scoreForQuestion := result.scoreForQuestion
                  totalScore := completion.1.score
                  nextQuestionIndex := completion.1.currentQuestionIndex
                  isContestCompleted := completion.1.submissionState == .submitted },
                saveParticipation completion.2 { completion.1 with updatedAt := clk.saved })

/-- The submit-answer route. -/
def submitAnswerRoute (s : Store) (contestId : Nat) (user : User) (body : AnswerBody)
    (clk : AnswerClock) : AnswerResponse × Store :=
  match checkContestExists s contestId with
  | none => (.contestNotFound, s)
  | some _ =>
    match hasActiveParticipation s contestId user with
    | none => (.noActiveParticipation, s)
    | some participation =>
      match validateQuestionSubmission participation body clk with
      | some rejection => (rejection, s)
      | none => submitAnswer s contestId user body clk

/-! ## Submitting the whole contest
Route `POST /:contestId/submit-contest`:
`checkContestExists, hasActiveParticipation, submitContest`. -/

/-- The clock reads of one submit-contest request: the `new Date()` stored as
`submissionTime` and the time stamp `save()` writes to `updatedAt`. -/
structure SubmitClock where
  submitted : Int
  saved : Int

/-- The answers of the submit-contest route. -/
inductive SubmitResponse where
  /-- Status 404: `Contest not found` -/
  | contestNotFound
  /-- Status 404: `No active participation found for this contest` -/
  | noActiveParticipation
  /-- Status 200: `Contest submitted successfully`, with `totalScore` and `questionsAnswered` -/
  | ok (totalScore : Int) (questionsAnswered : Nat)
  deriving DecidableEq, Repr

/-- The HTTP status of an answer of the submit-contest route. -/
def SubmitResponse.status : SubmitResponse → Nat
  | .contestNotFound => 404
  | .noActiveParticipation => 404
  | .ok _ _ => 200

/-- The handler `submitContest`. -/
def submitContest (s : Store) (contestId : Nat) (user : User) (clk : SubmitClock) :
    SubmitResponse × Store :=
  match findActiveParticipation s contestId user._id with
  | none => (.noActiveParticipation, s)
  | some participation =>
    let updated : Participation :=
      { participation with
        submissionState := .submitted
        submissionTime := some clk.submitted }
    let s1 := saveParticipation s { updated with updatedAt := clk.saved }
    let s2 := createLeaderboardEntry s1
      { contestId := contestId
        userId := user._id
        participationId := updated._id
        score := updated.score
        submissionTime := updated.submissionTime }
    (.ok updated.score updated.answers.length, s2)

/-- The submit-contest route. -/
def submitContestRoute (s : Store) (contestId : Nat) (user : User) (clk : SubmitClock) :
    SubmitResponse × Store :=
  match checkContestExists s contestId with
  | none => (.contestNotFound, s)
  | some _ =>
    match hasActiveParticipation s contestId user with
    | none => (.noActiveParticipation, s)
    | some _ => submitContest s contestId user clk

/-! ## The leaderboard
Route `GET /:contestId/leaderboard`: `checkContestExists, getLeaderboard`. -/

/-- The query parameters `page` and `limit` after `parseInt(..., 10)`: `none` stands for
an absent parameter or one that is not a number (negative numbers are not modelled). -/
structure LeaderboardQuery where
  page : Option Nat
  limit : Option Nat

/-- The expression `parseInt(..., 10) || fallback`: 0 and `NaN` give the fallback. -/
def orDefault (parsed : Option Nat) (fallback : Nat) : Nat :=
  match parsed with
  | none => fallback
  | some 0 => fallback
  | some n => n

/-- One element of `data` of the paged listing (without the populated user name). -/
structure RankedEntry where
  rank : Nat
  userId : Nat
  score : Int
  submissionTime : Option Int
  deriving DecidableEq, Repr

/-- Field `pagination` of the paged listing. -/
structure Pagination where
  page : Nat
  limit : Nat
  total : Nat
  pages : Nat
  deriving DecidableEq, Repr

/-- The answers of `getLeaderboard`. -/
inductive LeaderboardResponse where
  /-- Status 404: `Contest not found` -/
  | contestNotFound
  /-- Status 403: `Access to VIP contest leaderboard is restricted` -/
  | restricted
  /-- Status 404: `You are not on the leaderboard for this contest` -/
  | notOnLeaderboard
  /-- Status 200: `myPosition`, with `rank`, `score` and `submissionTime` -/
  | myPosition (rank : Nat) (score : Int) (submissionTime : Option Int)
  /-- Status 200: the paged listing, with `count`, `pagination` and `data` -/
  | listing (count : Nat) (pagination : Pagination) (data : List RankedEntry)
  deriving DecidableEq, Repr

/-- The ascending order of the sort on `submissionTime`: a document without the field
comes before every date. -/
def timeAscending : Option Int → Option Int → Bool
  | none, _ => true
  | some _, none => false
  | some a, some b => decide (a ≤ b)

/-- The order of `.sort({ score: -1, submissionTime: 1 })`: `a` may stand before `b`. -/
def sortsBefore (a b : LeaderboardEntry) : Bool :=
  decide (a.score > b.score) ||
    (a.score == b.score && timeAscending a.submissionTime b.submissionTime)

/-- The query `Leaderboard.find({ contestId }).sort({ score: -1, submissionTime: 1 })`;
entries that the sort keys do not tell apart keep their insertion order. -/
def sortedLeaderboard (s : Store) (contestId : Nat) : List LeaderboardEntry :=
  (s.leaderboard.filter (fun e => e.contestId == contestId)).insertionSort
    (fun a b => sortsBefore a b = true)

/-- The comparison `submissionTime: { $lt: ... }` of a query: only a stored date that is
earlier matches. -/
def timeBefore : Option Int → Option Int → Bool
  | some a, some b => decide (a < b)
  | _, _ => false

/-- The filter `$or: [{ score: { $gt: userPosition.score } }, { score:
userPosition.score, submissionTime: { $lt: userPosition.submissionTime } }]` on an
entry `e`. -/
def ranksAbove (userPosition e : LeaderboardEntry) : Bool :=
  decide (e.score > userPosition.score) ||
    (e.score == userPosition.score && timeBefore e.submissionTime userPosition.submissionTime)

/-- The test `!req.user || (req.user.userType !== 'VIP' && !req.user.isAdmin)`. -/
def vipAccessDenied (user : Option User) : Bool :=
  match user with
  | none => true
  | some u => u.userType != .VIP && !u.isAdmin

/-- The test `contest.status !== 'live' && !contest.isVipOnly && req.user &&
!req.user.isAdmin && req.user.userType !== 'VIP'`; when it holds, the user. -/
def ownResultOnly (contest : Contest) (user : Option User) : Option User :=
  match user with
  | none => none
  | some u =>
    if contest.status != .live && !contest.isVipOnly && !u.isAdmin && u.userType != .VIP then
      some u
    else
      none

/-- The handler `getLeaderboard`; `user` is `req.user`. -/
def getLeaderboard (s : Store) (contestId : Nat) (user : Option User)
    (query : LeaderboardQuery) : LeaderboardResponse :=
  match findContestById s contestId with
  | none => .contestNotFound
  | some contest =>
    if contest.isVipOnly && vipAccessDenied user then
      .restricted
    else
      match ownResultOnly contest user with
      | some u =>
        match s.leaderboard.find? (fun e => e.contestId == contest._id && e.userId == u._id) with
        | none => .notOnLeaderboard
        | some userPosition =>
          let higherScores :=
            (s.leaderboard.filter
              (fun e => e.contestId == contest._id && ranksAbove userPosition e)).length
          .myPosition (higherScores + 1) userPosition.score userPosition.submissionTime
      | none =>
        let page := orDefault query.page 1
        let limit := orDefault query.limit 10
        let skip := (page - 1) * limit
        let leaderboard := ((sortedLeaderboard s contest._id).drop skip).take limit
        let total := (s.leaderboard.filter (fun e => e.contestId == contest._id)).length
        .listing leaderboard.length
          { page := page, limit := limit, total := total, pages := (total + limit - 1) / limit }
          (leaderboard.enum.map (fun (index, entry) =>
            { rank := skip + index + 1
              userId := entry.userId
              score := entry.score
              submissionTime := entry.submissionTime }))

/-! ## Contest status changes -/

/-- The status update of `cancelContest` (`src/controllers/adminController.js`): only a
pending contest is cancelled, and `contest.save()` runs the hook
`ContestSchema.pre('save', ...)`, which throws unless the contest has exactly
`QUESTIONS_PER_CONTEST` questions (the handler then answers 500 and nothing is
written). -/
def cancelContest (s : Store) (contestId : Nat) : Store :=
  match findContestById s contestId with
  | none => s
  | some contest =>
    if contest.status != .pending then s
    else if contest.questions.length != QUESTIONS_PER_CONTEST then s
    else
      { s with
        contests := updateFirst (fun c => c._id == contest._id)
          (fun c => { c with status := .cancelled }) s.contests }

/-- Modelled from the spec: the scheduler that drives `pending → live → complete` is not
part of the sources; a step moves one contest along this chain and changes nothing
else. -/
def advanceStatus (s : Store) (contestId : Nat) : Store :=
  { s with
    contests := updateFirst (fun c => c._id == contestId)
      (fun c =>
        match c.status with
        | .pending => { c with status := .live }
        | .live => { c with status := .complete }
        | _ => c) s.contests }

/-! ## Runs of the system -/

/-- One request or status change. -/
inductive Op where
  | join (contestId : Nat) (user : User) (clk : JoinClock)
  | submitAnswer (contestId : Nat) (user : User) (body : AnswerBody) (clk : AnswerClock)
  | submitContest (contestId : Nat) (user : User) (clk : SubmitClock)
  | cancelContest (contestId : Nat)
  | advanceStatus (contestId : Nat)

/-- The store after one operation. -/
def step (s : Store) : Op → Store
  | .join contestId user clk => (join s contestId user clk).2
  | .submitAnswer contestId user body clk => (submitAnswerRoute s contestId user body clk).2
  | .submitContest contestId user clk => (submitContestRoute s contestId user clk).2
  | .cancelContest contestId => cancelContest s contestId
  | .advanceStatus contestId => advanceStatus s contestId

/-- The store after a sequence of operations. -/
def run (s : Store) (ops : List Op) : Store :=
  ops.foldl step s

/-- A store that holds the given contests and neither participations nor leaderboard
entries. -/
def emptyStore (contests : List Contest) : Store :=
  { contests := contests, participations := [], leaderboard := [], nextId := 0 }

/-- The states the system reaches from `emptyStore contests`. -/
def Reachable (contests : List Contest) (s : Store) : Prop :=
  ∃ ops : List Op, run (emptyStore contests) ops = s

/-! ## The single-active-contest rule -/

/-- A participation is active: it is pending and its contest is pending or live. -/
def isActive (s : Store) (p : Participation) : Bool :=
  p.submissionState == .pending &&
    match findContestById s p.contestId with
    | none => false
    | some contest => contest.status == .pending || contest.status == .live

/-- The active participations of a user. -/
def activeParticipations (s : Store) (userId : Nat) : List Participation :=
  s.participations.filter (fun p => p.userId == userId && isActive s p)

/-- The rule: every user has at most one active participation. -/
def SingleActive (s : Store) : Prop :=
  ∀ userId : Nat, (activeParticipations s userId).length ≤ 1

/-! ## Sample data -/

/-- A multiple-choice question whose correct options are the indices 0 and 2. -/
def sampleMultiple : Question :=
  { _id := 7, questionType := .multiple, correctOption := indexArray [0, 2], score := 5 }

/-- A single-choice question whose correct option is the index 0. -/
def sampleQuestion (contestId i : Nat) : Question :=
  { _id := 100 * contestId + i, questionType := .single, correctOption := .num 0, score := 5 }

/-- A pending contest open to all users, with fifteen questions and room for fifty. -/
def sampleContest (contestId : Nat) : Contest :=
  { _id := contestId
    status := .pending
    participantsCount := 0
    maxParticipants := 50
    isVipOnly := false
    questions := (List.range QUESTIONS_PER_CONTEST).map (sampleQuestion contestId) }

/-- Three sample contests, with the ids 1, 2 and 3. -/
def sampleContests : List Contest :=
  [sampleContest 1, sampleContest 2, sampleContest 3]

/-- A user of type `Normal`. -/
def sampleUser : User :=
  { _id := 9, userType := .Normal }

/-- A join clock. -/
def sampleJoinClock : JoinClock :=
  { started := 1000, saved := 1000 }

/-- The store after the sample user joined contest 1. -/
def joinedOnce : Store :=
  run (emptyStore sampleContests) [.join 1 sampleUser sampleJoinClock]

/-- The store after the sample user joined contest 1, contest 1 was cancelled, the user
joined contest 2, and contest 2 went live. -/
def staleThenLive : Store :=
  run (emptyStore sampleContests)
    [.join 1 sampleUser sampleJoinClock, .cancelContest 1,
     .join 2 sampleUser sampleJoinClock, .advanceStatus 2]

/-- The operations: the sample user joins contest 1, contest 1 is cancelled, and the user
joins contest 2 and contest 3. -/
def doubleJoinOps : List Op :=
  [.join 1 sampleUser sampleJoinClock, .cancelContest 1,
   .join 2 sampleUser sampleJoinClock, .join 3 sampleUser sampleJoinClock]

/-- The clock of a submit-answer request whose reads are all 61000 ms: exactly sixty
seconds after the time stamp 1000 of `sampleJoinClock`. -/
def sampleAnswerClock : AnswerClock :=
  { validated := 61000, checked := 61000, submitted := 61000, saved := 61000 }

/-- The first question of sample contest 1, answered with the index 0. -/
def sampleBody : AnswerBody :=
  { questionIndex := some (.num 0), selectedOptions := some (.num 0) }

/-- The participation of the sample user in contest 1 with fourteen questions answered
correctly. -/
def sampleLastQuestion : Participation :=
  { _id := 0
    contestId := 1
    userId := 9
    score := 70
    submissionState := .pending
    submissionTime := none
    currentQuestionIndex := 14
    answers := (List.range 14).map
      (fun i => { questionId := 100 + i, selectedOptions := JsVal.num 0 })
    startTime := 1000
    updatedAt := 1000 }

/-- The store in which the sample user is at the last question of contest 1. -/
def lastQuestionStore : Store :=
  { contests := [{ sampleContest 1 with participantsCount := 1 }, sampleContest 2]
    participations := [sampleLastQuestion]
    leaderboard := []
    nextId := 1 }

/-! ## Consistency of the store -/

/-- The test `submissionState === 'submitted'`. -/
def isSubmitted (p : Participation) : Bool :=
  p.submissionState == .submitted

/-- The consistency of a store: the participation ids are below the next fresh id and
pairwise distinct, no two participations have the same contest and user, and the
leaderboard entries correspond one to one to the submitted participations (an entry names
the participation and its contest). -/
structure Consistent (s : Store) : Prop where
  idsBelow : ∀ p ∈ s.participations, p._id < s.nextId
  idsDistinct : (s.participations.map (fun p => p._id)).Nodup
  pairsDistinct : (s.participations.map (fun p => (p.contestId, p.userId))).Nodup
  entries : (s.leaderboard.map (fun e => (e.participationId, e.contestId))).Perm
    ((s.participations.filter isSubmitted).map (fun p => (p._id, p.contestId)))

/-- The relation of a contest document to the same document after some operations: the
id and `maxParticipants` are kept; `participantsCount < maxParticipants + 1` is kept;
and `participantsCount ≤ maxParticipants` is kept when `maxParticipants` is a whole
number. -/
def CapacityKept (c c' : Contest) : Prop :=
  c'._id = c._id ∧ c'.maxParticipants = c.maxParticipants ∧
    ((c.participantsCount : ℚ) < c.maxParticipants + 1 →
      (c'.participantsCount : ℚ) < c'.maxParticipants + 1) ∧
    ((∃ m : Int, c.maxParticipants = m) →
      (c.participantsCount : ℚ) ≤ c.maxParticipants →
      (c'.participantsCount : ℚ) ≤ c'.maxParticipants)

/-! ## Answering a whole contest -/

/-- The request that answers question `k` of the contest with its correct option. -/
def correctBody (contest : Contest) (k : Nat) : AnswerBody :=
  { questionIndex := some (.num k)
    selectedOptions := (contest.questions[k]?).map (fun q => q.correctOption) }

/-- The store after the questions `0, ..., k - 1` of the contest were answered in order
with their correct options, request `i` with the clock `clks i`. -/
def answerInOrder (s : Store) (contestId : Nat) (user : User) (contest : Contest)
    (clks : Nat → AnswerClock) : Nat → Store
  | 0 => s
  | k + 1 =>
    (submitAnswerRoute (answerInOrder s contestId user contest clks k) contestId user
      (correctBody contest k) (clks k)).2

/-- The value of `updatedAt` that times request `k`: the time stamp of the join for the
first request, and of the request before for every other. -/
def clockAnchor (jclk : JoinClock) (clks : Nat → AnswerClock) : Nat → Int
  | 0 => jclk.saved
  | k + 1 => (clks k).saved

/-! ## Sample data for the invariants and the leaderboard -/

/-- The clock of a submit-answer request whose reads are all 61001 ms: one millisecond
more than sixty seconds after the time stamp 1000 of `sampleJoinClock`. -/
def lateAnswerClock : AnswerClock :=
  { validated := 61001, checked := 61001, submitted := 61001, saved := 61001 }

/-- A submit-contest clock. -/
def sampleSubmitClock : SubmitClock :=
  { submitted := 5000, saved := 5000 }

/-- The store after the sample user joined contest 1 and submitted it at once. -/
def submittedOnce : Store :=
  run (emptyStore sampleContests)
    [.join 1 sampleUser sampleJoinClock, .submitContest 1 sampleUser sampleSubmitClock]

/-- The participation of the sample user in `submittedOnce`. -/
def sampleSubmitted : Participation :=
  { _id := 0
    contestId := 1
    userId := 9
    score := 0
    submissionState := .submitted
    submissionTime := some 5000
    currentQuestionIndex := 0
    answers := []
    startTime := 1000
    updatedAt := 5000 }

/-- A user who never joined a contest. -/
def strangerUser : User :=
  { _id := 4, userType := .Normal }

/-- The store after the sample user joined and submitted contest 1 and then joined
contest 2. -/
def submittedThenJoined : Store :=
  run (emptyStore sampleContests)
    [.join 1 sampleUser sampleJoinClock, .submitContest 1 sampleUser sampleSubmitClock,
     .join 2 sampleUser sampleJoinClock]

/-- A pending contest, open to all users, with room for one participant. -/
def smallContest : Contest :=
  { sampleContest 5 with maxParticipants := 1 }

/-- A pending contest, open to all users, whose `maxParticipants` is 2.5. -/
def fractionalContest : Contest :=
  { sampleContest 7 with maxParticipants := mkRat 5 2 }

/-- A third user of type `Normal`. -/
def thirdUser : User :=
  { _id := 5, userType := .Normal }

/-- Three users join the contest with the id 7, one after the other. -/
def threeJoins : List Op :=
  [.join 7 sampleUser sampleJoinClock, .join 7 strangerUser sampleJoinClock,
   .join 7 thirdUser sampleJoinClock]

/-- The store in which the sample user has taken the one place of `smallContest`. -/
def fullStore : Store :=
  run (emptyStore [smallContest]) [.join 5 sampleUser sampleJoinClock]

/-- The leaderboard of the ranking example: in contest 1 user A (id 1) with score 50 at
time 10, user B (id 2) with score 50 at time 5 and user C (id 3) with score 40 at time 1,
and an entry of another contest. -/
def rankingExample : Store :=
  { contests := [sampleContest 1, sampleContest 2]
    participations := []
    leaderboard :=
      [{ contestId := 1, userId := 1, participationId := 11, score := 50,
         submissionTime := some 10 },
       { contestId := 1, userId := 2, participationId := 12, score := 50,
         submissionTime := some 5 },
       { contestId := 2, userId := 7, participationId := 17, score := 90,
         submissionTime := some 1 },
       { contestId := 1, userId := 3, participationId := 13, score := 40,
         submissionTime := some 1 }]
    nextId := 20 }

/-- The clocks of fifteen requests, one second apart, the first one second after the
time stamp 1000 of `sampleJoinClock`. -/
def sampleClocks (k : Nat) : AnswerClock :=
  { validated := 2000 + 1000 * k
    checked := 2000 + 1000 * k
    submitted := 2000 + 1000 * k
    saved := 2000 + 1000 * k }

/-- A primitive JSON value: `null`, a boolean, a number or a string (not an array, not
an object). -/
def isPrimitive : JsVal → Bool
  | .arr _ => false
  | .obj _ => false
  | _ => true

/-- The clock read at which a submit-answer request meets the time limit test that
decides it: the read of the middleware when that test rejects, else the read of the
handler. -/
def timeLimitReadAt (participation : Participation) (clk : AnswerClock) : Int :=
  if timeLimitExceeded clk.validated participation.updatedAt then clk.validated else clk.checked

/-- The operations of a list of submit-answer requests of one user on one contest. -/
def answerOps (contestId : Nat) (user : User) (requests : List (AnswerBody × AnswerClock)) :
    List Op :=
  requests.map (fun r => Op.submitAnswer contestId user r.1 r.2)

/-- A pending contest whose fifteen single-choice questions each have the score -5. -/
def penaltyContest : Contest :=
  { sampleContest 6 with
    questions := (List.range QUESTIONS_PER_CONTEST).map
      (fun i => { sampleQuestion 6 i with score := -5 }) }

/-- The operations: the sample user joins `penaltyContest` and answers its first question
with the correct option. -/
def penaltyOps : List Op :=
  [.join 6 sampleUser sampleJoinClock, .submitAnswer 6 sampleUser sampleBody sampleAnswerClock]

/-- The store after the sample user joined contest 1 and answered its first question
correctly. -/
def answeredOnce : Store :=
  run (emptyStore sampleContests)
    [.join 1 sampleUser sampleJoinClock, .submitAnswer 1 sampleUser sampleBody sampleAnswerClock]

/-- The participation of the sample user in `answeredOnce`. -/
def sampleAnswered : Participation :=
  { _id := 0
    contestId := 1
    userId := 9
    score := 5
    submissionState := .pending
    submissionTime := none
    currentQuestionIndex := 1
    answers := [{ questionId := 100, selectedOptions := .num 0 }]
    startTime := 1000
    updatedAt := 61000 }

/-! ## Stores that differ in the status of a contest -/

/-- Two contest documents that differ at most in `status`. -/
def SameButStatus (c c' : Contest) : Prop :=
  c' = { c with status := c'.status }

/-- Two stores that differ at most in the `status` of their contests. -/
def StatusVariant (s s' : Store) : Prop :=
  List.Forall₂ SameButStatus s.contests s'.contests ∧
    s'.participations = s.participations ∧
    s'.leaderboard = s.leaderboard ∧
    s'.nextId = s.nextId

/-- The store `joinedOnce` with contest 1 complete (it went live and ended). -/
def joinedOnceComplete : Store :=
  run joinedOnce [.advanceStatus 1, .advanceStatus 1]

/-! ## The ranking that the pages are compared with -/

/-- The sorted entries of a contest, the one at position `index` with the rank
`index + 1` and the fields that the listing shows. -/
def fullRanking (s : Store) (contestId : Nat) : List RankedEntry :=
  (sortedLeaderboard s contestId).enum.map (fun (index, entry) =>
    { rank := index + 1
      userId := entry.userId
      score := entry.score
      submissionTime := entry.submissionTime })

/-- Field `data` of an answer of `getLeaderboard`; an answer other than the listing has
no such field. -/
def listingData : LeaderboardResponse → List RankedEntry
  | .listing _ _ data => data
  | _ => []

/-! ## Lemmas on the store -/

theorem strictEq_num_iff (v : JsVal) (c : Int) : strictEq v (.num c) = true ↔ v = .num c := by
  cases v <;> simp [strictEq]

theorem find?_id_eq {α : Type} (key : α → Nat) (l : List α) (id : Nat) (x : α)
    (h : l.find? (fun c => key c == id) = some x) : key x = id := by
  have := List.find?_some h
  simpa using this

theorem updateFirst_of_find? {α : Type} (p : α → Bool) (f : α → α) :
    ∀ (l : List α) (x : α), l.find? p = some x →
      ∃ pre post, l = pre ++ x :: post ∧ (∀ y ∈ pre, p y = false) ∧
        updateFirst p f l = pre ++ f x :: post
  | [], x, h => by simp at h
  | y :: ys, x, h => by
    by_cases hy : p y = true
    · have hx : y = x := by simpa [List.find?, hy] using h
      subst hx
      exact ⟨[], ys, by simp, by simp, by simp [updateFirst, hy]⟩
    · have hy' : p y = false := by simpa using hy
      have h' : ys.find? p = some x := by simpa [List.find?, hy'] using h
      obtain ⟨pre, post, h1, h2, h3⟩ := updateFirst_of_find? p f ys x h'
      refine ⟨y :: pre, post, by simp [h1], ?_, by simp [updateFirst, hy', h3]⟩
      intro z hz
      rcases List.mem_cons.mp hz with rfl | hz
      · exact hy'
      · exact h2 z hz

/-! ## The answer evaluator -/

/-- C1 (failing input): for the multiple-choice question with correct options `[0, 2]`
the selection `[0, 0]` is evaluated correct and earns the full score, although the set
of its elements is not the set of the correct options (2 is missing). -/
theorem C1_duplicate_selection_marked_correct :
    sampleMultiple.questionType = .multiple ∧
    sampleMultiple.correctOption = indexArray [0, 2] ∧
    evaluate sampleMultiple (indexArray [0, 0]) = { isCorrect := true, scoreForQuestion := 5 } ∧
    ¬ (∀ x : Int, x ∈ [0, 0] ↔ x ∈ [0, 2]) := by
  refine ⟨rfl, rfl, by decide, ?_⟩
  intro h
  have h2 := (h 2).2 (by simp)
  simp at h2

/-- C2: a question of type single or boolean with correct index `c` is answered
correctly exactly by the selection that is the number `c`; every other value, of any
shape, is evaluated (the evaluator is a total function) as incorrect with zero points. -/
theorem C2_single_boolean_exact (q : Question) (sel : JsVal) (c : Int)
    (hty : q.questionType = .single ∨ q.questionType = .boolean)
    (hc : q.correctOption = .num c) :
    ((evaluate q sel).isCorrect = true ↔ sel = .num c) ∧
    (sel ≠ .num c → evaluate q sel = { isCorrect := false, scoreForQuestion := 0 }) := by
  have hiff := strictEq_num_iff sel c
  rcases hty with hty | hty <;>
  · by_cases hs : sel = .num c
    · simp [evaluate, hty, hc, hs, strictEq]
    · have hf : strictEq sel (.num c) = false := by
        cases hb : strictEq sel (.num c)
        · rfl
        · exact absurd (hiff.mp hb) hs
      simp [evaluate, hty, hc, hs, hf]

/-- Witness of C2: the boolean-type question with correct index 1, answered with the
array `[1]`, a value of the wrong shape. -/
theorem C2_single_boolean_exact_witness :
    ((evaluate { _id := 3, questionType := .boolean, correctOption := .num 1, score := 5 }
        (indexArray [1])).isCorrect = true ↔ indexArray [1] = .num 1) ∧
    (indexArray [1] ≠ .num 1 →
      evaluate { _id := 3, questionType := .boolean, correctOption := .num 1, score := 5 }
        (indexArray [1]) = { isCorrect := false, scoreForQuestion := 0 }) :=
  C2_single_boolean_exact _ _ 1 (Or.inr rfl) rfl

/-- C3: the points awarded are the question's score when the answer is evaluated correct
and 0 otherwise. -/
theorem C3_points_awarded (q : Question) (sel : JsVal) :
    (evaluate q sel).scoreForQuestion = if (evaluate q sel).isCorrect then q.score else 0 := by
  unfold evaluate
  split
  · split <;> simp
  · split <;> simp
  · split
    · split <;> simp
    · simp

/-! ## Joining -/

/-- C4 (failing input): the sample user already has a participation in contest 1, which
is pending, open to all users and not full; a second join on contest 1 is answered by
the middleware with "You are already participating in another contest", not by the
handler with "You are already participating in this contest". -/
theorem C4_rejoin_answered_as_another_contest :
    (findContestById joinedOnce 1).map (fun c => (c.status, c.isVipOnly)) =
      some (.pending, false) ∧
    (findContestById joinedOnce 1).map
      (fun c => decide ((c.participantsCount : ℚ) < c.maxParticipants)) = some true ∧
    (findParticipation joinedOnce 1 sampleUser._id).isSome = true ∧
    (join joinedOnce 1 sampleUser sampleJoinClock).1 = .inAnotherContest ∧
    (participateInContest joinedOnce 1 sampleUser sampleJoinClock).1 = .inThisContest := by
  refine ⟨by decide, by decide, by decide, rfl, rfl⟩

/-- C5 (failing input): the sample user has a pending participation in contest 2, which
is live, and an older pending participation in contest 1, which is cancelled; contest 3
is pending, open to all users and not full.  The join on contest 3 is accepted and
creates a participation. -/
theorem C5_join_beside_live_contest_accepted :
    (findActiveParticipation staleThenLive 2 sampleUser._id).isSome = true ∧
    (findContestById staleThenLive 2).map (fun c => c.status) = some .live ∧
    (findContestById staleThenLive 3).map (fun c => (c.status, c.isVipOnly)) =
      some (.pending, false) ∧
    (findContestById staleThenLive 3).map
      (fun c => decide ((c.participantsCount : ℚ) < c.maxParticipants)) = some true ∧
    (join staleThenLive 3 sampleUser sampleJoinClock).1 =
      .registered
        { _id := 2, contestId := 3, userId := 9, score := 0, submissionState := .pending,
          submissionTime := none, currentQuestionIndex := 0, answers := [],
          startTime := 1000, updatedAt := 1000 } ∧
    (join staleThenLive 3 sampleUser sampleJoinClock).2.participations.length =
      staleThenLive.participations.length + 1 := by
  refine ⟨by decide, by decide, by decide, by decide, rfl, by decide⟩

/-- C6 (failing run): after the sample user joins contest 1, contest 1 is cancelled, and
the user joins contest 2 and contest 3, the user has two pending participations in
pending contests: the reached state breaks the single-active-contest rule. -/
theorem C6_reachable_state_with_two_active :
    Reachable sampleContests (run (emptyStore sampleContests) doubleJoinOps) ∧
    (activeParticipations (run (emptyStore sampleContests) doubleJoinOps) sampleUser._id).map
      (fun p => (p.contestId, p.submissionState)) = [(2, .pending), (3, .pending)] ∧
    (run (emptyStore sampleContests) doubleJoinOps).contests.map (fun c => (c._id, c.status)) =
      [(1, .cancelled), (2, .pending), (3, .pending)] ∧
    ¬ SingleActive (run (emptyStore sampleContests) doubleJoinOps) := by
  refine ⟨⟨doubleJoinOps, rfl⟩, by decide, by decide, ?_⟩
  intro h
  have h9 := h sampleUser._id
  revert h9
  decide

/-- C7: a join that passes every check of the middleware and of the handler (the contest
exists and is pending, the VIP gate is passed, the contest is not full, the user has no
participation in it, and the active-contest query finds nothing) is answered 201 with the
created participation: pending, index 0, score 0, no answers.  That participation is
appended to the collection, the leaderboard is unchanged, and the contest documents are
unchanged except that the joined contest's `participantsCount` grows by 1. -/
theorem C7_join_creates_participation (s : Store) (contestId : Nat) (contest : Contest)
    (user : User) (clk : JoinClock)
    (hfind : findContestById s contestId = some contest)
    (hstatus : contest.status = .pending)
    (hvip : contest.isVipOnly = true → user.userType = .VIP)
    (hroom : (contest.participantsCount : ℚ) < contest.maxParticipants)
    (hnew : findParticipation s contestId user._id = none)
    (hfree : hasActiveContest s user._id = false) :
    ∃ p : Participation,
      (join s contestId user clk).1 = .registered p ∧
      p.contestId = contestId ∧ p.userId = user._id ∧
      p.submissionState = .pending ∧ p.currentQuestionIndex = 0 ∧ p.score = 0 ∧
      p.answers = [] ∧ p.submissionTime = none ∧
      (join s contestId user clk).2.participations = s.participations ++ [p] ∧
      (join s contestId user clk).2.leaderboard = s.leaderboard ∧
      ∃ pre post, s.contests = pre ++ contest :: post ∧
        (∀ c ∈ pre, c._id ≠ contestId) ∧
        (join s contestId user clk).2.contests =
          pre ++ { contest with participantsCount := contest.participantsCount + 1 } :: post := by
  have hid : contest._id = contestId :=
    find?_id_eq (fun c : Contest => c._id) s.contests contestId contest hfind
  have hvip' : (contest.isVipOnly && user.userType != .VIP) = false := by
    cases hv : contest.isVipOnly
    · simp
    · simp [hvip hv]
  have hroom' : ¬ (contest.participantsCount : ℚ) ≥ contest.maxParticipants :=
    not_le.mpr hroom
  have hjoin : join s contestId user clk =
      (.registered (newParticipation s contestId user._id clk),
        { s with
          participations := s.participations ++ [newParticipation s contestId user._id clk]
          contests := updateFirst (fun c => c._id == contestId)
            (fun c => { c with participantsCount := c.participantsCount + 1 }) s.contests
          nextId := s.nextId + 1 }) := by
    simp [join, checkContestExists, canParticipate, participateInContest, hfind, hstatus, hvip',
      hroom', hfree, hid, hnew]
  obtain ⟨pre, post, h1, h2, h3⟩ := updateFirst_of_find? (fun c : Contest => c._id == contestId)
    (fun c => { c with participantsCount := c.participantsCount + 1 }) s.contests contest hfind
  refine ⟨newParticipation s contestId user._id clk, ?_⟩
  rw [hjoin]
  refine ⟨rfl, rfl, rfl, rfl, rfl, rfl, rfl, rfl, rfl, rfl, pre, post, h1, ?_, h3⟩
  intro c hc
  simpa using h2 c hc

/-- Witness of C7: the sample user joins contest 1 of the sample store. -/
theorem C7_join_creates_participation_witness :
    ∃ p : Participation,
      (join (emptyStore sampleContests) 1 sampleUser sampleJoinClock).1 = .registered p ∧
      p.contestId = 1 ∧ p.userId = sampleUser._id ∧
      p.submissionState = .pending ∧ p.currentQuestionIndex = 0 ∧ p.score = 0 ∧
      p.answers = [] ∧ p.submissionTime = none ∧
      (join (emptyStore sampleContests) 1 sampleUser sampleJoinClock).2.participations =
        (emptyStore sampleContests).participations ++ [p] ∧
      (join (emptyStore sampleContests) 1 sampleUser sampleJoinClock).2.leaderboard =
        (emptyStore sampleContests).leaderboard ∧
      ∃ pre post, (emptyStore sampleContests).contests = pre ++ sampleContest 1 :: post ∧
        (∀ c ∈ pre, c._id ≠ 1) ∧
        (join (emptyStore sampleContests) 1 sampleUser sampleJoinClock).2.contests =
          pre ++ { sampleContest 1 with
            participantsCount := (sampleContest 1).participantsCount + 1 } :: post :=
  C7_join_creates_participation (emptyStore sampleContests) 1 (sampleContest 1) sampleUser
    sampleJoinClock rfl rfl (by decide) (by decide) rfl rfl

theorem indexMatches_iff (questionIndex : Option JsVal) (i : Nat) :
    indexMatches questionIndex i = true ↔ questionIndex = some (.num i) := by
  cases questionIndex with
  | none => simp [indexMatches]
  | some v => simp [indexMatches, strictEq_num_iff]

theorem timeLimitExceeded_iff (now start : Int) :
    timeLimitExceeded now start = true ↔ now - start > QUESTION_TIME_LIMIT * 1000 := by
  simp [timeLimitExceeded]

theorem populateQuestion_eq (contest : Contest) (i : Nat) :
    populateQuestion contest i = (contest.questions[i]?).toList := by
  unfold populateQuestion
  generalize contest.questions = l
  induction l generalizing i with
  | nil => simp
  | cons x xs ih =>
    cases i with
    | zero => simp
    | succ n => simpa using ih n

theorem find?_updateFirst_same {α : Type} (p : α → Bool) (y : α) (hy : p y = true) :
    ∀ (l : List α) (x : α), l.find? p = some x →
      (updateFirst p (fun _ => y) l).find? p = some y
  | [], x, h => by simp at h
  | z :: zs, x, h => by
    by_cases hz : p z = true
    · simp [updateFirst, hz, List.find?, hy]
    · have hz' : p z = false := by simpa using hz
      have h' : zs.find? p = some x := by simpa [List.find?, hz'] using h
      simpa [updateFirst, hz', List.find?] using find?_updateFirst_same p y hy zs x h'

theorem find?_mem_of_find? {α : Type} (p q : α → Bool) (l : List α) (x : α)
    (h : l.find? p = some x) (hq : q x = true) : ∃ y, l.find? q = some y := by
  have hx : x ∈ l := List.mem_of_find?_eq_some h
  cases hf : l.find? q with
  | some y => exact ⟨y, rfl⟩
  | none =>
    have := List.find?_eq_none.mp hf x hx
    simp [hq] at this

/-! ## The submit-answer route, case by case -/

theorem submitAnswerRoute_no_participation (s : Store) (contestId : Nat) (contest : Contest)
    (user : User) (body : AnswerBody) (clk : AnswerClock)
    (hfind : findContestById s contestId = some contest)
    (hnone : findActiveParticipation s contestId user._id = none) :
    submitAnswerRoute s contestId user body clk = (.noActiveParticipation, s) := by
  simp [submitAnswerRoute, checkContestExists, hasActiveParticipation, hfind, hnone]

theorem submitAnswerRoute_wrong_index (s : Store) (contestId : Nat) (contest : Contest)
    (user : User) (body : AnswerBody) (clk : AnswerClock) (p : Participation)
    (hfind : findContestById s contestId = some contest)
    (hp : findActiveParticipation s contestId user._id = some p)
    (hidx : indexMatches body.questionIndex p.currentQuestionIndex = false) :
    submitAnswerRoute s contestId user body clk = (.invalidQuestionIndex, s) := by
  simp [submitAnswerRoute, checkContestExists, hasActiveParticipation, hfind, hp,
    validateQuestionSubmission, hidx]

theorem submitAnswerRoute_late (s : Store) (contestId : Nat) (contest : Contest)
    (user : User) (body : AnswerBody) (clk : AnswerClock) (p : Participation) (q : Question)
    (sel : JsVal)
    (hfind : findContestById s contestId = some contest)
    (hp : findActiveParticipation s contestId user._id = some p)
    (hidx : indexMatches body.questionIndex p.currentQuestionIndex = true)
    (hsel : body.selectedOptions = some sel)
    (hq : contest.questions[p.currentQuestionIndex]? = some q)
    (hlate : timeLimitExceeded clk.checked p.updatedAt = true) :
    submitAnswerRoute s contestId user body clk = (.timeLimitExceeded, s) := by
  have hqi := (indexMatches_iff _ _).mp hidx
  by_cases h1 : timeLimitExceeded clk.validated p.updatedAt = true
  · simp [submitAnswerRoute, checkContestExists, hasActiveParticipation, hfind, hp,
      validateQuestionSubmission, hidx, h1]
  · have h1' : timeLimitExceeded clk.validated p.updatedAt = false := by simpa using h1
    simp [submitAnswerRoute, checkContestExists, hasActiveParticipation, hfind, hp,
      validateQuestionSubmission, hidx, h1', submitAnswer, hqi, hsel, populateQuestion_eq, hq,
      hlate]
    simp [hqi] at hidx
    simp [hidx]

theorem findActiveParticipation_spec (s : Store) (contestId userId : Nat) (p : Participation)
    (hp : findActiveParticipation s contestId userId = some p) :
    p ∈ s.participations ∧ p.contestId = contestId ∧ p.userId = userId ∧
      p.submissionState = .pending := by
  have hmem : p ∈ s.participations := List.mem_of_find?_eq_some hp
  have := List.find?_some hp
  simp at this
  exact ⟨hmem, this.1.1, this.1.2, this.2⟩

theorem submitAnswerRoute_accept (s : Store) (contestId : Nat) (contest : Contest)
    (user : User) (body : AnswerBody) (clk : AnswerClock) (p : Participation) (q : Question)
    (sel : JsVal)
    (hfind : findContestById s contestId = some contest)
    (hp : findActiveParticipation s contestId user._id = some p)
    (hidx : indexMatches body.questionIndex p.currentQuestionIndex = true)
    (hsel : body.selectedOptions = some sel)
    (hq : contest.questions[p.currentQuestionIndex]? = some q)
    (h1 : timeLimitExceeded clk.validated p.updatedAt = false)
    (h2 : timeLimitExceeded clk.checked p.updatedAt = false) :
    submitAnswerRoute s contestId user body clk =
      if QUESTIONS_PER_CONTEST ≤ p.currentQuestionIndex + 1 then
        (.ok
          { isCorrect := (evaluate q sel).isCorrect
            scoreForQuestion := (evaluate q sel).scoreForQuestion
            totalScore := p.score + (evaluate q sel).scoreForQuestion
            nextQuestionIndex := p.currentQuestionIndex + 1
            isContestCompleted := true },
          saveParticipation
            (createLeaderboardEntry s
              { contestId := contestId
                userId := user._id
                participationId := p._id
                score := p.score + (evaluate q sel).scoreForQuestion
                submissionTime := some clk.submitted })
            { recordAnswer p q sel (evaluate q sel).scoreForQuestion with
              submissionState := .submitted
              submissionTime := some clk.submitted
              updatedAt := clk.saved })
      else
        (.ok
          { isCorrect := (evaluate q sel).isCorrect
            scoreForQuestion := (evaluate q sel).scoreForQuestion
            totalScore := p.score + (evaluate q sel).scoreForQuestion
            nextQuestionIndex := p.currentQuestionIndex + 1
            isContestCompleted := false },
          saveParticipation s
            { recordAnswer p q sel (evaluate q sel).scoreForQuestion with
              updatedAt := clk.saved }) := by
  have hqi := (indexMatches_iff _ _).mp hidx
  have hid : contest._id = contestId :=
    find?_id_eq (fun c : Contest => c._id) s.contests contestId contest hfind
  have hpend := (findActiveParticipation_spec s contestId user._id p hp).2.2.2
  have hidx' : indexMatches (some (JsVal.num ↑p.currentQuestionIndex)) p.currentQuestionIndex
      = true := by simpa [hqi] using hidx
  by_cases hN : QUESTIONS_PER_CONTEST ≤ p.currentQuestionIndex + 1
  · simp [submitAnswerRoute, checkContestExists, hasActiveParticipation, hfind, hp,
      validateQuestionSubmission, hidx, h1, submitAnswer, hqi, hsel, populateQuestion_eq, hq,
      h2, hidx', recordAnswer, hN, hid]
  · simp [submitAnswerRoute, checkContestExists, hasActiveParticipation, hfind, hp,
      validateQuestionSubmission, hidx, h1, submitAnswer, hqi, hsel, populateQuestion_eq, hq,
      h2, hidx', recordAnswer, hN, hpend]

theorem timeLimitExceeded_mono (t1 t2 start : Int) (h : t1 ≤ t2)
    (h2 : timeLimitExceeded t2 start = false) : timeLimitExceeded t1 start = false := by
  simp [timeLimitExceeded] at h2 ⊢
  omega

theorem submitAnswerRoute_ok_inv (s : Store) (contestId : Nat) (contest : Contest)
    (user : User) (body : AnswerBody) (clk : AnswerClock) (p : Participation) (q : Question)
    (sel : JsVal) (d : AnswerData)
    (hfind : findContestById s contestId = some contest)
    (hp : findActiveParticipation s contestId user._id = some p)
    (hsel : body.selectedOptions = some sel)
    (hq : contest.questions[p.currentQuestionIndex]? = some q)
    (hok : (submitAnswerRoute s contestId user body clk).1 = .ok d) :
    indexMatches body.questionIndex p.currentQuestionIndex = true ∧
    timeLimitExceeded clk.validated p.updatedAt = false ∧
    timeLimitExceeded clk.checked p.updatedAt = false := by
  by_cases hidx : indexMatches body.questionIndex p.currentQuestionIndex = true
  · refine ⟨hidx, ?_, ?_⟩
    · cases h1 : timeLimitExceeded clk.validated p.updatedAt
      · rfl
      · simp [submitAnswerRoute, checkContestExists, hasActiveParticipation, hfind, hp,
          validateQuestionSubmission, hidx, h1] at hok
    · cases h2 : timeLimitExceeded clk.checked p.updatedAt
      · rfl
      · rw [submitAnswerRoute_late s contestId contest user body clk p q sel hfind hp hidx hsel
          hq h2] at hok
        cases hok
  · have hidx' : indexMatches body.questionIndex p.currentQuestionIndex = false := by
      simpa using hidx
    rw [submitAnswerRoute_wrong_index s contestId contest user body clk p hfind hp hidx'] at hok
    cases hok

/-! ## Submitting an answer -/

/-- C9: when the route answers 200 to a request of the caller whose pending participation
is `p`, with `q` the question at `p.currentQuestionIndex` and `sel` the selection, the
participation stored under `p._id` afterwards has the answers of `p` followed by the one
record `(q._id, sel)`, the score of `p` plus the points the evaluator awards for
`(q, sel)`, and the index of `p` plus one; the response reports that score as
`totalScore` and that index as `nextQuestionIndex`. -/
theorem C9_accepted_answer_recorded (s : Store) (contestId : Nat) (contest : Contest)
    (user : User) (body : AnswerBody) (clk : AnswerClock) (p : Participation) (q : Question)
    (sel : JsVal) (d : AnswerData)
    (hfind : findContestById s contestId = some contest)
    (hp : findActiveParticipation s contestId user._id = some p)
    (hq : contest.questions[p.currentQuestionIndex]? = some q)
    (hsel : body.selectedOptions = some sel)
    (hok : (submitAnswerRoute s contestId user body clk).1 = .ok d) :
    ∃ p', findParticipationById (submitAnswerRoute s contestId user body clk).2 p._id =
        some p' ∧
      p'.answers = p.answers ++ [{ questionId := q._id, selectedOptions := sel }] ∧
      p'.score = p.score + (evaluate q sel).scoreForQuestion ∧
      p'.currentQuestionIndex = p.currentQuestionIndex + 1 ∧
      d.scoreForQuestion = (evaluate q sel).scoreForQuestion ∧
      d.isCorrect = (evaluate q sel).isCorrect ∧
      d.totalScore = p'.score ∧
      d.nextQuestionIndex = p'.currentQuestionIndex := by
  obtain ⟨hi, h1, h2⟩ := submitAnswerRoute_ok_inv s contestId contest user body clk p q sel d
    hfind hp hsel hq hok
  have hacc := submitAnswerRoute_accept s contestId contest user body clk p q sel hfind hp hi
    hsel hq h1 h2
  obtain ⟨x, hx⟩ := find?_mem_of_find? _ (fun y : Participation => y._id == p._id)
    s.participations p hp (by simp)
  rw [hacc] at hok ⊢
  split at hok
  · rename_i hN
    rw [if_pos hN]
    refine ⟨_, find?_updateFirst_same (fun y : Participation => y._id == p._id) _
      (by simp [recordAnswer]) s.participations x hx, ?_⟩
    injection hok with hd
    subst hd
    simp [recordAnswer]
  · rename_i hN
    rw [if_neg hN]
    refine ⟨_, find?_updateFirst_same (fun y : Participation => y._id == p._id) _
      (by simp [recordAnswer]) s.participations x hx, ?_⟩
    injection hok with hd
    subst hd
    simp [recordAnswer]

/-- Witness of C9: the sample user answers the first question of contest 1 correctly. -/
theorem C9_accepted_answer_recorded_witness :
    ∃ p', findParticipationById
        (submitAnswerRoute joinedOnce 1 sampleUser sampleBody sampleAnswerClock).2 0 = some p' ∧
      p'.answers = [] ++ [{ questionId := (sampleQuestion 1 0)._id, selectedOptions := .num 0 }] ∧
      p'.score = 0 + (evaluate (sampleQuestion 1 0) (.num 0)).scoreForQuestion ∧
      p'.currentQuestionIndex = 0 + 1 ∧
      (5 : Int) = (evaluate (sampleQuestion 1 0) (.num 0)).scoreForQuestion ∧
      true = (evaluate (sampleQuestion 1 0) (.num 0)).isCorrect ∧
      (5 : Int) = p'.score ∧
      1 = p'.currentQuestionIndex :=
  C9_accepted_answer_recorded joinedOnce 1 { sampleContest 1 with participantsCount := 1 }
    sampleUser sampleBody sampleAnswerClock
    (newParticipation (emptyStore sampleContests) 1 9 sampleJoinClock) (sampleQuestion 1 0)
    (.num 0)
    { isCorrect := true, scoreForQuestion := 5, totalScore := 5, nextQuestionIndex := 1,
      isContestCompleted := false }
    rfl rfl rfl rfl rfl

/-- C10: when the route answers 200 to a request of the caller whose pending
participation is `p`, with `q` the question at `p.currentQuestionIndex` and `sel` the
selection: if the new index `p.currentQuestionIndex + 1` reaches `QUESTIONS_PER_CONTEST`
(15), the participation stored under `p._id` is submitted with `submissionTime` the
handler's clock read, the leaderboard gains exactly one entry, with the contest, the user,
`p._id`, the final score (the points of this answer included) and the same
`submissionTime`, and the response reports `isContestCompleted` true; if the new index is
below 15 the participation stays pending, the leaderboard is unchanged and
`isContestCompleted` is false. -/
theorem C10_completion_at_last_question (s : Store) (contestId : Nat) (contest : Contest)
    (user : User) (body : AnswerBody) (clk : AnswerClock) (p : Participation) (q : Question)
    (sel : JsVal) (d : AnswerData)
    (hfind : findContestById s contestId = some contest)
    (hp : findActiveParticipation s contestId user._id = some p)
    (hq : contest.questions[p.currentQuestionIndex]? = some q)
    (hsel : body.selectedOptions = some sel)
    (hok : (submitAnswerRoute s contestId user body clk).1 = .ok d) :
    (QUESTIONS_PER_CONTEST ≤ p.currentQuestionIndex + 1 →
      (∃ p', findParticipationById (submitAnswerRoute s contestId user body clk).2 p._id =
          some p' ∧
        p'.submissionState = .submitted ∧ p'.submissionTime = some clk.submitted ∧
        p'.score = p.score + (evaluate q sel).scoreForQuestion) ∧
      (submitAnswerRoute s contestId user body clk).2.leaderboard =
        s.leaderboard ++
          [{ contestId := contestId
             userId := user._id
             participationId := p._id
             score := p.score + (evaluate q sel).scoreForQuestion
             submissionTime := some clk.submitted }] ∧
      d.isContestCompleted = true) ∧
    (p.currentQuestionIndex + 1 < QUESTIONS_PER_CONTEST →
      (∃ p', findParticipationById (submitAnswerRoute s contestId user body clk).2 p._id =
          some p' ∧
        p'.submissionState = .pending ∧ p'.submissionTime = p.submissionTime) ∧
      (submitAnswerRoute s contestId user body clk).2.leaderboard = s.leaderboard ∧
      d.isContestCompleted = false) := by
  obtain ⟨hi, h1, h2⟩ := submitAnswerRoute_ok_inv s contestId contest user body clk p q sel d
    hfind hp hsel hq hok
  have hacc := submitAnswerRoute_accept s contestId contest user body clk p q sel hfind hp hi
    hsel hq h1 h2
  have hpend := (findActiveParticipation_spec s contestId user._id p hp).2.2.2
  obtain ⟨x, hx⟩ := find?_mem_of_find? _ (fun y : Participation => y._id == p._id)
    s.participations p hp (by simp)
  rw [hacc] at hok ⊢
  constructor
  · intro hN
    rw [if_pos hN] at hok ⊢
    injection hok with hd
    subst hd
    refine ⟨⟨_, find?_updateFirst_same (fun y : Participation => y._id == p._id) _
      (by simp [recordAnswer]) s.participations x hx, ?_⟩, rfl, rfl⟩
    simp [recordAnswer]
  · intro hN
    have hN' : ¬ QUESTIONS_PER_CONTEST ≤ p.currentQuestionIndex + 1 := not_le.mpr hN
    rw [if_neg hN'] at hok ⊢
    injection hok with hd
    subst hd
    refine ⟨⟨_, find?_updateFirst_same (fun y : Participation => y._id == p._id) _
      (by simp [recordAnswer]) s.participations x hx, ?_⟩, rfl, rfl⟩
    simp [recordAnswer, hpend]

/-- Witness of C10: the sample user, at index 14 with score 70, answers the fifteenth
question of contest 1 correctly. -/
theorem C10_completion_at_last_question_witness :
    (QUESTIONS_PER_CONTEST ≤ sampleLastQuestion.currentQuestionIndex + 1 →
      (∃ p', findParticipationById
          (submitAnswerRoute lastQuestionStore 1 sampleUser
            { questionIndex := some (.num 14), selectedOptions := some (.num 0) }
            sampleAnswerClock).2 sampleLastQuestion._id = some p' ∧
        p'.submissionState = .submitted ∧ p'.submissionTime = some sampleAnswerClock.submitted ∧
        p'.score = sampleLastQuestion.score +
          (evaluate (sampleQuestion 1 14) (.num 0)).scoreForQuestion) ∧
      (submitAnswerRoute lastQuestionStore 1 sampleUser
          { questionIndex := some (.num 14), selectedOptions := some (.num 0) }
          sampleAnswerClock).2.leaderboard =
        lastQuestionStore.leaderboard ++
          [{ contestId := 1
             userId := sampleUser._id
             participationId := sampleLastQuestion._id
             score := sampleLastQuestion.score +
               (evaluate (sampleQuestion 1 14) (.num 0)).scoreForQuestion
             submissionTime := some sampleAnswerClock.submitted }] ∧
      true = true) ∧
    (sampleLastQuestion.currentQuestionIndex + 1 < QUESTIONS_PER_CONTEST →
      (∃ p', findParticipationById
          (submitAnswerRoute lastQuestionStore 1 sampleUser
            { questionIndex := some (.num 14), selectedOptions := some (.num 0) }
            sampleAnswerClock).2 sampleLastQuestion._id = some p' ∧
        p'.submissionState = .pending ∧ p'.submissionTime = sampleLastQuestion.submissionTime) ∧
      (submitAnswerRoute lastQuestionStore 1 sampleUser
          { questionIndex := some (.num 14), selectedOptions := some (.num 0) }
          sampleAnswerClock).2.leaderboard = lastQuestionStore.leaderboard ∧
      true = false) :=
  C10_completion_at_last_question lastQuestionStore 1
    { sampleContest 1 with participantsCount := 1 } sampleUser
    { questionIndex := some (.num 14), selectedOptions := some (.num 0) } sampleAnswerClock
    sampleLastQuestion (sampleQuestion 1 14) (.num 0)
    { isCorrect := true, scoreForQuestion := 5, totalScore := 75, nextQuestionIndex := 15,
      isContestCompleted := true }
    rfl rfl rfl rfl rfl

/-! ## Rejected requests -/

theorem submitAnswerRoute_cases (s : Store) (contestId : Nat) (user : User) (body : AnswerBody)
    (clk : AnswerClock) :
    (∃ r, submitAnswerRoute s contestId user body clk = (r, s) ∧ ∀ d, r ≠ .ok d) ∨
    ∃ contest p q sel,
      findContestById s contestId = some contest ∧
      findActiveParticipation s contestId user._id = some p ∧
      indexMatches body.questionIndex p.currentQuestionIndex = true ∧
      body.selectedOptions = some sel ∧
      contest.questions[p.currentQuestionIndex]? = some q ∧
      timeLimitExceeded clk.validated p.updatedAt = false ∧
      timeLimitExceeded clk.checked p.updatedAt = false := by
  cases hfind : findContestById s contestId with
  | none =>
    left
    exact ⟨.contestNotFound, by simp [submitAnswerRoute, checkContestExists, hfind],
      fun d h => by cases h⟩
  | some contest =>
    cases hp : findActiveParticipation s contestId user._id with
    | none =>
      left
      exact ⟨_, submitAnswerRoute_no_participation s contestId contest user body clk hfind hp,
        fun d h => by cases h⟩
    | some p =>
      cases hidx : indexMatches body.questionIndex p.currentQuestionIndex with
      | false =>
        left
        exact ⟨_, submitAnswerRoute_wrong_index s contestId contest user body clk p hfind hp hidx,
          fun d h => by cases h⟩
      | true =>
        have hqi := (indexMatches_iff _ _).mp hidx
        cases h1 : timeLimitExceeded clk.validated p.updatedAt with
        | true =>
          left
          exact ⟨.timeLimitExceeded, by
            simp [submitAnswerRoute, checkContestExists, hasActiveParticipation, hfind, hp,
              validateQuestionSubmission, hidx, h1], fun d h => by cases h⟩
        | false =>
          cases hsel : body.selectedOptions with
          | none =>
            left
            have hidx' : indexMatches (some (JsVal.num ↑p.currentQuestionIndex))
                p.currentQuestionIndex = true := by simpa [hqi] using hidx
            exact ⟨.missingFields, by
              simp [submitAnswerRoute, checkContestExists, hasActiveParticipation, hfind, hp,
                validateQuestionSubmission, hidx, h1, submitAnswer, hqi, hsel, hidx'],
              fun d h => by cases h⟩
          | some sel =>
            cases hq : contest.questions[p.currentQuestionIndex]? with
            | none =>
              left
              refine ⟨.questionNotFound, ?_, fun d h => by cases h⟩
              have hidx' : indexMatches (some (JsVal.num ↑p.currentQuestionIndex))
                  p.currentQuestionIndex = true := by simpa [hqi] using hidx
              simp [submitAnswerRoute, checkContestExists, hasActiveParticipation, hfind, hp,
                validateQuestionSubmission, hidx, h1, submitAnswer, hqi, hsel,
                populateQuestion_eq, hq, hidx']
            | some q =>
              cases h2 : timeLimitExceeded clk.checked p.updatedAt with
              | true =>
                left
                exact ⟨_, submitAnswerRoute_late s contestId contest user body clk p q sel hfind
                  hp hidx hsel hq h2, fun d h => by cases h⟩
              | false =>
                right
                exact ⟨contest, p, q, sel, rfl, rfl, hidx, rfl, hq, h1, h2⟩

/-- C11: every request to the submit-answer route that is not answered 200 (contest or
pending participation not found, invalid question index, missing fields, question not
found, time limit exceeded) leaves the store as it was: every participation, with its
score, answers, index, state, submission time and `updatedAt`, and every leaderboard
entry. -/
theorem C11_rejected_answer_changes_nothing (s : Store) (contestId : Nat) (user : User)
    (body : AnswerBody) (clk : AnswerClock)
    (hrej : ∀ d, (submitAnswerRoute s contestId user body clk).1 ≠ .ok d) :
    (submitAnswerRoute s contestId user body clk).2 = s ∧
    (submitAnswerRoute s contestId user body clk).2.participations = s.participations ∧
    (submitAnswerRoute s contestId user body clk).2.leaderboard = s.leaderboard := by
  have hs : (submitAnswerRoute s contestId user body clk).2 = s := by
    rcases submitAnswerRoute_cases s contestId user body clk with ⟨r, hr, -⟩ |
      ⟨contest, p, q, sel, hfind, hp, hidx, hsel, hq, h1, h2⟩
    · rw [hr]
    · exfalso
      have hacc := submitAnswerRoute_accept s contestId contest user body clk p q sel hfind hp
        hidx hsel hq h1 h2
      by_cases hN : QUESTIONS_PER_CONTEST ≤ p.currentQuestionIndex + 1
      · rw [if_pos hN] at hacc
        exact hrej _ (by rw [hacc])
      · rw [if_neg hN] at hacc
        exact hrej _ (by rw [hacc])
  exact ⟨hs, by rw [hs], by rw [hs]⟩

/-! ## Consistency is kept by every operation -/

theorem find?_of_nodup_map {α β : Type} [DecidableEq β] (f : α → β) :
    ∀ (l : List α) (a : α), (l.map f).Nodup → a ∈ l →
      l.find? (fun x => f x == f a) = some a
  | [], a, _, h => by simp at h
  | x :: xs, a, hnd, h => by
    rw [List.map_cons, List.nodup_cons] at hnd
    by_cases hx : f x = f a
    · have hxa : x = a := by
        rcases List.mem_cons.mp h with rfl | hmem
        · rfl
        · exact absurd (hx ▸ List.mem_map_of_mem f hmem) hnd.1
      simp [List.find?, hxa]
    · have hmem : a ∈ xs := by
        rcases List.mem_cons.mp h with rfl | hmem
        · exact absurd rfl hx
        · exact hmem
      have hb : (f x == f a) = false := by simpa using hx
      simp [List.find?, hb, find?_of_nodup_map f xs a hnd.2 hmem]

theorem saveParticipation_decomp (s : Store) (p p' : Participation)
    (hnd : (s.participations.map (fun p => p._id)).Nodup) (hmem : p ∈ s.participations)
    (hid : p'._id = p._id) :
    ∃ pre post, s.participations = pre ++ p :: post ∧
      (saveParticipation s p').participations = pre ++ p' :: post := by
  have hfind := find?_of_nodup_map (fun q : Participation => q._id) s.participations p hnd hmem
  obtain ⟨pre, post, h1, -, h3⟩ := updateFirst_of_find?
    (fun q : Participation => q._id == p._id) (fun _ => p') s.participations p hfind
  refine ⟨pre, post, h1, ?_⟩
  simp only [saveParticipation, hid]
  exact h3

theorem consistent_of_replace (s s' : Store) (p p' : Participation) (pre post : List Participation)
    (hc : Consistent s)
    (hold : s.participations = pre ++ p :: post)
    (hnew : s'.participations = pre ++ p' :: post)
    (hnext : s'.nextId = s.nextId)
    (hid : p'._id = p._id) (hcid : p'.contestId = p.contestId) (huid : p'.userId = p.userId)
    (hpend : isSubmitted p = false)
    (hlb : (isSubmitted p' = false ∧ s'.leaderboard = s.leaderboard) ∨
      (isSubmitted p' = true ∧ ∃ e, s'.leaderboard = s.leaderboard ++ [e] ∧
        e.participationId = p._id ∧ e.contestId = p.contestId)) :
    Consistent s' := by
  obtain ⟨h1, h2, h3, h4⟩ := hc
  rw [hold] at h1 h2 h3 h4
  refine ⟨?_, ?_, ?_, ?_⟩
  · intro x hx
    rw [hnew] at hx
    rw [hnext]
    rcases List.mem_append.mp hx with hx | hx
    · exact h1 x (List.mem_append_left _ hx)
    · rcases List.mem_cons.mp hx with rfl | hx
      · rw [hid]
        exact h1 p (by simp)
      · exact h1 x (List.mem_append_right _ (List.mem_cons_of_mem _ hx))
  · rw [hnew]
    simpa [hid] using h2
  · rw [hnew]
    simpa [hcid, huid] using h3
  · rw [hnew]
    rcases hlb with ⟨hp', hl⟩ | ⟨hp', e, hl, he1, he2⟩
    · rw [hl]
      simpa [List.filter_append, List.filter_cons, hpend, hp'] using h4
    · rw [hl]
      simp only [List.filter_append, List.filter_cons, hpend, hp', List.map_append,
        List.map_cons, List.map_nil, he1, he2, hid, hcid, if_true, Bool.false_eq_true,
        if_false] at h4 ⊢
      exact (List.perm_append_singleton _ _).trans
        ((List.Perm.cons _ h4).trans List.perm_middle.symm)

theorem join_accept (s : Store) (contestId : Nat) (contest : Contest) (user : User)
    (clk : JoinClock)
    (hfind : findContestById s contestId = some contest)
    (hstatus : contest.status = .pending)
    (hvip : (contest.isVipOnly && user.userType != .VIP) = false)
    (hroom : ¬ (contest.participantsCount : ℚ) ≥ contest.maxParticipants)
    (hnew : findParticipation s contestId user._id = none)
    (hfree : hasActiveContest s user._id = false) :
    join s contestId user clk =
      (.registered (newParticipation s contestId user._id clk),
        { s with
          participations := s.participations ++ [newParticipation s contestId user._id clk]
          contests := updateFirst (fun c => c._id == contestId)
            (fun c => { c with participantsCount := c.participantsCount + 1 }) s.contests
          nextId := s.nextId + 1 }) := by
  have hid : contest._id = contestId :=
    find?_id_eq (fun c : Contest => c._id) s.contests contestId contest hfind
  simp [join, checkContestExists, canParticipate, participateInContest, hfind, hstatus, hvip,
    hroom, hfree, hid, hnew]

theorem join_cases (s : Store) (contestId : Nat) (user : User) (clk : JoinClock) :
    ((join s contestId user clk).2 = s ∧
      ∀ p, (join s contestId user clk).1 ≠ .registered p) ∨
    ∃ contest,
      findContestById s contestId = some contest ∧
      contest.status = .pending ∧
      (contest.isVipOnly && user.userType != .VIP) = false ∧
      (contest.participantsCount : ℚ) < contest.maxParticipants ∧
      findParticipation s contestId user._id = none ∧
      hasActiveContest s user._id = false ∧
      join s contestId user clk =
        (.registered (newParticipation s contestId user._id clk),
          { s with
            participations := s.participations ++ [newParticipation s contestId user._id clk]
            contests := updateFirst (fun c => c._id == contestId)
              (fun c => { c with participantsCount := c.participantsCount + 1 }) s.contests
            nextId := s.nextId + 1 }) := by
  cases hfind : findContestById s contestId with
  | none =>
    left
    simp [join, checkContestExists, hfind]
  | some contest =>
    have hid : contest._id = contestId :=
      find?_id_eq (fun c : Contest => c._id) s.contests contestId contest hfind
    by_cases hstatus : contest.status = .pending
    · cases hvip : (contest.isVipOnly && user.userType != .VIP) with
      | true =>
        left
        simp [join, checkContestExists, canParticipate, hfind, hstatus, hvip]
      | false =>
        by_cases hroom : (contest.participantsCount : ℚ) ≥ contest.maxParticipants
        · left
          simp [join, checkContestExists, canParticipate, hfind, hstatus, hvip, hroom]
        · cases hfree : hasActiveContest s user._id with
          | true =>
            left
            simp [join, checkContestExists, canParticipate, hfind, hstatus, hvip, hroom, hfree]
          | false =>
            cases hnew : findParticipation s contestId user._id with
            | some x =>
              left
              simp [join, checkContestExists, canParticipate, participateInContest, hfind,
                hstatus, hvip, hroom, hfree, hid, hnew]
            | none =>
              right
              exact ⟨contest, rfl, hstatus, hvip, not_le.mp hroom, rfl, rfl,
                join_accept s contestId contest user clk hfind hstatus hvip hroom hnew hfree⟩
    · left
      simp [join, checkContestExists, canParticipate, hfind, hstatus]

theorem submitContestRoute_cases (s : Store) (contestId : Nat) (user : User)
    (clk : SubmitClock) :
    (∃ r, submitContestRoute s contestId user clk = (r, s) ∧ ∀ a b, r ≠ .ok a b) ∨
    ∃ contest p,
      findContestById s contestId = some contest ∧
      findActiveParticipation s contestId user._id = some p ∧
      submitContestRoute s contestId user clk =
        (.ok p.score p.answers.length,
          createLeaderboardEntry
            (saveParticipation s
              { p with
                submissionState := .submitted
                submissionTime := some clk.submitted
                updatedAt := clk.saved })
            { contestId := contestId
              userId := user._id
              participationId := p._id
              score := p.score
              submissionTime := some clk.submitted }) := by
  cases hfind : findContestById s contestId with
  | none =>
    left
    exact ⟨.contestNotFound, by simp [submitContestRoute, checkContestExists, hfind],
      fun a b h => by cases h⟩
  | some contest =>
    cases hp : findActiveParticipation s contestId user._id with
    | none =>
      left
      exact ⟨.noActiveParticipation, by
        simp [submitContestRoute, checkContestExists, hasActiveParticipation, hfind, hp],
        fun a b h => by cases h⟩
    | some p =>
      right
      exact ⟨contest, p, rfl, rfl, by
        simp [submitContestRoute, checkContestExists, hasActiveParticipation, hfind, hp,
          submitContest]⟩

theorem consistent_emptyStore (contests : List Contest) : Consistent (emptyStore contests) :=
  ⟨by simp [emptyStore], by simp [emptyStore], by simp [emptyStore], by simp [emptyStore]⟩

theorem consistent_of_same (s s' : Store) (hc : Consistent s)
    (hp : s'.participations = s.participations) (hl : s'.leaderboard = s.leaderboard)
    (hn : s'.nextId = s.nextId) : Consistent s' := by
  obtain ⟨h1, h2, h3, h4⟩ := hc
  exact ⟨by rw [hp, hn]; exact h1, by rw [hp]; exact h2, by rw [hp]; exact h3,
    by rw [hp, hl]; exact h4⟩

theorem consistent_join (s : Store) (contestId : Nat) (user : User) (clk : JoinClock)
    (hc : Consistent s) : Consistent (join s contestId user clk).2 := by
  rcases join_cases s contestId user clk with ⟨hs, -⟩ |
    ⟨contest, hfind, -, -, -, hnew, -, hjoin⟩
  · rw [hs]
    exact hc
  · rw [hjoin]
    obtain ⟨h1, h2, h3, h4⟩ := hc
    have hnone := List.find?_eq_none.mp hnew
    refine ⟨?_, ?_, ?_, ?_⟩
    · intro x hx
      rcases List.mem_append.mp hx with hx | hx
      · exact Nat.lt_succ_of_lt (h1 x hx)
      · have hx' : x = newParticipation s contestId user._id clk := by simpa using hx
        subst hx'
        exact Nat.lt_succ_self _
    · simp only [List.map_append, List.map_cons, List.map_nil]
      refine List.Nodup.append h2 (List.nodup_singleton _) ?_
      intro a ha hb
      have hb' : a = s.nextId := by simpa [newParticipation] using hb
      obtain ⟨x, hx, hxa⟩ := List.mem_map.mp ha
      have := h1 x hx
      omega
    · simp only [List.map_append, List.map_cons, List.map_nil]
      refine List.Nodup.append h3 (List.nodup_singleton _) ?_
      intro a ha hb
      have hb' : a = (contestId, user._id) := by simpa [newParticipation] using hb
      obtain ⟨x, hx, hxa⟩ := List.mem_map.mp ha
      have hxn := hnone x hx
      rw [hb'] at hxa
      simp only [Prod.mk.injEq] at hxa
      simp [hxa.1, hxa.2] at hxn
    · simpa [List.filter_append, isSubmitted, newParticipation] using h4

theorem consistent_submitAnswerRoute (s : Store) (contestId : Nat) (user : User)
    (body : AnswerBody) (clk : AnswerClock) (hc : Consistent s) :
    Consistent (submitAnswerRoute s contestId user body clk).2 := by
  rcases submitAnswerRoute_cases s contestId user body clk with ⟨r, hr, -⟩ |
    ⟨contest, p, q, sel, hfind, hp, hidx, hsel, hq, h1, h2⟩
  · rw [hr]
    exact hc
  · obtain ⟨hmem, hcid, -, hpend⟩ := findActiveParticipation_spec s contestId user._id p hp
    have hpend' : isSubmitted p = false := by simp [isSubmitted, hpend]
    rw [submitAnswerRoute_accept s contestId contest user body clk p q sel hfind hp hidx hsel hq
      h1 h2]
    split
    · obtain ⟨pre, post, hold, hnew⟩ := saveParticipation_decomp s p
        { recordAnswer p q sel (evaluate q sel).scoreForQuestion with
          submissionState := .submitted
          submissionTime := some clk.submitted
          updatedAt := clk.saved } hc.idsDistinct hmem rfl
      exact consistent_of_replace s _ p _ pre post hc hold hnew rfl rfl rfl rfl hpend'
        (Or.inr ⟨rfl, _, rfl, rfl, hcid.symm⟩)
    · obtain ⟨pre, post, hold, hnew⟩ := saveParticipation_decomp s p
        { recordAnswer p q sel (evaluate q sel).scoreForQuestion with
          updatedAt := clk.saved } hc.idsDistinct hmem rfl
      exact consistent_of_replace s _ p _ pre post hc hold hnew rfl rfl rfl rfl hpend'
        (Or.inl ⟨by simp [isSubmitted, recordAnswer, hpend], rfl⟩)

theorem consistent_submitContestRoute (s : Store) (contestId : Nat) (user : User)
    (clk : SubmitClock) (hc : Consistent s) :
    Consistent (submitContestRoute s contestId user clk).2 := by
  rcases submitContestRoute_cases s contestId user clk with ⟨r, hr, -⟩ |
    ⟨contest, p, hfind, hp, hroute⟩
  · rw [hr]
    exact hc
  · obtain ⟨hmem, hcid, -, hpend⟩ := findActiveParticipation_spec s contestId user._id p hp
    have hpend' : isSubmitted p = false := by simp [isSubmitted, hpend]
    rw [hroute]
    obtain ⟨pre, post, hold, hnew⟩ := saveParticipation_decomp s p
      { p with
        submissionState := .submitted
        submissionTime := some clk.submitted
        updatedAt := clk.saved } hc.idsDistinct hmem rfl
    exact consistent_of_replace s _ p _ pre post hc hold hnew rfl rfl rfl rfl hpend'
      (Or.inr ⟨rfl, _, rfl, rfl, hcid.symm⟩)

theorem consistent_step (s : Store) (op : Op) (hc : Consistent s) : Consistent (step s op) := by
  cases op with
  | join contestId user clk => exact consistent_join s contestId user clk hc
  | submitAnswer contestId user body clk =>
    exact consistent_submitAnswerRoute s contestId user body clk hc
  | submitContest contestId user clk => exact consistent_submitContestRoute s contestId user clk hc
  | cancelContest contestId =>
    refine consistent_of_same s _ hc ?_ ?_ ?_ <;>
    · simp only [step, cancelContest]
      split
      · rfl
      · split
        · rfl
        · split <;> rfl
  | advanceStatus contestId => exact consistent_of_same s _ hc rfl rfl rfl

theorem consistent_run (ops : List Op) :
    ∀ s : Store, Consistent s → Consistent (run s ops) := by
  induction ops with
  | nil => exact fun s hc => hc
  | cons op ops ih => exact fun s hc => ih (step s op) (consistent_step s op hc)

theorem consistent_of_reachable (contests : List Contest) (s : Store)
    (h : Reachable contests s) : Consistent s := by
  obtain ⟨ops, rfl⟩ := h
  exact consistent_run ops _ (consistent_emptyStore contests)

/-- Witness of C11: the sample user answers the first question of contest 1 one
millisecond after the sixty seconds. -/
theorem C11_rejected_answer_changes_nothing_witness :
    (submitAnswerRoute joinedOnce 1 sampleUser sampleBody lateAnswerClock).2 = joinedOnce ∧
    (submitAnswerRoute joinedOnce 1 sampleUser sampleBody lateAnswerClock).2.participations =
      joinedOnce.participations ∧
    (submitAnswerRoute joinedOnce 1 sampleUser sampleBody lateAnswerClock).2.leaderboard =
      joinedOnce.leaderboard :=
  C11_rejected_answer_changes_nothing joinedOnce 1 sampleUser sampleBody lateAnswerClock
    (fun d h => by
      have hr : (submitAnswerRoute joinedOnce 1 sampleUser sampleBody lateAnswerClock).1 =
          .timeLimitExceeded := by decide
      rw [hr] at h
      cases h)

/-! ## Submitted participations -/

theorem no_active_of_submitted (s : Store) (p : Participation) (hc : Consistent s)
    (hmem : p ∈ s.participations) (hsub : p.submissionState = .submitted) :
    findActiveParticipation s p.contestId p.userId = none := by
  cases hf : findActiveParticipation s p.contestId p.userId with
  | none => rfl
  | some x =>
    obtain ⟨hx, hxc, hxu, hxp⟩ := findActiveParticipation_spec s p.contestId p.userId x hf
    have hxp' : x = p := List.inj_on_of_nodup_map hc.pairsDistinct hx hmem (by simp [hxc, hxu])
    rw [hxp', hsub] at hxp
    cases hxp

/-- C12: in a reachable store, for a participation that is submitted, every request of
its user to the submit-answer route of its contest, whatever the body and the clock, is
not answered 200 (the answer is "No active participation found for this contest", or
"Contest not found") and the store, so the participation and the leaderboard, stays as
it was. -/
theorem C12_submitted_rejects_answers (contests : List Contest) (s : Store) (p : Participation)
    (user : User) (body : AnswerBody) (clk : AnswerClock)
    (hreach : Reachable contests s)
    (hmem : p ∈ s.participations)
    (hsub : p.submissionState = .submitted)
    (huser : user._id = p.userId) :
    ((submitAnswerRoute s p.contestId user body clk).1 = .noActiveParticipation ∨
      (submitAnswerRoute s p.contestId user body clk).1 = .contestNotFound) ∧
    (∀ d, (submitAnswerRoute s p.contestId user body clk).1 ≠ .ok d) ∧
    (submitAnswerRoute s p.contestId user body clk).2 = s := by
  have hnone := no_active_of_submitted s p (consistent_of_reachable contests s hreach) hmem hsub
  rw [← huser] at hnone
  cases hfind : findContestById s p.contestId with
  | none =>
    have hr : submitAnswerRoute s p.contestId user body clk = (.contestNotFound, s) := by
      simp [submitAnswerRoute, checkContestExists, hfind]
    rw [hr]
    exact ⟨Or.inr rfl, (fun d h => by cases h), rfl⟩
  | some contest =>
    rw [submitAnswerRoute_no_participation s p.contestId contest user body clk hfind hnone]
    exact ⟨Or.inl rfl, (fun d h => by cases h), rfl⟩

/-- Witness of C12: after the sample user joined and submitted contest 1, an answer to
its first question. -/
theorem C12_submitted_rejects_answers_witness :
    ((submitAnswerRoute submittedOnce sampleSubmitted.contestId sampleUser sampleBody
        sampleAnswerClock).1 = .noActiveParticipation ∨
      (submitAnswerRoute submittedOnce sampleSubmitted.contestId sampleUser sampleBody
        sampleAnswerClock).1 = .contestNotFound) ∧
    (∀ d, (submitAnswerRoute submittedOnce sampleSubmitted.contestId sampleUser sampleBody
        sampleAnswerClock).1 ≠ .ok d) ∧
    (submitAnswerRoute submittedOnce sampleSubmitted.contestId sampleUser sampleBody
        sampleAnswerClock).2 = submittedOnce :=
  C12_submitted_rejects_answers sampleContests submittedOnce sampleSubmitted sampleUser
    sampleBody sampleAnswerClock ⟨_, rfl⟩ (List.Mem.head _) rfl rfl

theorem submitContestRoute_no_participation (s : Store) (contestId : Nat) (contest : Contest)
    (user : User) (clk : SubmitClock)
    (hfind : findContestById s contestId = some contest)
    (hnone : findActiveParticipation s contestId user._id = none) :
    submitContestRoute s contestId user clk = (.noActiveParticipation, s) := by
  simp [submitContestRoute, checkContestExists, hasActiveParticipation, hfind, hnone]

/-- C13 (counterexample): after the sample user joined and submitted contest 1, a second
submit is answered 404 "No active participation found for this contest", the very answer
a user who never joined gets; the answer is no state error that tells an already submitted
participation from a missing one. -/
theorem C13_second_submit_answered_not_found :
    (findParticipationById submittedOnce 0).map (fun p => p.submissionState) =
      some .submitted ∧
    submitContestRoute submittedOnce 1 sampleUser sampleSubmitClock =
      (.noActiveParticipation, submittedOnce) ∧
    SubmitResponse.status
      (submitContestRoute submittedOnce 1 sampleUser sampleSubmitClock).1 = 404 ∧
    (submitContestRoute submittedOnce 1 strangerUser sampleSubmitClock).1 =
      (submitContestRoute submittedOnce 1 sampleUser sampleSubmitClock).1 := by
  refine ⟨by decide, rfl, by decide, by decide⟩

theorem submitContestRoute_accept (s : Store) (contestId : Nat) (contest : Contest)
    (user : User) (clk : SubmitClock) (p : Participation)
    (hfind : findContestById s contestId = some contest)
    (hp : findActiveParticipation s contestId user._id = some p) :
    submitContestRoute s contestId user clk =
      (.ok p.score p.answers.length,
        createLeaderboardEntry
          (saveParticipation s
            { p with
              submissionState := .submitted
              submissionTime := some clk.submitted
              updatedAt := clk.saved })
          { contestId := contestId
            userId := user._id
            participationId := p._id
            score := p.score
            submissionTime := some clk.submitted }) := by
  simp [submitContestRoute, checkContestExists, hasActiveParticipation, hfind, hp,
    submitContest]

theorem submitContestRoute_twice (s : Store) (contestId : Nat) (user : User)
    (clk1 clk2 : SubmitClock) (hc : Consistent s) :
    (∀ a b, (submitContestRoute (submitContestRoute s contestId user clk1).2 contestId user
      clk2).1 ≠ .ok a b) ∧
    (submitContestRoute (submitContestRoute s contestId user clk1).2 contestId user clk2).2 =
      (submitContestRoute s contestId user clk1).2 := by
  cases hfind : findContestById s contestId with
  | none =>
    have hr : ∀ clk, submitContestRoute s contestId user clk = (.contestNotFound, s) := by
      intro clk
      simp [submitContestRoute, checkContestExists, hfind]
    rw [hr clk1]
    show (∀ a b, (submitContestRoute s contestId user clk2).1 ≠ .ok a b) ∧
      (submitContestRoute s contestId user clk2).2 = s
    rw [hr clk2]
    exact ⟨(fun a b h => by cases h), rfl⟩
  | some contest =>
    cases hp : findActiveParticipation s contestId user._id with
    | none =>
      have hr := submitContestRoute_no_participation s contestId contest user
      rw [hr clk1 hfind hp]
      show (∀ a b, (submitContestRoute s contestId user clk2).1 ≠ .ok a b) ∧
        (submitContestRoute s contestId user clk2).2 = s
      rw [hr clk2 hfind hp]
      exact ⟨(fun a b h => by cases h), rfl⟩
    | some p =>
      have hc1 := consistent_submitContestRoute s contestId user clk1 hc
      obtain ⟨hmem, hcid, huid, -⟩ := findActiveParticipation_spec s contestId user._id p hp
      obtain ⟨pre, post, -, hnew⟩ := saveParticipation_decomp s p
        { p with
          submissionState := .submitted
          submissionTime := some clk1.submitted
          updatedAt := clk1.saved } hc.idsDistinct hmem rfl
      have hfacts : ∃ p' : Participation,
          p' ∈ (submitContestRoute s contestId user clk1).2.participations ∧
          p'.submissionState = .submitted ∧ p'.contestId = contestId ∧
          p'.userId = user._id := by
        rw [submitContestRoute_accept s contestId contest user clk1 p hfind hp]
        refine ⟨{ p with
          submissionState := .submitted
          submissionTime := some clk1.submitted
          updatedAt := clk1.saved }, ?_, rfl, hcid, huid⟩
        show _ ∈ (saveParticipation s _).participations
        rw [hnew]
        simp
      have hfind1 : findContestById (submitContestRoute s contestId user clk1).2 contestId =
          some contest := by
        rw [submitContestRoute_accept s contestId contest user clk1 p hfind hp]
        exact hfind
      generalize (submitContestRoute s contestId user clk1).2 = s1 at hc1 hfacts hfind1 ⊢
      obtain ⟨p', hmem1, hsub1, hcid1, huid1⟩ := hfacts
      have hnone := no_active_of_submitted s1 p' hc1 hmem1 hsub1
      rw [hcid1, huid1] at hnone
      rw [submitContestRoute_no_participation s1 contestId contest user clk2 hfind1 hnone]
      exact ⟨(fun a b h => by cases h), rfl⟩

/-- C13 (amended): in a reachable store, for a participation that is submitted and whose
contest exists, a request of its user to the submit-contest route is answered 404 "No
active participation found for this contest" and the store stays as it was: the score and
the submission time of the participation and the leaderboard entries are unchanged and no
second entry is created.  In particular a second request right after a first one, on any
contest, is never answered 200 and changes nothing. -/
theorem C13_submitted_rejects_submit (contests : List Contest) (s : Store) (user : User)
    (p : Participation) (contest : Contest) (clk : SubmitClock) (contestId : Nat)
    (clk1 clk2 : SubmitClock)
    (hreach : Reachable contests s)
    (hmem : p ∈ s.participations)
    (hsub : p.submissionState = .submitted)
    (huser : user._id = p.userId)
    (hfind : findContestById s p.contestId = some contest) :
    submitContestRoute s p.contestId user clk = (.noActiveParticipation, s) ∧
    (submitContestRoute s p.contestId user clk).2.participations = s.participations ∧
    (submitContestRoute s p.contestId user clk).2.leaderboard = s.leaderboard ∧
    (∀ a b, (submitContestRoute (submitContestRoute s contestId user clk1).2 contestId user
      clk2).1 ≠ .ok a b) ∧
    (submitContestRoute (submitContestRoute s contestId user clk1).2 contestId user clk2).2 =
      (submitContestRoute s contestId user clk1).2 := by
  have hc := consistent_of_reachable contests s hreach
  have hnone := no_active_of_submitted s p hc hmem hsub
  rw [← huser] at hnone
  have htwice := submitContestRoute_twice s contestId user clk1 clk2 hc
  rw [submitContestRoute_no_participation s p.contestId contest user clk hfind hnone]
  exact ⟨rfl, rfl, rfl, htwice.1, htwice.2⟩

/-- Witness of C13: the sample user has joined and submitted contest 1 and then joined
contest 2; a submit on contest 1, and two submits in a row on contest 2. -/
theorem C13_submitted_rejects_submit_witness :
    submitContestRoute submittedThenJoined sampleSubmitted.contestId sampleUser
      sampleSubmitClock = (.noActiveParticipation, submittedThenJoined) ∧
    (submitContestRoute submittedThenJoined sampleSubmitted.contestId sampleUser
      sampleSubmitClock).2.participations = submittedThenJoined.participations ∧
    (submitContestRoute submittedThenJoined sampleSubmitted.contestId sampleUser
      sampleSubmitClock).2.leaderboard = submittedThenJoined.leaderboard ∧
    (∀ a b, (submitContestRoute
      (submitContestRoute submittedThenJoined 2 sampleUser sampleSubmitClock).2 2 sampleUser
      sampleSubmitClock).1 ≠ .ok a b) ∧
    (submitContestRoute
      (submitContestRoute submittedThenJoined 2 sampleUser sampleSubmitClock).2 2 sampleUser
      sampleSubmitClock).2 =
      (submitContestRoute submittedThenJoined 2 sampleUser sampleSubmitClock).2 :=
  C13_submitted_rejects_submit sampleContests submittedThenJoined sampleUser sampleSubmitted
    { sampleContest 1 with participantsCount := 1 } sampleSubmitClock 2 sampleSubmitClock
    sampleSubmitClock ⟨_, rfl⟩ (List.Mem.head _) rfl rfl rfl

/-- C14: for the pending participation `p` of the caller in an existing contest, the
submit-contest route answers 200 with `totalScore = p.score` and `questionsAnswered` the
number of answers of `p`; the participation stored under `p._id` afterwards is submitted
with `submissionTime` the handler's clock read and with the score, the answers and the
index of `p`; the leaderboard gains exactly one entry, with the score of `p` and the same
submission time; the contests are unchanged. -/
theorem C14_submitContest_effect (s : Store) (contestId : Nat) (contest : Contest)
    (user : User) (clk : SubmitClock) (p : Participation)
    (hfind : findContestById s contestId = some contest)
    (hp : findActiveParticipation s contestId user._id = some p) :
    (submitContestRoute s contestId user clk).1 = .ok p.score p.answers.length ∧
    (∃ p', findParticipationById (submitContestRoute s contestId user clk).2 p._id = some p' ∧
      p'.submissionState = .submitted ∧ p'.submissionTime = some clk.submitted ∧
      p'.score = p.score ∧ p'.answers = p.answers ∧
      p'.currentQuestionIndex = p.currentQuestionIndex) ∧
    (submitContestRoute s contestId user clk).2.leaderboard =
      s.leaderboard ++
        [{ contestId := contestId
           userId := user._id
           participationId := p._id
           score := p.score
           submissionTime := some clk.submitted }] ∧
    (submitContestRoute s contestId user clk).2.contests = s.contests := by
  have hroute := submitContestRoute_accept s contestId contest user clk p hfind hp
  obtain ⟨x, hx⟩ := find?_mem_of_find? _ (fun y : Participation => y._id == p._id)
    s.participations p hp (by simp)
  rw [hroute]
  refine ⟨rfl, ⟨_, find?_updateFirst_same (fun y : Participation => y._id == p._id) _
    (by simp) s.participations x hx, rfl, rfl, rfl, rfl, rfl⟩, rfl, rfl⟩

/-- Witness of C14: the sample user submits contest 1 right after joining it. -/
theorem C14_submitContest_effect_witness :
    (submitContestRoute joinedOnce 1 sampleUser sampleSubmitClock).1 = .ok 0 0 ∧
    (∃ p', findParticipationById
        (submitContestRoute joinedOnce 1 sampleUser sampleSubmitClock).2 0 = some p' ∧
      p'.submissionState = .submitted ∧ p'.submissionTime = some sampleSubmitClock.submitted ∧
      p'.score = 0 ∧ p'.answers = [] ∧ p'.currentQuestionIndex = 0) ∧
    (submitContestRoute joinedOnce 1 sampleUser sampleSubmitClock).2.leaderboard =
      joinedOnce.leaderboard ++
        [{ contestId := 1
           userId := sampleUser._id
           participationId := 0
           score := 0
           submissionTime := some sampleSubmitClock.submitted }] ∧
    (submitContestRoute joinedOnce 1 sampleUser sampleSubmitClock).2.contests =
      joinedOnce.contests :=
  C14_submitContest_effect joinedOnce 1 { sampleContest 1 with participantsCount := 1 }
    sampleUser sampleSubmitClock
    (newParticipation (emptyStore sampleContests) 1 9 sampleJoinClock) rfl rfl

/-! ## Invariants of reachable stores -/

/-- C17: in every reachable store, for every contest the number of leaderboard entries of
the contest is the number of submitted participations of the contest; every submitted
participation has exactly one leaderboard entry that names it by `participationId`; and
every entry names a submitted participation of its contest. -/
theorem C17_leaderboard_matches_submitted (contests : List Contest) (s : Store)
    (hreach : Reachable contests s) :
    (∀ contestId : Nat,
      (s.leaderboard.filter (fun e => e.contestId == contestId)).length =
        (s.participations.filter
          (fun p => p.contestId == contestId && p.submissionState == .submitted)).length) ∧
    (∀ p ∈ s.participations, p.submissionState = .submitted →
      (s.leaderboard.filter (fun e => e.participationId == p._id)).length = 1) ∧
    (∀ e ∈ s.leaderboard, ∃ p ∈ s.participations, p.submissionState = .submitted ∧
      p._id = e.participationId ∧ p.contestId = e.contestId) := by
  obtain ⟨-, hids, -, hperm⟩ := consistent_of_reachable contests s hreach
  refine ⟨?_, ?_, ?_⟩
  · intro contestId
    have h := hperm.countP_eq (fun x : Nat × Nat => x.2 == contestId)
    rw [List.countP_map, List.countP_map, List.countP_filter] at h
    rw [← List.countP_eq_length_filter, ← List.countP_eq_length_filter]
    simpa [Function.comp_def, isSubmitted] using h
  · intro p hp hsub
    have h := hperm.countP_eq (fun x : Nat × Nat => x.1 == p._id)
    rw [List.countP_map, List.countP_map] at h
    rw [← List.countP_eq_length_filter]
    have hnd : ((s.participations.filter isSubmitted).map (fun q => q._id)).Nodup :=
      List.Nodup.sublist ((List.filter_sublist _).map _) hids
    have hmem : p._id ∈ (s.participations.filter isSubmitted).map (fun q => q._id) :=
      List.mem_map_of_mem _ (List.mem_filter.mpr ⟨hp, by simp [isSubmitted, hsub]⟩)
    have hone := List.count_eq_one_of_mem hnd hmem
    rw [List.count_eq_countP, List.countP_map] at hone
    have hone' : List.countP (fun x : Participation => x._id == p._id)
        (s.participations.filter isSubmitted) = 1 := by
      simpa [Function.comp_def] using hone
    have h' : List.countP (fun e : LeaderboardEntry => e.participationId == p._id)
        s.leaderboard =
        List.countP (fun x : Participation => x._id == p._id)
          (s.participations.filter isSubmitted) := by
      simpa [Function.comp_def] using h
    rw [h', hone']
  · intro e he
    have hmem : (e.participationId, e.contestId) ∈
        (s.participations.filter isSubmitted).map (fun p => (p._id, p.contestId)) :=
      hperm.subset (List.mem_map_of_mem (fun e => (e.participationId, e.contestId)) he)
    obtain ⟨p, hp, hpe⟩ := List.mem_map.mp hmem
    obtain ⟨hp1, hp2⟩ := List.mem_filter.mp hp
    simp only [Prod.mk.injEq] at hpe
    exact ⟨p, hp1, by simpa [isSubmitted] using hp2, hpe.1, hpe.2⟩

/-- Witness of C17: the store after the sample user joined and submitted contest 1. -/
theorem C17_leaderboard_matches_submitted_witness :
    (∀ contestId : Nat,
      (submittedOnce.leaderboard.filter (fun e => e.contestId == contestId)).length =
        (submittedOnce.participations.filter
          (fun p => p.contestId == contestId && p.submissionState == .submitted)).length) ∧
    (∀ p ∈ submittedOnce.participations, p.submissionState = .submitted →
      (submittedOnce.leaderboard.filter (fun e => e.participationId == p._id)).length = 1) ∧
    (∀ e ∈ submittedOnce.leaderboard, ∃ p ∈ submittedOnce.participations,
      p.submissionState = .submitted ∧
      p._id = e.participationId ∧ p.contestId = e.contestId) :=
  C17_leaderboard_matches_submitted sampleContests submittedOnce ⟨_, rfl⟩

/-- C19: in every reachable store no two participations have the same contest and the
same user, and a join of a user on a contest in which the user already has a
participation is never answered 201 and leaves the store as it was. -/
theorem C19_one_participation_per_contest_and_user (contests : List Contest) (s : Store)
    (contestId : Nat) (user : User) (clk : JoinClock) (p : Participation)
    (hreach : Reachable contests s)
    (hmem : p ∈ s.participations)
    (hcid : p.contestId = contestId)
    (huid : p.userId = user._id) :
    s.participations.Pairwise
      (fun a b => ¬ (a.contestId = b.contestId ∧ a.userId = b.userId)) ∧
    (∀ p', (join s contestId user clk).1 ≠ .registered p') ∧
    (join s contestId user clk).2 = s := by
  have hc := consistent_of_reachable contests s hreach
  refine ⟨?_, ?_⟩
  · have h := hc.pairsDistinct
    rw [List.Nodup, List.pairwise_map] at h
    exact h.imp (fun hab hand => hab (by simp [hand.1, hand.2]))
  · rcases join_cases s contestId user clk with ⟨hs, hne⟩ |
      ⟨contest, -, -, -, -, hnew, -, -⟩
    · exact ⟨hne, hs⟩
    · have := List.find?_eq_none.mp hnew p hmem
      simp [hcid, huid] at this

/-- Witness of C19: the sample user joins contest 1 a second time. -/
theorem C19_one_participation_per_contest_and_user_witness :
    joinedOnce.participations.Pairwise
      (fun a b => ¬ (a.contestId = b.contestId ∧ a.userId = b.userId)) ∧
    (∀ p', (join joinedOnce 1 sampleUser sampleJoinClock).1 ≠ .registered p') ∧
    (join joinedOnce 1 sampleUser sampleJoinClock).2 = joinedOnce :=
  C19_one_participation_per_contest_and_user sampleContests joinedOnce 1 sampleUser
    sampleJoinClock (newParticipation (emptyStore sampleContests) 1 9 sampleJoinClock)
    ⟨_, rfl⟩ (List.Mem.head _) rfl rfl

/-! ## Capacity -/

theorem capacityKept_refl (c : Contest) : CapacityKept c c :=
  ⟨rfl, rfl, id, fun _ h => h⟩

theorem capacityKept_trans (a b c : Contest) (hab : CapacityKept a b) (hbc : CapacityKept b c) :
    CapacityKept a c := by
  obtain ⟨h1, h2, h3, h4⟩ := hab
  obtain ⟨k1, k2, k3, k4⟩ := hbc
  refine ⟨k1.trans h1, k2.trans h2, fun h => k3 (h3 h), ?_⟩
  rintro ⟨m, hm⟩ h
  exact k4 ⟨m, h2.trans hm⟩ (h4 ⟨m, hm⟩ h)

theorem capacityKept_of_same (c c' : Contest) (hid : c'._id = c._id)
    (hmax : c'.maxParticipants = c.maxParticipants)
    (hcount : c'.participantsCount = c.participantsCount) : CapacityKept c c' := by
  refine ⟨hid, hmax, ?_, ?_⟩
  · rw [hmax, hcount]
    exact id
  · rw [hmax, hcount]
    exact fun _ h => h

theorem forall₂_trans_of {α : Type} (R : α → α → Prop)
    (htrans : ∀ a b c, R a b → R b c → R a c) :
    ∀ l1 l2 l3 : List α,
      List.Forall₂ R l1 l2 → List.Forall₂ R l2 l3 → List.Forall₂ R l1 l3
  | [], _, _, h12, h23 => by
    cases h12
    cases h23
    exact List.Forall₂.nil
  | a :: l1, _, _, h12, h23 => by
    cases h12 with
    | cons hab h12 =>
      cases h23 with
      | cons hbc h23 =>
        exact List.Forall₂.cons (htrans _ _ _ hab hbc)
          (forall₂_trans_of R htrans l1 _ _ h12 h23)

theorem forall₂_updateFirst {α : Type} (R : α → α → Prop) (hrefl : ∀ a, R a a)
    (p : α → Bool) (f : α → α) :
    ∀ l : List α, (∀ x, l.find? p = some x → R x (f x)) →
      List.Forall₂ R l (updateFirst p f l)
  | [], _ => List.Forall₂.nil
  | y :: ys, h => by
    by_cases hy : p y = true
    · simp only [updateFirst, hy, if_true]
      exact List.Forall₂.cons (h y (by simp [List.find?, hy]))
        (List.forall₂_same.mpr (fun x _ => hrefl x))
    · have hy' : p y = false := by simpa using hy
      simp only [updateFirst, hy', Bool.false_eq_true, if_false]
      exact List.Forall₂.cons (hrefl y)
        (forall₂_updateFirst R hrefl p f ys
          (fun x hx => h x (by simpa [List.find?, hy'] using hx)))

theorem submitAnswerRoute_contests (s : Store) (contestId : Nat) (user : User)
    (body : AnswerBody) (clk : AnswerClock) :
    (submitAnswerRoute s contestId user body clk).2.contests = s.contests := by
  rcases submitAnswerRoute_cases s contestId user body clk with ⟨r, hr, -⟩ |
    ⟨contest, p, q, sel, hfind, hp, hidx, hsel, hq, h1, h2⟩
  · rw [hr]
  · rw [submitAnswerRoute_accept s contestId contest user body clk p q sel hfind hp hidx hsel hq
      h1 h2]
    split <;> rfl

theorem submitContestRoute_contests (s : Store) (contestId : Nat) (user : User)
    (clk : SubmitClock) :
    (submitContestRoute s contestId user clk).2.contests = s.contests := by
  rcases submitContestRoute_cases s contestId user clk with ⟨r, hr, -⟩ |
    ⟨contest, p, -, -, hroute⟩
  · rw [hr]
  · rw [hroute]
    rfl

theorem capacityKept_step (s : Store) (op : Op) :
    List.Forall₂ CapacityKept s.contests (step s op).contests := by
  have hsame : List.Forall₂ CapacityKept s.contests s.contests :=
    List.forall₂_same.mpr (fun x _ => capacityKept_refl x)
  cases op with
  | join contestId user clk =>
    rcases join_cases s contestId user clk with ⟨hs, -⟩ |
      ⟨contest, hfind, -, -, hroom, -, -, hjoin⟩
    · simp only [step, hs]
      exact hsame
    · simp only [step, hjoin]
      refine forall₂_updateFirst CapacityKept capacityKept_refl _ _ s.contests ?_
      intro x hx
      have hxc : x = contest := Option.some.inj (hx.symm.trans hfind)
      subst hxc
      refine ⟨rfl, rfl, fun _ => ?_, ?_⟩
      · show ((x.participantsCount + 1 : Int) : ℚ) < x.maxParticipants + 1
        push_cast
        linarith
      · rintro ⟨m, hm⟩ _
        show ((x.participantsCount + 1 : Int) : ℚ) ≤ x.maxParticipants
        rw [hm] at hroom ⊢
        have hlt : x.participantsCount < m := by exact_mod_cast hroom
        exact_mod_cast Int.add_one_le_iff.mpr hlt
  | submitAnswer contestId user body clk =>
    simp only [step, submitAnswerRoute_contests]
    exact hsame
  | submitContest contestId user clk =>
    simp only [step, submitContestRoute_contests]
    exact hsame
  | cancelContest contestId =>
    simp only [step, cancelContest]
    split
    · exact hsame
    · split
      · exact hsame
      · split
        · exact hsame
        · exact forall₂_updateFirst CapacityKept capacityKept_refl _ _ s.contests
            (fun x _ => capacityKept_of_same _ _ rfl rfl rfl)
  | advanceStatus contestId =>
    simp only [step, advanceStatus]
    refine forall₂_updateFirst CapacityKept capacityKept_refl _ _ s.contests ?_
    intro x _
    cases hst : x.status <;> exact capacityKept_of_same _ _ rfl rfl rfl

theorem capacityKept_run (ops : List Op) :
    ∀ s : Store, List.Forall₂ CapacityKept s.contests (run s ops).contests := by
  induction ops with
  | nil => exact fun s => List.forall₂_same.mpr (fun x _ => capacityKept_refl x)
  | cons op ops ih =>
    exact fun s => forall₂_trans_of CapacityKept capacityKept_trans _ _ _
      (capacityKept_step s op) (ih (step s op))

/-- C20 (counterexample): a contest whose `maxParticipants` is 2.5 starts with the
`participantsCount` 0, which is at most 2.5; three users join one after the other; the
third join, at the count 2, is answered 201, and afterwards the count is 3, which is more
than 2.5. -/
theorem C20_fractional_maximum_exceeded :
    (emptyStore [fractionalContest]).contests.map
        (fun c => (c.participantsCount, decide ((c.participantsCount : ℚ) ≤ c.maxParticipants))) =
      [(0, true)] ∧
    (run (emptyStore [fractionalContest])
        [.join 7 sampleUser sampleJoinClock, .join 7 strangerUser sampleJoinClock]).contests.map
        (fun c => (c.participantsCount, decide ((c.participantsCount : ℚ) ≤ c.maxParticipants))) =
      [(2, true)] ∧
    (join
        (run (emptyStore [fractionalContest])
          [.join 7 sampleUser sampleJoinClock, .join 7 strangerUser sampleJoinClock])
        7 thirdUser sampleJoinClock).1 =
      .registered
        { _id := 2, contestId := 7, userId := 5, score := 0, submissionState := .pending,
          submissionTime := none, currentQuestionIndex := 0, answers := [],
          startTime := 1000, updatedAt := 1000 } ∧
    (run (emptyStore [fractionalContest]) threeJoins).contests.map
        (fun c => (c.participantsCount, decide ((c.participantsCount : ℚ) ≤ c.maxParticipants))) =
      [(3, false)] := by
  refine ⟨by decide, by decide, rfl, by decide⟩

/-- C20 (amended): after any sequence of operations (joins among them) every contest
document has the `maxParticipants` it had; a store in which every contest has a whole
number as `maxParticipants` and a `participantsCount` of at most `maxParticipants` stays
so; for any `maxParticipants`, whole or not, a `participantsCount` of at most
`maxParticipants` stays below `maxParticipants + 1`.  A join on a contest whose
`participantsCount` has reached `maxParticipants` is never answered 201 and changes
nothing, and for a pending contest that passes the VIP gate the answer is "Contest has
reached maximum participants limit". -/
theorem C20_capacity_kept_whole_maximum (s : Store) (ops : List Op) (contestId : Nat)
    (user : User) (clk : JoinClock) :
    List.Forall₂ CapacityKept s.contests (run s ops).contests ∧
    ((∀ c ∈ s.contests, (∃ m : Int, c.maxParticipants = m) ∧
        (c.participantsCount : ℚ) ≤ c.maxParticipants) →
      ∀ c ∈ (run s ops).contests, (∃ m : Int, c.maxParticipants = m) ∧
        (c.participantsCount : ℚ) ≤ c.maxParticipants) ∧
    ((∀ c ∈ s.contests, (c.participantsCount : ℚ) ≤ c.maxParticipants) →
      ∀ c ∈ (run s ops).contests, (c.participantsCount : ℚ) < c.maxParticipants + 1) ∧
    (∀ contest, findContestById s contestId = some contest →
      (contest.participantsCount : ℚ) ≥ contest.maxParticipants →
      (∀ p, (join s contestId user clk).1 ≠ .registered p) ∧
      (join s contestId user clk).2 = s) ∧
    (∀ contest, findContestById s contestId = some contest →
      contest.status = .pending → (contest.isVipOnly = true → user.userType = .VIP) →
      (contest.participantsCount : ℚ) ≥ contest.maxParticipants →
      (join s contestId user clk).1 = .maxParticipantsReached) := by
  have hrun := capacityKept_run ops s
  have hpair : ∀ c' ∈ (run s ops).contests, ∃ c ∈ s.contests, CapacityKept c c' := by
    intro c' hc
    obtain ⟨i, hi, rfl⟩ := List.getElem_of_mem hc
    have hlen := hrun.length_eq
    exact ⟨_, List.get_mem _ _ _, (List.forall₂_iff_get.mp hrun).2 i (hlen ▸ hi) hi⟩
  refine ⟨hrun, ?_, ?_, ?_, ?_⟩
  · intro hall c' hc
    obtain ⟨c, hmem, -, hmax, -, hwhole⟩ := hpair c' hc
    obtain ⟨⟨m, hm⟩, hle⟩ := hall c hmem
    exact ⟨⟨m, hmax.trans hm⟩, hwhole ⟨m, hm⟩ hle⟩
  · intro hall c' hc
    obtain ⟨c, hmem, -, -, hbelow, -⟩ := hpair c' hc
    have hle := hall c hmem
    exact hbelow (by linarith)
  · intro contest hfind hfull
    rcases join_cases s contestId user clk with ⟨hs, hne⟩ |
      ⟨contest', hfind', -, -, hroom, -, -, -⟩
    · exact ⟨hne, hs⟩
    · have hcc : contest' = contest := Option.some.inj (hfind'.symm.trans hfind)
      subst hcc
      exact absurd hfull (not_le.mpr hroom)
  · intro contest hfind hstatus hvip hfull
    have hvip' : (contest.isVipOnly && user.userType != .VIP) = false := by
      cases hv : contest.isVipOnly
      · simp
      · simp [hvip hv]
    simp [join, checkContestExists, canParticipate, hfind, hstatus, hvip', hfull]

/-- Witness of C20: the one place of `smallContest` is taken; a second user joins, is
answered "Contest has reached maximum participants limit", and the count is still at
most the maximum 1. -/
theorem C20_capacity_kept_whole_maximum_witness :
    (∀ c ∈ (run fullStore [.join 5 strangerUser sampleJoinClock]).contests,
      (∃ m : Int, c.maxParticipants = m) ∧ (c.participantsCount : ℚ) ≤ c.maxParticipants) ∧
    (join fullStore 5 strangerUser sampleJoinClock).1 = .maxParticipantsReached := by
  obtain ⟨-, hwhole, -, -, hfull⟩ :=
    C20_capacity_kept_whole_maximum fullStore [.join 5 strangerUser sampleJoinClock] 5
      strangerUser sampleJoinClock
  refine ⟨hwhole ?_, hfull { smallContest with participantsCount := 1 } rfl rfl
    (fun h => by cases h) (by decide)⟩
  intro c hc
  have hcs : fullStore.contests = [{ smallContest with participantsCount := 1 }] := rfl
  rw [hcs, List.mem_singleton] at hc
  subst hc
  exact ⟨⟨1, by norm_num [smallContest]⟩, by decide⟩

/-! ## The leaderboard -/

theorem sortsBefore_total (a b : LeaderboardEntry) :
    sortsBefore a b = true ∨ sortsBefore b a = true := by
  rcases lt_trichotomy a.score b.score with h | h | h
  · right
    simp [sortsBefore, h]
  · cases ha : a.submissionTime with
    | none =>
      left
      simp [sortsBefore, h, ha, timeAscending]
    | some ta =>
      cases hb : b.submissionTime with
      | none =>
        right
        simp [sortsBefore, h, hb, timeAscending]
      | some tb =>
        rcases le_total ta tb with hle | hle
        · left
          simp [sortsBefore, h, ha, hb, timeAscending, hle]
        · right
          simp [sortsBefore, h, ha, hb, timeAscending, hle]
  · left
    simp [sortsBefore, h]

theorem timeAscending_trans (x y z : Option Int) (hxy : timeAscending x y = true)
    (hyz : timeAscending y z = true) : timeAscending x z = true := by
  cases x <;> cases y <;> cases z <;> simp [timeAscending] at hxy hyz ⊢
  omega

theorem sortsBefore_iff (a b : LeaderboardEntry) :
    sortsBefore a b = true ↔
      (a.score > b.score ∨
        (a.score = b.score ∧ timeAscending a.submissionTime b.submissionTime = true)) := by
  simp [sortsBefore]

theorem sortsBefore_trans (a b c : LeaderboardEntry) (hab : sortsBefore a b = true)
    (hbc : sortsBefore b c = true) : sortsBefore a c = true := by
  rw [sortsBefore_iff] at hab hbc ⊢
  rcases hab with hab | ⟨hab, tab⟩
  · rcases hbc with hbc | ⟨hbc, -⟩
    · left
      omega
    · left
      omega
  · rcases hbc with hbc | ⟨hbc, tbc⟩
    · left
      omega
    · right
      exact ⟨hab.trans hbc, timeAscending_trans _ _ _ tab tbc⟩

theorem sortedLeaderboard_sorted (s : Store) (contestId : Nat) :
    (sortedLeaderboard s contestId).Pairwise (fun a b => sortsBefore a b = true) := by
  haveI : IsTotal LeaderboardEntry (fun a b => sortsBefore a b = true) := ⟨sortsBefore_total⟩
  haveI : IsTrans LeaderboardEntry (fun a b => sortsBefore a b = true) := ⟨sortsBefore_trans⟩
  exact List.sorted_insertionSort (fun a b => sortsBefore a b = true) _

theorem getLeaderboard_listing (s : Store) (contestId : Nat) (user : Option User)
    (query : LeaderboardQuery) (count : Nat) (pagination : Pagination) (data : List RankedEntry)
    (hresp : getLeaderboard s contestId user query = .listing count pagination data) :
    pagination.page = orDefault query.page 1 ∧
    pagination.limit = orDefault query.limit 10 ∧
    pagination.total = (s.leaderboard.filter (fun e => e.contestId == contestId)).length ∧
    pagination.pages = (pagination.total + pagination.limit - 1) / pagination.limit ∧
    count = data.length ∧
    data = ((((sortedLeaderboard s contestId).drop
      ((pagination.page - 1) * pagination.limit)).take pagination.limit).enum.map
        (fun (index, entry) =>
          { rank := (pagination.page - 1) * pagination.limit + index + 1
            userId := entry.userId
            score := entry.score
            submissionTime := entry.submissionTime })) := by
  unfold getLeaderboard at hresp
  cases hfind : findContestById s contestId with
  | none => simp [hfind] at hresp
  | some contest =>
    have hid : contest._id = contestId :=
      find?_id_eq (fun c : Contest => c._id) s.contests contestId contest hfind
    simp only [hfind] at hresp
    split at hresp
    · cases hresp
    · split at hresp
      · split at hresp <;> cases hresp
      · injection hresp with h1 h2 h3
        subst h2
        subst h3
        subst h1
        simp [hid]

theorem listing_getElem? (sorted : List LeaderboardEntry) (skip limit i : Nat) :
    (((sorted.drop skip).take limit).enum.map
        (fun (index, entry) =>
          ({ rank := skip + index + 1
             userId := entry.userId
             score := entry.score
             submissionTime := entry.submissionTime } : RankedEntry)))[i]? =
      if i < limit then
        (sorted[skip + i]?).map (fun entry =>
          ({ rank := skip + i + 1
             userId := entry.userId
             score := entry.score
             submissionTime := entry.submissionTime } : RankedEntry))
      else none := by
  rw [List.getElem?_map, List.getElem?_enum, List.getElem?_take]
  split
  · rw [List.getElem?_drop]
    cases sorted[skip + i]? <;> rfl
  · rfl

/-- C15: when `getLeaderboard` answers with the listing, the sorted entries it pages
through are the entries of the contest, each once, ordered by score descending and, on
equal scores, by submission time ascending; the element at position `i` of `data` is the
entry at position `skip + i` of that ordering with rank `skip + i + 1`, so the full
listing (first page, limit not below the number of entries) gives the entry at position
`i` the rank `i + 1`.  For user A with score 50 at time 10, user B with score 50 at time 5
and user C with score 40 at time 1 the listing is B with rank 1, A with rank 2, C with
rank 3. -/
theorem C15_listing_order_and_ranks (s : Store) (contestId : Nat) (user : Option User)
    (query : LeaderboardQuery) (count : Nat) (pagination : Pagination) (data : List RankedEntry)
    (hresp : getLeaderboard s contestId user query = .listing count pagination data) :
    (sortedLeaderboard s contestId).Perm
      (s.leaderboard.filter (fun e => e.contestId == contestId)) ∧
    (sortedLeaderboard s contestId).Pairwise
      (fun a b => a.score > b.score ∨
        (a.score = b.score ∧ timeAscending a.submissionTime b.submissionTime = true)) ∧
    (∀ ta tb : Int, timeAscending (some ta) (some tb) = true ↔ ta ≤ tb) ∧
    (∀ (i : Nat) (e : RankedEntry), data[i]? = some e →
      e.rank = (pagination.page - 1) * pagination.limit + i + 1 ∧
      ∃ x, (sortedLeaderboard s contestId)[(pagination.page - 1) * pagination.limit + i]? =
          some x ∧
        e.userId = x.userId ∧ e.score = x.score ∧ e.submissionTime = x.submissionTime) ∧
    (pagination.page = 1 → pagination.total ≤ pagination.limit →
      data.length = pagination.total ∧
      ∀ (i : Nat) (x : LeaderboardEntry), (sortedLeaderboard s contestId)[i]? = some x →
        data[i]? = some
          ({ rank := i + 1, userId := x.userId, score := x.score,
             submissionTime := x.submissionTime } : RankedEntry)) ∧
    getLeaderboard rankingExample 1 none { page := none, limit := none } =
      .listing 3 { page := 1, limit := 10, total := 3, pages := 1 }
        [{ rank := 1, userId := 2, score := 50, submissionTime := some 5 },
         { rank := 2, userId := 1, score := 50, submissionTime := some 10 },
         { rank := 3, userId := 3, score := 40, submissionTime := some 1 }] := by
  obtain ⟨-, -, htotal, -, -, hdata⟩ :=
    getLeaderboard_listing s contestId user query count pagination data hresp
  have hperm : (sortedLeaderboard s contestId).Perm
      (s.leaderboard.filter (fun e => e.contestId == contestId)) :=
    List.perm_insertionSort _ _
  refine ⟨hperm, ?_, ?_, ?_, ?_, by decide⟩
  · exact (sortedLeaderboard_sorted s contestId).imp (fun h => (sortsBefore_iff _ _).mp h)
  · intro ta tb
    simp [timeAscending]
  · intro i e hie
    rw [hdata, listing_getElem?] at hie
    split at hie
    · cases hx :
          (sortedLeaderboard s contestId)[(pagination.page - 1) * pagination.limit + i]? with
      | none => simp [hx] at hie
      | some x =>
        simp only [hx, Option.map_some', Option.some.injEq] at hie
        subst hie
        exact ⟨rfl, x, rfl, rfl, rfl, rfl⟩
    · cases hie
  · intro hpage hle
    have hlen : (sortedLeaderboard s contestId).length = pagination.total := by
      rw [htotal]
      exact hperm.length_eq
    constructor
    · rw [hdata]
      simp [hpage, hlen, hle]
    · intro i x hx
      have hi : i < (sortedLeaderboard s contestId).length := by
        by_contra hni
        rw [List.getElem?_eq_none (not_lt.mp hni)] at hx
        cases hx
      rw [hdata, listing_getElem?]
      have hil : i < pagination.limit := by omega
      simp [hpage, hil, hx]

/-- Witness of C15: the first page of the ranking example. -/
theorem C15_listing_order_and_ranks_witness :
    (sortedLeaderboard rankingExample 1).Perm
      (rankingExample.leaderboard.filter (fun e => e.contestId == 1)) ∧
    (sortedLeaderboard rankingExample 1).Pairwise
      (fun a b => a.score > b.score ∨
        (a.score = b.score ∧ timeAscending a.submissionTime b.submissionTime = true)) ∧
    (∀ ta tb : Int, timeAscending (some ta) (some tb) = true ↔ ta ≤ tb) ∧
    (∀ (i : Nat) (e : RankedEntry),
      ([{ rank := 1, userId := 2, score := 50, submissionTime := some 5 },
        { rank := 2, userId := 1, score := 50, submissionTime := some 10 },
        { rank := 3, userId := 3, score := 40, submissionTime := some 1 }] :
          List RankedEntry)[i]? = some e →
      e.rank = (1 - 1) * 10 + i + 1 ∧
      ∃ x, (sortedLeaderboard rankingExample 1)[(1 - 1) * 10 + i]? = some x ∧
        e.userId = x.userId ∧ e.score = x.score ∧ e.submissionTime = x.submissionTime) ∧
    ((1 : Nat) = 1 → 3 ≤ 10 →
      ([{ rank := 1, userId := 2, score := 50, submissionTime := some 5 },
        { rank := 2, userId := 1, score := 50, submissionTime := some 10 },
        { rank := 3, userId := 3, score := 40, submissionTime := some 1 }] :
          List RankedEntry).length = 3 ∧
      ∀ (i : Nat) (x : LeaderboardEntry), (sortedLeaderboard rankingExample 1)[i]? = some x →
        ([{ rank := 1, userId := 2, score := 50, submissionTime := some 5 },
          { rank := 2, userId := 1, score := 50, submissionTime := some 10 },
          { rank := 3, userId := 3, score := 40, submissionTime := some 1 }] :
            List RankedEntry)[i]? = some
          ({ rank := i + 1, userId := x.userId, score := x.score,
             submissionTime := x.submissionTime } : RankedEntry)) ∧
    getLeaderboard rankingExample 1 none { page := none, limit := none } =
      .listing 3 { page := 1, limit := 10, total := 3, pages := 1 }
        [{ rank := 1, userId := 2, score := 50, submissionTime := some 5 },
         { rank := 2, userId := 1, score := 50, submissionTime := some 10 },
         { rank := 3, userId := 3, score := 40, submissionTime := some 1 }] :=
  C15_listing_order_and_ranks rankingExample 1 none { page := none, limit := none } 3
    { page := 1, limit := 10, total := 3, pages := 1 }
    [{ rank := 1, userId := 2, score := 50, submissionTime := some 5 },
     { rank := 2, userId := 1, score := 50, submissionTime := some 10 },
     { rank := 3, userId := 3, score := 40, submissionTime := some 1 }] (by decide)

/-- C16: for a user to whom `getLeaderboard` shows only the own result (the contest is
neither live nor VIP-only and the user is neither admin nor VIP), with `e` the entry of
the user in the contest, the answer is `myPosition` with the score and the submission time
of `e` and with rank 1 plus the number of entries of the same contest that the filter of
the count matches; the filter matches exactly the entries with a higher score than `e`, or
with the score of `e` and an earlier submission time.  Entries of other contests are not
counted, and a user without entry in the contest is answered "You are not on the
leaderboard for this contest". -/
theorem C16_my_position_rank (s : Store) (contestId : Nat) (contest : Contest) (u : User)
    (query : LeaderboardQuery)
    (hfind : findContestById s contestId = some contest)
    (hopen : contest.isVipOnly = false)
    (hstatus : contest.status ≠ .live)
    (hadmin : u.isAdmin = false)
    (hnormal : u.userType ≠ .VIP) :
    (∀ e : LeaderboardEntry,
      s.leaderboard.find? (fun x => x.contestId == contestId && x.userId == u._id) = some e →
      getLeaderboard s contestId (some u) query =
        .myPosition
          (1 + (s.leaderboard.filter
            (fun x => x.contestId == contestId && ranksAbove e x)).length)
          e.score e.submissionTime) ∧
    (∀ e x : LeaderboardEntry, ranksAbove e x = true ↔
      (x.score > e.score ∨
        (x.score = e.score ∧ ∃ tx te : Int,
          x.submissionTime = some tx ∧ e.submissionTime = some te ∧ tx < te))) ∧
    ((∀ x ∈ s.leaderboard, ¬ (x.contestId = contestId ∧ x.userId = u._id)) →
      getLeaderboard s contestId (some u) query = .notOnLeaderboard) := by
  have hid : contest._id = contestId :=
    find?_id_eq (fun c : Contest => c._id) s.contests contestId contest hfind
  have hown : ownResultOnly contest (some u) = some u := by
    simp [ownResultOnly, hopen, hstatus, hadmin, hnormal]
  refine ⟨?_, ?_, ?_⟩
  · intro e he
    simp [getLeaderboard, hfind, hopen, hown, hid, he, Nat.add_comm]
  · intro e x
    cases hx : x.submissionTime <;> cases he : e.submissionTime <;>
      simp [ranksAbove, timeBefore, hx, he]
  · intro hnone
    have hf : s.leaderboard.find? (fun x => x.contestId == contestId && x.userId == u._id) =
        none := by
      rw [List.find?_eq_none]
      intro x hx
      simpa using hnone x hx
    simp [getLeaderboard, hfind, hopen, hown, hid, hf]

/-- Witness of C16: user A of the ranking example, behind user B. -/
theorem C16_my_position_rank_witness :
    (∀ e : LeaderboardEntry,
      rankingExample.leaderboard.find? (fun x => x.contestId == 1 && x.userId == 1) = some e →
      getLeaderboard rankingExample 1 (some { _id := 1, userType := .Normal })
          { page := none, limit := none } =
        .myPosition
          (1 + (rankingExample.leaderboard.filter
            (fun x => x.contestId == 1 && ranksAbove e x)).length)
          e.score e.submissionTime) ∧
    (∀ e x : LeaderboardEntry, ranksAbove e x = true ↔
      (x.score > e.score ∨
        (x.score = e.score ∧ ∃ tx te : Int,
          x.submissionTime = some tx ∧ e.submissionTime = some te ∧ tx < te))) ∧
    ((∀ x ∈ rankingExample.leaderboard, ¬ (x.contestId = 1 ∧ x.userId = 1)) →
      getLeaderboard rankingExample 1 (some { _id := 1, userType := .Normal })
          { page := none, limit := none } = .notOnLeaderboard) :=
  C16_my_position_rank rankingExample 1 (sampleContest 1) { _id := 1, userType := .Normal }
    { page := none, limit := none } rfl rfl (by decide) rfl (by decide)

/-! ## Fifteen correct answers -/

theorem find?_append_singleton {α : Type} (p : α → Bool) (l : List α) (x : α)
    (hl : ∀ y ∈ l, p y = false) (hx : p x = true) : (l ++ [x]).find? p = some x := by
  induction l with
  | nil => simp [List.find?, hx]
  | cons y ys ih =>
    have hy := hl y (by simp)
    simp only [List.cons_append, List.find?, hy]
    exact ih (fun z hz => hl z (List.mem_cons_of_mem _ hz))

theorem updateFirst_append_singleton {α : Type} (p : α → Bool) (f : α → α) (l : List α)
    (x : α) (hl : ∀ y ∈ l, p y = false) (hx : p x = true) :
    updateFirst p f (l ++ [x]) = l ++ [f x] := by
  induction l with
  | nil => simp [updateFirst, hx]
  | cons y ys ih =>
    have hy := hl y (by simp)
    have ih' := ih (fun z hz => hl z (List.mem_cons_of_mem _ hz))
    simp only [List.cons_append, updateFirst, hy, Bool.false_eq_true, if_false]
    exact congrArg (List.cons y) ih'

theorem evaluate_single_correct (q : Question) (c : Int) (hty : q.questionType = .single)
    (hc : q.correctOption = .num c) :
    evaluate q (.num c) = { isCorrect := true, scoreForQuestion := q.score } := by
  simp [evaluate, hty, hc, strictEq]

theorem submitAnswerRoute_correct_step (st : Store) (contestId : Nat) (contest : Contest)
    (user : User) (clk : AnswerClock) (l : List Participation) (pk : Participation)
    (q : Question) (c : Int)
    (hparts : st.participations = l ++ [pk])
    (hother : ∀ y ∈ l, ¬ (y.contestId = contestId ∧ y.userId = user._id))
    (hids : ∀ y ∈ l, y._id ≠ pk._id)
    (hfind : findContestById st contestId = some contest)
    (hq : contest.questions[pk.currentQuestionIndex]? = some q)
    (hty : q.questionType = .single) (hc : q.correctOption = .num c)
    (hcid : pk.contestId = contestId) (huid : pk.userId = user._id)
    (hpend : pk.submissionState = .pending)
    (hclk : clk.validated ≤ clk.checked)
    (htime : clk.checked - pk.updatedAt ≤ QUESTION_TIME_LIMIT * 1000) :
    ∃ p' : Participation,
      (submitAnswerRoute st contestId user
        { questionIndex := some (.num pk.currentQuestionIndex)
          selectedOptions := some (.num c) } clk).1 =
        .ok
          { isCorrect := true
            scoreForQuestion := q.score
            totalScore := pk.score + q.score
            nextQuestionIndex := pk.currentQuestionIndex + 1
            isContestCompleted :=
              decide (QUESTIONS_PER_CONTEST ≤ pk.currentQuestionIndex + 1) } ∧
      (submitAnswerRoute st contestId user
        { questionIndex := some (.num pk.currentQuestionIndex)
          selectedOptions := some (.num c) } clk).2.participations = l ++ [p'] ∧
      (submitAnswerRoute st contestId user
        { questionIndex := some (.num pk.currentQuestionIndex)
          selectedOptions := some (.num c) } clk).2.contests = st.contests ∧
      (submitAnswerRoute st contestId user
        { questionIndex := some (.num pk.currentQuestionIndex)
          selectedOptions := some (.num c) } clk).2.leaderboard =
        (if QUESTIONS_PER_CONTEST ≤ pk.currentQuestionIndex + 1 then
          st.leaderboard ++
            [{ contestId := contestId
               userId := user._id
               participationId := pk._id
               score := pk.score + q.score
               submissionTime := some clk.submitted }]
        else st.leaderboard) ∧
      p'._id = pk._id ∧ p'.contestId = contestId ∧ p'.userId = user._id ∧
      p'.currentQuestionIndex = pk.currentQuestionIndex + 1 ∧
      p'.score = pk.score + q.score ∧ p'.updatedAt = clk.saved ∧
      p'.submissionState =
        (if QUESTIONS_PER_CONTEST ≤ pk.currentQuestionIndex + 1 then .submitted
        else .pending) := by
  have hp : findActiveParticipation st contestId user._id = some pk := by
    unfold findActiveParticipation
    rw [hparts]
    apply find?_append_singleton
    · intro y hy
      have := hother y hy
      by_cases h1 : y.contestId = contestId
      · have h2 : ¬ y.userId = user._id := fun h2 => this ⟨h1, h2⟩
        simp [h2]
      · simp [h1]
    · simp [hcid, huid, hpend]
  have h2 : timeLimitExceeded clk.checked pk.updatedAt = false := by
    cases h : timeLimitExceeded clk.checked pk.updatedAt
    · rfl
    · exact absurd ((timeLimitExceeded_iff _ _).mp h) (not_lt.mpr htime)
  have h1 := timeLimitExceeded_mono _ _ pk.updatedAt hclk h2
  have hacc := submitAnswerRoute_accept st contestId contest user
    { questionIndex := some (.num pk.currentQuestionIndex), selectedOptions := some (.num c) }
    clk pk q (.num c) hfind hp ((indexMatches_iff _ _).mpr rfl) rfl hq h1 h2
  have hsave : ∀ (s' : Store) (p' : Participation), s'.participations = st.participations →
      p'._id = pk._id → (saveParticipation s' p').participations = l ++ [p'] := by
    intro s' p' hs' hid'
    simp only [saveParticipation, hs', hparts]
    exact updateFirst_append_singleton _ _ l pk
      (fun y hy => by simpa [hid'] using hids y hy) (by simp [hid'])
  rw [hacc, evaluate_single_correct q c hty hc]
  by_cases hN : QUESTIONS_PER_CONTEST ≤ pk.currentQuestionIndex + 1
  · simp only [if_pos hN]
    exact ⟨_, by simp [hN], hsave _ _ rfl rfl, rfl, rfl, rfl, hcid, huid, rfl, rfl, rfl, rfl⟩
  · simp only [if_neg hN]
    exact ⟨_, by simp [hN], hsave _ _ rfl rfl, rfl, rfl, rfl, hcid, huid, rfl, rfl, rfl, hpend⟩

theorem correctBody_eq (contest : Contest) (k : Nat) (q : Question) (c : Int)
    (hq : contest.questions[k]? = some q) (hc : q.correctOption = .num c) :
    correctBody contest k =
      { questionIndex := some (.num k), selectedOptions := some (.num c) } := by
  simp [correctBody, hq, hc]

theorem answerInOrder_progress (s1 : Store) (contestId : Nat) (contest contest1 : Contest)
    (user : User) (jclk : JoinClock) (clks : Nat → AnswerClock) (l : List Participation)
    (p0 : Participation)
    (hparts : s1.participations = l ++ [p0])
    (hother : ∀ y ∈ l, ¬ (y.contestId = contestId ∧ y.userId = user._id))
    (hids : ∀ y ∈ l, y._id ≠ p0._id)
    (hfind1 : findContestById s1 contestId = some contest1)
    (hqs : contest1.questions = contest.questions)
    (hlen : contest.questions.length = QUESTIONS_PER_CONTEST)
    (hq : ∀ q ∈ contest.questions,
      q.questionType = .single ∧ q.score = 5 ∧ ∃ c, q.correctOption = .num c)
    (hcid : p0.contestId = contestId) (huid : p0.userId = user._id)
    (hpend : p0.submissionState = .pending) (hidx : p0.currentQuestionIndex = 0)
    (hscore : p0.score = 0) (hupd : p0.updatedAt = jclk.saved)
    (hclk : ∀ k, (clks k).validated ≤ (clks k).checked)
    (htime : ∀ k, (clks k).checked - clockAnchor jclk clks k ≤ QUESTION_TIME_LIMIT * 1000) :
    ∀ k, k < QUESTIONS_PER_CONTEST →
      ∃ pk : Participation,
        (answerInOrder s1 contestId user contest clks k).participations = l ++ [pk] ∧
        (answerInOrder s1 contestId user contest clks k).contests = s1.contests ∧
        (answerInOrder s1 contestId user contest clks k).leaderboard = s1.leaderboard ∧
        pk._id = p0._id ∧ pk.contestId = contestId ∧ pk.userId = user._id ∧
        pk.submissionState = .pending ∧ pk.currentQuestionIndex = k ∧
        pk.score = 5 * (k : Int) ∧ pk.updatedAt = clockAnchor jclk clks k := by
  intro k
  induction k with
  | zero =>
    intro _
    exact ⟨p0, hparts, rfl, rfl, rfl, hcid, huid, hpend, hidx, by simp [hscore], hupd⟩
  | succ k ih =>
    intro hk
    obtain ⟨pk, h1, h2, h3, h4, h5, h6, h7, h8, h9, h10⟩ := ih (Nat.lt_of_succ_lt hk)
    have hklt : k < contest.questions.length := by rw [hlen]; exact Nat.lt_of_succ_lt hk
    have hqk : contest.questions[k]? = some contest.questions[k] :=
      List.getElem?_eq_getElem hklt
    obtain ⟨hty, hsc, c, hc⟩ := hq _ (List.getElem_mem hklt)
    have hfindk : findContestById (answerInOrder s1 contestId user contest clks k) contestId =
        some contest1 := by
      unfold findContestById at hfind1 ⊢
      rw [h2]
      exact hfind1
    obtain ⟨p', -, hp2, hp3, hp4, hp5, hp6, hp7, hp8, hp9, hp10, hp11⟩ :=
      submitAnswerRoute_correct_step (answerInOrder s1 contestId user contest clks k) contestId
        contest1 user (clks k) l pk contest.questions[k] c h1 hother
        (fun y hy => by rw [h4]; exact hids y hy) hfindk (by rw [hqs, h8]; exact hqk) hty hc
        h5 h6 h7 (hclk k) (by rw [h10]; exact htime k)
    have hnot : ¬ QUESTIONS_PER_CONTEST ≤ pk.currentQuestionIndex + 1 := by
      rw [h8]
      exact not_le.mpr hk
    rw [if_neg hnot] at hp4 hp11
    rw [h8] at hp2 hp3 hp4 hp8
    have hbody := correctBody_eq contest k _ c hqk hc
    refine ⟨p', ?_, ?_, ?_, hp5.trans h4, hp6, hp7, hp11, hp8, ?_, ?_⟩
    · simp only [answerInOrder, hbody]
      exact hp2
    · simp only [answerInOrder, hbody]
      exact hp3.trans h2
    · simp only [answerInOrder, hbody]
      exact hp4.trans h3
    · rw [hp9, h9, hsc]
      push_cast
      ring
    · rw [hp10]
      rfl

theorem find?_updateFirst_map {α : Type} (p : α → Bool) (f : α → α) :
    ∀ (l : List α) (x : α), l.find? p = some x → p (f x) = true →
      (updateFirst p f l).find? p = some (f x)
  | [], x, h, _ => by simp at h
  | z :: zs, x, h, hfx => by
    by_cases hz : p z = true
    · have hzx : z = x := by simpa [List.find?, hz] using h
      subst hzx
      simp [updateFirst, hz, List.find?, hfx]
    · have hz' : p z = false := by simpa using hz
      have h' : zs.find? p = some x := by simpa [List.find?, hz'] using h
      simpa [updateFirst, hz', List.find?] using find?_updateFirst_map p f zs x h' hfx

theorem entry_id_below (s : Store) (hc : Consistent s) (e : LeaderboardEntry)
    (he : e ∈ s.leaderboard) : e.participationId < s.nextId := by
  have hmem : (e.participationId, e.contestId) ∈
      (s.participations.filter isSubmitted).map (fun p => (p._id, p.contestId)) :=
    hc.entries.subset (List.mem_map_of_mem (fun e => (e.participationId, e.contestId)) he)
  obtain ⟨p, hp, hpe⟩ := List.mem_map.mp hmem
  simp only [Prod.mk.injEq] at hpe
  rw [← hpe.1]
  exact hc.idsBelow p (List.mem_filter.mp hp).1

/-- C18: in a reachable store, after a join answered 201 on a contest whose fifteen
questions are all of type single with score 5 and a numeric correct option, the fifteen
requests that answer the questions 0 to 14 in order with the correct option, each within
sixty seconds of the time stamp left by the request before, are all answered 200 as
correct with 5 points and `totalScore` 5 (k + 1); after each of the first fourteen the
participation is pending with score 5 (k + 1) and index k + 1; after the fifteenth it is
submitted with score 75, and the leaderboard holds exactly one entry for it, with score
75. -/
theorem C18_fifteen_correct_answers (contests : List Contest) (s0 : Store) (contestId : Nat)
    (contest : Contest) (user : User) (jclk : JoinClock) (clks : Nat → AnswerClock)
    (p0 : Participation)
    (hreach : Reachable contests s0)
    (hjoin : (join s0 contestId user jclk).1 = .registered p0)
    (hfind : findContestById s0 contestId = some contest)
    (hlen : contest.questions.length = QUESTIONS_PER_CONTEST)
    (hq : ∀ q ∈ contest.questions,
      q.questionType = .single ∧ q.score = 5 ∧ ∃ c, q.correctOption = .num c)
    (hclk : ∀ k, (clks k).validated ≤ (clks k).checked)
    (htime : ∀ k, (clks k).checked - clockAnchor jclk clks k ≤ QUESTION_TIME_LIMIT * 1000) :
    (∀ k, k < QUESTIONS_PER_CONTEST →
      (submitAnswerRoute
        (answerInOrder (join s0 contestId user jclk).2 contestId user contest clks k)
        contestId user (correctBody contest k) (clks k)).1 =
        .ok
          { isCorrect := true
            scoreForQuestion := 5
            totalScore := 5 * ((k : Int) + 1)
            nextQuestionIndex := k + 1
            isContestCompleted := decide (QUESTIONS_PER_CONTEST ≤ k + 1) }) ∧
    (∀ k, k < 14 →
      ∃ p, findParticipationById
          (answerInOrder (join s0 contestId user jclk).2 contestId user contest clks (k + 1))
          p0._id = some p ∧
        p.submissionState = .pending ∧ p.score = 5 * ((k : Int) + 1) ∧
        p.currentQuestionIndex = k + 1) ∧
    (∃ p, findParticipationById
        (answerInOrder (join s0 contestId user jclk).2 contestId user contest clks 15)
        p0._id = some p ∧
      p.submissionState = .submitted ∧ p.score = 75 ∧ p.currentQuestionIndex = 15) ∧
    (answerInOrder (join s0 contestId user jclk).2 contestId user contest clks
        15).leaderboard.filter (fun e => e.participationId == p0._id) =
      [{ contestId := contestId
         userId := user._id
         participationId := p0._id
         score := 75
         submissionTime := some (clks 14).submitted }] := by
  have hc := consistent_of_reachable contests s0 hreach
  rcases join_cases s0 contestId user jclk with ⟨-, hne⟩ |
    ⟨contest', hfind', -, -, -, hnew, -, hjoin'⟩
  · exact absurd hjoin (hne p0)
  have hcc : contest' = contest := Option.some.inj (hfind'.symm.trans hfind)
  subst hcc
  have hid : contest'._id = contestId :=
    find?_id_eq (fun c : Contest => c._id) s0.contests contestId contest' hfind
  rw [hjoin'] at hjoin
  have hp0 : newParticipation s0 contestId user._id jclk = p0 := by
    injection hjoin
  rw [hjoin']
  generalize hs1 : ({ s0 with
      participations := s0.participations ++ [newParticipation s0 contestId user._id jclk]
      contests := updateFirst (fun c => c._id == contestId)
        (fun c => { c with participantsCount := c.participantsCount + 1 }) s0.contests
      nextId := s0.nextId + 1 } : Store) = s1
  have hparts : s1.participations = s0.participations ++ [p0] := by rw [← hs1, hp0]
  have hlb : s1.leaderboard = s0.leaderboard := by rw [← hs1]
  have hfind1 : findContestById s1 contestId =
      some { contest' with participantsCount := contest'.participantsCount + 1 } := by
    rw [← hs1]
    exact find?_updateFirst_map (fun c : Contest => c._id == contestId)
      (fun c => { c with participantsCount := c.participantsCount + 1 }) s0.contests contest'
      hfind (by simp [hid])
  have hp0id : p0._id = s0.nextId := by rw [← hp0]; rfl
  have hother : ∀ y ∈ s0.participations,
      ¬ (y.contestId = contestId ∧ y.userId = user._id) := by
    intro y hy hand
    have := List.find?_eq_none.mp hnew y hy
    simp [hand.1, hand.2] at this
  have hids : ∀ y ∈ s0.participations, y._id ≠ p0._id := by
    intro y hy
    rw [hp0id]
    exact Nat.ne_of_lt (hc.idsBelow y hy)
  have hentries : ∀ e ∈ s0.leaderboard, e.participationId ≠ p0._id := by
    intro e he
    rw [hp0id]
    exact Nat.ne_of_lt (entry_id_below s0 hc e he)
  have hprog := answerInOrder_progress s1 contestId contest'
    { contest' with participantsCount := contest'.participantsCount + 1 } user jclk clks
    s0.participations p0 hparts hother hids hfind1 rfl hlen hq (by rw [← hp0]; rfl)
    (by rw [← hp0]; rfl) (by rw [← hp0]; rfl) (by rw [← hp0]; rfl) (by rw [← hp0]; rfl)
    (by rw [← hp0]; rfl) hclk htime
  have hstep : ∀ k, k < QUESTIONS_PER_CONTEST →
      ∃ p' : Participation,
        (submitAnswerRoute (answerInOrder s1 contestId user contest' clks k) contestId user
          (correctBody contest' k) (clks k)).1 =
          .ok
            { isCorrect := true
              scoreForQuestion := 5
              totalScore := 5 * ((k : Int) + 1)
              nextQuestionIndex := k + 1
              isContestCompleted := decide (QUESTIONS_PER_CONTEST ≤ k + 1) } ∧
        (answerInOrder s1 contestId user contest' clks (k + 1)).participations =
          s0.participations ++ [p'] ∧
        (answerInOrder s1 contestId user contest' clks (k + 1)).leaderboard =
          (if QUESTIONS_PER_CONTEST ≤ k + 1 then
            s0.leaderboard ++
              [{ contestId := contestId
                 userId := user._id
                 participationId := p0._id
                 score := 5 * ((k : Int) + 1)
                 submissionTime := some (clks k).submitted }]
          else s0.leaderboard) ∧
        p'._id = p0._id ∧ p'.currentQuestionIndex = k + 1 ∧ p'.score = 5 * ((k : Int) + 1) ∧
        p'.submissionState =
          (if QUESTIONS_PER_CONTEST ≤ k + 1 then .submitted else .pending) := by
    intro k hk
    obtain ⟨pk, h1, h2, h3, h4, h5, h6, h7, h8, h9, h10⟩ := hprog k hk
    have hklt : k < contest'.questions.length := by rw [hlen]; exact hk
    have hqk : contest'.questions[k]? = some contest'.questions[k] :=
      List.getElem?_eq_getElem hklt
    obtain ⟨hty, hsc, c, hcq⟩ := hq _ (List.getElem_mem hklt)
    have hfindk : findContestById (answerInOrder s1 contestId user contest' clks k) contestId =
        some { contest' with participantsCount := contest'.participantsCount + 1 } := by
      unfold findContestById at hfind1 ⊢
      rw [h2]
      exact hfind1
    obtain ⟨p', hp1, hp2, -, hp4, hp5, -, -, hp8, hp9, -, hp11⟩ :=
      submitAnswerRoute_correct_step (answerInOrder s1 contestId user contest' clks k) contestId
        { contest' with participantsCount := contest'.participantsCount + 1 } user (clks k)
        s0.participations pk contest'.questions[k] c h1 hother
        (fun y hy => by rw [h4]; exact hids y hy) hfindk (by rw [h8]; exact hqk) hty hcq
        h5 h6 h7 (hclk k) (by rw [h10]; exact htime k)
    rw [h8] at hp1 hp2 hp4 hp8 hp11
    rw [h9, hsc] at hp1 hp4 hp9
    rw [h3, hlb, h4] at hp4
    have hbody := correctBody_eq contest' k _ c hqk hcq
    have harith : 5 * (k : Int) + 5 = 5 * ((k : Int) + 1) := by ring
    rw [harith] at hp1 hp4 hp9
    refine ⟨p', ?_, ?_, ?_, hp5.trans h4, hp8, hp9, hp11⟩
    · rw [hbody]
      exact hp1
    · simp only [answerInOrder, hbody]
      exact hp2
    · simp only [answerInOrder, hbody]
      exact hp4
  have hfindp : ∀ (st : Store) (p' : Participation),
      st.participations = s0.participations ++ [p'] → p'._id = p0._id →
      findParticipationById st p0._id = some p' := by
    intro st p' hst hid'
    unfold findParticipationById
    rw [hst]
    exact find?_append_singleton _ _ _ (fun y hy => by simpa using hids y hy) (by simp [hid'])
  refine ⟨?_, ?_, ?_, ?_⟩
  · intro k hk
    obtain ⟨p', h1, -⟩ := hstep k hk
    exact h1
  · intro k hk
    have hk15 : k < QUESTIONS_PER_CONTEST := Nat.lt_trans hk (by decide)
    obtain ⟨p', -, h2, -, h4, h5, h6, h7⟩ := hstep k hk15
    have hnot : ¬ QUESTIONS_PER_CONTEST ≤ k + 1 := by
      simp only [QUESTIONS_PER_CONTEST]
      omega
    rw [if_neg hnot] at h7
    exact ⟨p', hfindp _ p' h2 h4, h7, h6, h5⟩
  · obtain ⟨p', -, h2, -, h4, h5, h6, h7⟩ := hstep 14 (by decide)
    rw [if_pos (by decide)] at h7
    exact ⟨p', hfindp _ p' h2 h4, h7, by rw [h6]; norm_num, h5⟩
  · obtain ⟨p', -, -, h3, -⟩ := hstep 14 (by decide)
    rw [if_pos (by decide)] at h3
    rw [h3, List.filter_append]
    have hnone : s0.leaderboard.filter (fun e => e.participationId == p0._id) = [] := by
      rw [List.filter_eq_nil_iff]
      intro e he
      simpa using hentries e he
    rw [hnone]
    simp

/-- Witness of C18: the sample user joins contest 1 of the sample store and answers its
fifteen questions one second apart. -/
theorem C18_fifteen_correct_answers_witness :
    (∀ k, k < QUESTIONS_PER_CONTEST →
      (submitAnswerRoute
        (answerInOrder (join (emptyStore sampleContests) 1 sampleUser sampleJoinClock).2 1
          sampleUser (sampleContest 1) sampleClocks k)
        1 sampleUser (correctBody (sampleContest 1) k) (sampleClocks k)).1 =
        .ok
          { isCorrect := true
            scoreForQuestion := 5
            totalScore := 5 * ((k : Int) + 1)
            nextQuestionIndex := k + 1
            isContestCompleted := decide (QUESTIONS_PER_CONTEST ≤ k + 1) }) ∧
    (∀ k, k < 14 →
      ∃ p, findParticipationById
          (answerInOrder (join (emptyStore sampleContests) 1 sampleUser sampleJoinClock).2 1
            sampleUser (sampleContest 1) sampleClocks (k + 1))
          (newParticipation (emptyStore sampleContests) 1 9 sampleJoinClock)._id = some p ∧
        p.submissionState = .pending ∧ p.score = 5 * ((k : Int) + 1) ∧
        p.currentQuestionIndex = k + 1) ∧
    (∃ p, findParticipationById
        (answerInOrder (join (emptyStore sampleContests) 1 sampleUser sampleJoinClock).2 1
          sampleUser (sampleContest 1) sampleClocks 15)
        (newParticipation (emptyStore sampleContests) 1 9 sampleJoinClock)._id = some p ∧
      p.submissionState = .submitted ∧ p.score = 75 ∧ p.currentQuestionIndex = 15) ∧
    (answerInOrder (join (emptyStore sampleContests) 1 sampleUser sampleJoinClock).2 1
        sampleUser (sampleContest 1) sampleClocks 15).leaderboard.filter
        (fun e => e.participationId ==
          (newParticipation (emptyStore sampleContests) 1 9 sampleJoinClock)._id) =
      [{ contestId := 1
         userId := sampleUser._id
         participationId := (newParticipation (emptyStore sampleContests) 1 9 sampleJoinClock)._id
         score := 75
         submissionTime := some (sampleClocks 14).submitted }] :=
  C18_fifteen_correct_answers sampleContests (emptyStore sampleContests) 1 (sampleContest 1)
    sampleUser sampleJoinClock sampleClocks
    (newParticipation (emptyStore sampleContests) 1 9 sampleJoinClock)
    ⟨[], rfl⟩ rfl rfl rfl
    (fun q hq => by
      simp only [sampleContest, List.mem_map] at hq
      obtain ⟨i, -, rfl⟩ := hq
      exact ⟨rfl, rfl, 0, rfl⟩)
    (fun k => le_refl _)
    (fun k => by
      cases k <;> simp [clockAnchor, sampleClocks, sampleJoinClock, QUESTION_TIME_LIMIT]
      omega)

/-! ## Multiple-choice evaluation -/

theorem includes_perm (cor cor' : List JsVal) (h : cor.Perm cor') (item : JsVal) :
    includes cor' item = includes cor item := by
  rw [Bool.eq_iff_iff]
  simp only [includes, List.any_eq_true]
  exact ⟨fun ⟨x, hx, hs⟩ => ⟨x, h.mem_iff.mpr hx, hs⟩, fun ⟨x, hx, hs⟩ => ⟨x, h.mem_iff.mp hx, hs⟩⟩

theorem all_perm {α : Type} (f : α → Bool) (l l' : List α) (h : l.Perm l') :
    l'.all f = l.all f := by
  rw [Bool.eq_iff_iff]
  simp only [List.all_eq_true]
  exact ⟨fun H x hx => H x (h.mem_iff.mp hx), fun H x hx => H x (h.mem_iff.mpr hx)⟩

theorem evaluate_multiple (q : Question) (sel cor : List JsVal)
    (hty : q.questionType = .multiple) (hcor : q.correctOption = .arr cor) :
    evaluate q (.arr sel) =
      if sel.length == cor.length && sel.all (fun item => includes cor item) then
        { isCorrect := true, scoreForQuestion := q.score }
      else
        { isCorrect := false, scoreForQuestion := 0 } := by
  simp [evaluate, hty, hcor]

theorem strictEq_primitive_iff (x item : JsVal) (hitem : isPrimitive item = true) :
    strictEq x item = true ↔ x = item := by
  cases x <;> cases item <;> simp [strictEq, isPrimitive] at hitem ⊢

theorem includes_iff_mem (cor : List JsVal) (item : JsVal) (hitem : isPrimitive item = true) :
    includes cor item = true ↔ item ∈ cor := by
  simp only [includes, List.any_eq_true]
  constructor
  · rintro ⟨x, hx, hs⟩
    rw [← (strictEq_primitive_iff x item hitem).mp hs]
    exact hx
  · intro h
    exact ⟨item, h, (strictEq_primitive_iff item item hitem).mpr rfl⟩

/-- C22: for a question of type multiple whose correct options are the array `cor`, the
evaluation (correctness and points) of a selection array is the evaluation of any
permutation of it, and replacing `cor` by a permutation of itself changes the evaluation
of no selection. -/
theorem C22_order_independent (q : Question) (sel sel' cor cor' : List JsVal)
    (selection : JsVal)
    (hty : q.questionType = .multiple)
    (hcor : q.correctOption = .arr cor)
    (hsel : sel.Perm sel')
    (hperm : cor.Perm cor') :
    evaluate q (.arr sel') = evaluate q (.arr sel) ∧
    evaluate { q with correctOption := .arr cor' } selection = evaluate q selection ∧
    evaluate { q with correctOption := .arr cor' } (.arr sel') = evaluate q (.arr sel) := by
  have h1 : evaluate q (.arr sel') = evaluate q (.arr sel) := by
    rw [evaluate_multiple q sel' cor hty hcor, evaluate_multiple q sel cor hty hcor,
      hsel.length_eq, all_perm _ sel sel' hsel]
  have h2 : ∀ selection : JsVal,
      evaluate { q with correctOption := .arr cor' } selection = evaluate q selection := by
    intro selection
    cases selection with
    | arr items =>
      rw [evaluate_multiple { q with correctOption := .arr cor' } items cor' hty rfl,
        evaluate_multiple q items cor hty hcor, hperm.length_eq]
      simp only [includes_perm cor cor' hperm]
    | _ => simp [evaluate, hty, hcor]
  exact ⟨h1, h2 selection, (h2 _).trans h1⟩

/-- Witness of C22: the correct options `[0, 2]` and the selection `[2, 0]`, each against
its reversal. -/
theorem C22_order_independent_witness :
    evaluate sampleMultiple (.arr [.num 0, .num 2]) =
      evaluate sampleMultiple (.arr [.num 2, .num 0]) ∧
    evaluate { sampleMultiple with correctOption := .arr [.num 2, .num 0] } (.num 1) =
      evaluate sampleMultiple (.num 1) ∧
    evaluate { sampleMultiple with correctOption := .arr [.num 2, .num 0] }
        (.arr [.num 0, .num 2]) =
      evaluate sampleMultiple (.arr [.num 2, .num 0]) :=
  C22_order_independent sampleMultiple [.num 2, .num 0] [.num 0, .num 2] [.num 0, .num 2]
    [.num 2, .num 0] (.num 1) rfl rfl (List.Perm.swap _ _ _) (List.Perm.swap _ _ _)

/-- C25: for a question of type multiple whose correct options are the array `cor`, and a
selection array `sel` of primitive values, when neither `sel` nor `cor` repeats an
element, the answer is evaluated correct exactly when `sel` and `cor` have the same
elements. -/
theorem C25_distinct_elements_set_equality (q : Question) (sel cor : List JsVal)
    (hty : q.questionType = .multiple)
    (hcor : q.correctOption = .arr cor)
    (hprim : ∀ item ∈ sel, isPrimitive item = true)
    (hsel : sel.Nodup)
    (hnd : cor.Nodup) :
    ((evaluate q (.arr sel)).isCorrect = true ↔ ∀ x, x ∈ sel ↔ x ∈ cor) ∧
    ((sel.length = cor.length ∧ ∀ item ∈ sel, includes cor item = true) ↔
      ∀ x, x ∈ sel ↔ x ∈ cor) := by
  have hcheck : (sel.length = cor.length ∧ ∀ item ∈ sel, includes cor item = true) ↔
      ∀ x, x ∈ sel ↔ x ∈ cor := by
    constructor
    · rintro ⟨hlen, hall⟩
      have hsub : sel ⊆ cor := fun x hx => (includes_iff_mem cor x (hprim x hx)).mp (hall x hx)
      have hp : sel.Perm cor :=
        (List.subperm_of_subset hsel hsub).perm_of_length_le (le_of_eq hlen.symm)
      exact fun x => hp.mem_iff
    · intro h
      have hp : sel.Perm cor := (List.perm_ext_iff_of_nodup hsel hnd).mpr h
      exact ⟨hp.length_eq, fun x hx =>
        (includes_iff_mem cor x (hprim x hx)).mpr ((h x).mp hx)⟩
  refine ⟨?_, hcheck⟩
  rw [← hcheck, evaluate_multiple q sel cor hty hcor]
  by_cases hc : (sel.length == cor.length && sel.all (fun item => includes cor item)) = true
  · rw [if_pos hc]
    simpa using hc
  · rw [if_neg hc]
    simpa using hc

/-- Witness of C25: the correct options `[0, 2]` and the selection `[2, 0]`. -/
theorem C25_distinct_elements_set_equality_witness :
    ((evaluate sampleMultiple (.arr [.num 2, .num 0])).isCorrect = true ↔
      ∀ x, x ∈ [JsVal.num 2, JsVal.num 0] ↔ x ∈ [JsVal.num 0, JsVal.num 2]) ∧
    (([JsVal.num 2, JsVal.num 0].length = [JsVal.num 0, JsVal.num 2].length ∧
      ∀ item ∈ [JsVal.num 2, JsVal.num 0],
        includes [JsVal.num 0, JsVal.num 2] item = true) ↔
      ∀ x, x ∈ [JsVal.num 2, JsVal.num 0] ↔ x ∈ [JsVal.num 0, JsVal.num 2]) :=
  C25_distinct_elements_set_equality sampleMultiple [.num 2, .num 0] [.num 0, .num 2] rfl rfl
    (by simp [isPrimitive]) (by simp) (by simp)

/-! ## Creating a leaderboard entry -/

theorem entry_ids_nodup (s : Store) (hc : Consistent s) :
    (s.leaderboard.map (fun e => e.participationId)).Nodup := by
  have hperm := hc.entries.map Prod.fst
  simp only [List.map_map] at hperm
  have hnd : ((s.participations.filter isSubmitted).map (fun p => p._id)).Nodup :=
    List.Nodup.sublist ((List.filter_sublist _).map _) hc.idsDistinct
  exact hperm.nodup_iff.mpr hnd

/-- C21 (counterexample): in the store in which the sample user has submitted contest 1,
whose leaderboard holds one entry for participation 0, creating another entry for
participation 0 does not fail: afterwards the leaderboard holds two entries for it. -/
theorem C21_second_entry_is_created :
    (submittedOnce.leaderboard.filter (fun e => e.participationId == 0)).length = 1 ∧
    ((createLeaderboardEntry submittedOnce
        { contestId := 1, userId := 9, participationId := 0, score := 0,
          submissionTime := some 5000 }).leaderboard.filter
      (fun e => e.participationId == 0)).length = 2 := by
  decide

/-- C21 (amended): `Leaderboard.create` has no duplicate check: it appends the entry to
the leaderboard, whatever entries exist, and changes nothing else; in every reachable
store the handlers have created at most one entry for each `participationId`. -/
theorem C21_create_appends_entry (contests : List Contest) (s : Store) (e : LeaderboardEntry)
    (hreach : Reachable contests s) :
    (createLeaderboardEntry s e).leaderboard = s.leaderboard ++ [e] ∧
    (createLeaderboardEntry s e).participations = s.participations ∧
    (createLeaderboardEntry s e).contests = s.contests ∧
    (s.leaderboard.map (fun x => x.participationId)).Nodup :=
  ⟨rfl, rfl, rfl, entry_ids_nodup s (consistent_of_reachable contests s hreach)⟩

/-- Witness of C21: the store in which the sample user has submitted contest 1. -/
theorem C21_create_appends_entry_witness :
    (createLeaderboardEntry submittedOnce
        { contestId := 1, userId := 9, participationId := 0, score := 0,
          submissionTime := some 5000 }).leaderboard =
      submittedOnce.leaderboard ++
        [{ contestId := 1, userId := 9, participationId := 0, score := 0,
           submissionTime := some 5000 }] ∧
    (createLeaderboardEntry submittedOnce
        { contestId := 1, userId := 9, participationId := 0, score := 0,
          submissionTime := some 5000 }).participations = submittedOnce.participations ∧
    (createLeaderboardEntry submittedOnce
        { contestId := 1, userId := 9, participationId := 0, score := 0,
          submissionTime := some 5000 }).contests = submittedOnce.contests ∧
    (submittedOnce.leaderboard.map (fun x => x.participationId)).Nodup :=
  C21_create_appends_entry sampleContests submittedOnce
    { contestId := 1, userId := 9, participationId := 0, score := 0,
      submissionTime := some 5000 } ⟨_, rfl⟩

/-! ## The submit-answer route as a decision list -/

theorem submitAnswerRoute_eq (s : Store) (contestId : Nat) (contest : Contest) (user : User)
    (body : AnswerBody) (clk : AnswerClock) (p : Participation)
    (hfind : findContestById s contestId = some contest)
    (hp : findActiveParticipation s contestId user._id = some p) :
    submitAnswerRoute s contestId user body clk =
      if indexMatches body.questionIndex p.currentQuestionIndex = false then
        (.invalidQuestionIndex, s)
      else if timeLimitExceeded clk.validated p.updatedAt = true then
        (.timeLimitExceeded, s)
      else
        match body.selectedOptions with
        | none => (.missingFields, s)
        | some sel =>
          match contest.questions[p.currentQuestionIndex]? with
          | none => (.questionNotFound, s)
          | some q =>
            if timeLimitExceeded clk.checked p.updatedAt = true then
              (.timeLimitExceeded, s)
            else if QUESTIONS_PER_CONTEST ≤ p.currentQuestionIndex + 1 then
              (.ok
                { isCorrect := (evaluate q sel).isCorrect
                  scoreForQuestion := (evaluate q sel).scoreForQuestion
                  totalScore := p.score + (evaluate q sel).scoreForQuestion
                  nextQuestionIndex := p.currentQuestionIndex + 1
                  isContestCompleted := true },
                saveParticipation
                  (createLeaderboardEntry s
                    { contestId := contestId
                      userId := user._id
                      participationId := p._id
                      score := p.score + (evaluate q sel).scoreForQuestion
                      submissionTime := some clk.submitted })
                  { recordAnswer p q sel (evaluate q sel).scoreForQuestion with
                    submissionState := .submitted
                    submissionTime := some clk.submitted
                    updatedAt := clk.saved })
            else
              (.ok
                { isCorrect := (evaluate q sel).isCorrect
                  scoreForQuestion := (evaluate q sel).scoreForQuestion
                  totalScore := p.score + (evaluate q sel).scoreForQuestion
                  nextQuestionIndex := p.currentQuestionIndex + 1
                  isContestCompleted := false },
                saveParticipation s
                  { recordAnswer p q sel (evaluate q sel).scoreForQuestion with
                    updatedAt := clk.saved }) := by
  cases hidx : indexMatches body.questionIndex p.currentQuestionIndex with
  | false =>
    rw [if_pos rfl]
    exact submitAnswerRoute_wrong_index s contestId contest user body clk p hfind hp hidx
  | true =>
    rw [if_neg (by simp)]
    have hqi := (indexMatches_iff _ _).mp hidx
    have hidx' : indexMatches (some (JsVal.num ↑p.currentQuestionIndex))
        p.currentQuestionIndex = true := by simpa [hqi] using hidx
    cases h1 : timeLimitExceeded clk.validated p.updatedAt with
    | true =>
      rw [if_pos rfl]
      simp [submitAnswerRoute, checkContestExists, hasActiveParticipation, hfind, hp,
        validateQuestionSubmission, hidx, h1]
    | false =>
      rw [if_neg (by simp)]
      cases hsel : body.selectedOptions with
      | none =>
        simp [submitAnswerRoute, checkContestExists, hasActiveParticipation, hfind, hp,
          validateQuestionSubmission, hidx, h1, submitAnswer, hqi, hsel, hidx']
      | some sel =>
        cases hq : contest.questions[p.currentQuestionIndex]? with
        | none =>
          simp [submitAnswerRoute, checkContestExists, hasActiveParticipation, hfind, hp,
            validateQuestionSubmission, hidx, h1, submitAnswer, hqi, hsel,
            populateQuestion_eq, hq, hidx']
        | some q =>
          cases h2 : timeLimitExceeded clk.checked p.updatedAt with
          | true =>
            simp only [if_true]
            exact submitAnswerRoute_late s contestId contest user body clk p q sel hfind hp
              hidx hsel hq h2
          | false =>
            simp only [Bool.false_eq_true, if_false]
            exact submitAnswerRoute_accept s contestId contest user body clk p q sel hfind hp
              hidx hsel hq h1 h2

theorem submitAnswerRoute_time_inv (s : Store) (contestId : Nat) (user : User)
    (body : AnswerBody) (clk : AnswerClock)
    (hrej : (submitAnswerRoute s contestId user body clk).1 = .timeLimitExceeded) :
    ∃ contest p,
      findContestById s contestId = some contest ∧
      findActiveParticipation s contestId user._id = some p ∧
      indexMatches body.questionIndex p.currentQuestionIndex = true ∧
      timeLimitExceeded (timeLimitReadAt p clk) p.updatedAt = true ∧
      (submitAnswerRoute s contestId user body clk).2 = s := by
  cases hfind : findContestById s contestId with
  | none =>
    simp [submitAnswerRoute, checkContestExists, hfind] at hrej
  | some contest =>
    cases hp : findActiveParticipation s contestId user._id with
    | none =>
      rw [submitAnswerRoute_no_participation s contestId contest user body clk hfind hp] at hrej
      cases hrej
    | some p =>
      refine ⟨contest, p, rfl, rfl, ?_⟩
      rw [submitAnswerRoute_eq s contestId contest user body clk p hfind hp] at hrej ⊢
      cases hidx : indexMatches body.questionIndex p.currentQuestionIndex with
      | false => simp [hidx] at hrej
      | true =>
        cases h1 : timeLimitExceeded clk.validated p.updatedAt with
        | true => simp [timeLimitReadAt, h1]
        | false =>
          simp only [hidx, h1, Bool.true_eq_false, Bool.false_eq_true, if_false] at hrej ⊢
          cases hsel : body.selectedOptions with
          | none => simp [hsel] at hrej
          | some sel =>
            cases hq : contest.questions[p.currentQuestionIndex]? with
            | none => simp [hsel, hq] at hrej
            | some q =>
              cases h2 : timeLimitExceeded clk.checked p.updatedAt with
              | true => simp [timeLimitReadAt, h1, h2]
              | false =>
                simp only [hsel, hq, h2, Bool.false_eq_true, if_false] at hrej
                split at hrej <;> cases hrej

theorem timeLimitExceeded_later (t t' start : Int) (h : t ≤ t')
    (ht : timeLimitExceeded t start = true) : timeLimitExceeded t' start = true := by
  simp [timeLimitExceeded] at ht ⊢
  omega

theorem submitAnswerRoute_stalled (s : Store) (contestId : Nat) (contest : Contest)
    (user : User) (body : AnswerBody) (clk : AnswerClock) (p : Participation)
    (hfind : findContestById s contestId = some contest)
    (hp : findActiveParticipation s contestId user._id = some p)
    (hlate : timeLimitExceeded clk.validated p.updatedAt = true) :
    ((submitAnswerRoute s contestId user body clk).1 = .invalidQuestionIndex ∨
      (submitAnswerRoute s contestId user body clk).1 = .timeLimitExceeded) ∧
    (submitAnswerRoute s contestId user body clk).2 = s := by
  rw [submitAnswerRoute_eq s contestId contest user body clk p hfind hp]
  cases hidx : indexMatches body.questionIndex p.currentQuestionIndex with
  | false => simp
  | true => simp [hlate]

/-- C23: when a request to the submit-answer route of the caller, whose pending
participation is `p`, is answered "Time limit exceeded for this question", the store is
as before, so `p` with its index and `updatedAt` is still the pending participation;
every later request of the caller on the contest, whose first clock read is not before
the read that exceeded the limit, is rejected (invalid index or time limit) whatever its
index and selection, and any sequence of such requests leaves the store unchanged; the
submit-contest route still answers 200 and leaves the participation submitted with the
score and the index of `p`. -/
theorem C23_stall_after_timeout (s : Store) (contestId : Nat) (user : User)
    (body : AnswerBody) (clk : AnswerClock) (p : Participation) (sclk : SubmitClock)
    (requests : List (AnswerBody × AnswerClock))
    (hp : findActiveParticipation s contestId user._id = some p)
    (hrej : (submitAnswerRoute s contestId user body clk).1 = .timeLimitExceeded)
    (hlater : ∀ r ∈ requests, timeLimitReadAt p clk ≤ r.2.validated) :
    (submitAnswerRoute s contestId user body clk).2 = s ∧
    findActiveParticipation (submitAnswerRoute s contestId user body clk).2 contestId
      user._id = some p ∧
    (∀ r ∈ requests,
      ((submitAnswerRoute s contestId user r.1 r.2).1 = .invalidQuestionIndex ∨
        (submitAnswerRoute s contestId user r.1 r.2).1 = .timeLimitExceeded) ∧
      (submitAnswerRoute s contestId user r.1 r.2).2 = s) ∧
    run s (answerOps contestId user requests) = s ∧
    (submitContestRoute s contestId user sclk).1 = .ok p.score p.answers.length ∧
    ∃ p', findParticipationById (submitContestRoute s contestId user sclk).2 p._id = some p' ∧
      p'.submissionState = .submitted ∧ p'.score = p.score ∧
      p'.currentQuestionIndex = p.currentQuestionIndex := by
  obtain ⟨contest, p1, hfind, hp1, -, hlate, hs⟩ :=
    submitAnswerRoute_time_inv s contestId user body clk hrej
  have hpp : p1 = p := Option.some.inj (hp1.symm.trans hp)
  subst hpp
  have hreq : ∀ r ∈ requests,
      ((submitAnswerRoute s contestId user r.1 r.2).1 = .invalidQuestionIndex ∨
        (submitAnswerRoute s contestId user r.1 r.2).1 = .timeLimitExceeded) ∧
      (submitAnswerRoute s contestId user r.1 r.2).2 = s := fun r hr =>
    submitAnswerRoute_stalled s contestId contest user r.1 r.2 p1 hfind hp
      (timeLimitExceeded_later _ _ _ (hlater r hr) hlate)
  have hrun : run s (answerOps contestId user requests) = s := by
    clear hlater
    induction requests with
    | nil => rfl
    | cons r rs ih =>
      have hr := (hreq r (by simp)).2
      simp only [answerOps, List.map_cons, run, List.foldl_cons, step, hr]
      exact ih (fun x hx => hreq x (List.mem_cons_of_mem _ hx))
  obtain ⟨x, hx⟩ := find?_mem_of_find? _ (fun y : Participation => y._id == p1._id)
    s.participations p1 hp (by simp)
  refine ⟨hs, by rw [hs]; exact hp, hreq, hrun, ?_, ?_⟩
  · rw [submitContestRoute_accept s contestId contest user sclk p1 hfind hp]
  · rw [submitContestRoute_accept s contestId contest user sclk p1 hfind hp]
    exact ⟨_, find?_updateFirst_same (fun y : Participation => y._id == p1._id) _
      (by simp) s.participations x hx, rfl, rfl, rfl⟩

/-- Witness of C23: the sample user answers the first question of contest 1 one
millisecond late, and then twice more, later still. -/
theorem C23_stall_after_timeout_witness :
    (submitAnswerRoute joinedOnce 1 sampleUser sampleBody lateAnswerClock).2 = joinedOnce ∧
    findActiveParticipation
      (submitAnswerRoute joinedOnce 1 sampleUser sampleBody lateAnswerClock).2 1
      sampleUser._id =
      some (newParticipation (emptyStore sampleContests) 1 9 sampleJoinClock) ∧
    (∀ r ∈ [(sampleBody, lateAnswerClock), (sampleBody, sampleClocks 100)],
      ((submitAnswerRoute joinedOnce 1 sampleUser r.1 r.2).1 = .invalidQuestionIndex ∨
        (submitAnswerRoute joinedOnce 1 sampleUser r.1 r.2).1 = .timeLimitExceeded) ∧
      (submitAnswerRoute joinedOnce 1 sampleUser r.1 r.2).2 = joinedOnce) ∧
    run joinedOnce
      (answerOps 1 sampleUser [(sampleBody, lateAnswerClock), (sampleBody, sampleClocks 100)]) =
      joinedOnce ∧
    (submitContestRoute joinedOnce 1 sampleUser sampleSubmitClock).1 =
      .ok (newParticipation (emptyStore sampleContests) 1 9 sampleJoinClock).score
        (newParticipation (emptyStore sampleContests) 1 9 sampleJoinClock).answers.length ∧
    ∃ p', findParticipationById (submitContestRoute joinedOnce 1 sampleUser sampleSubmitClock).2
        (newParticipation (emptyStore sampleContests) 1 9 sampleJoinClock)._id = some p' ∧
      p'.submissionState = .submitted ∧
      p'.score = (newParticipation (emptyStore sampleContests) 1 9 sampleJoinClock).score ∧
      p'.currentQuestionIndex =
        (newParticipation (emptyStore sampleContests) 1 9 sampleJoinClock).currentQuestionIndex :=
  C23_stall_after_timeout joinedOnce 1 sampleUser sampleBody lateAnswerClock
    (newParticipation (emptyStore sampleContests) 1 9 sampleJoinClock) sampleSubmitClock
    [(sampleBody, lateAnswerClock), (sampleBody, sampleClocks 100)] rfl (by decide)
    (by decide)

/-! ## Invariants of the participations -/

theorem mem_updateFirst {α : Type} (p : α → Bool) (f : α → α) :
    ∀ (l : List α) (y : α), y ∈ updateFirst p f l → y ∈ l ∨ ∃ x ∈ l, y = f x
  | [], y, h => by simp [updateFirst] at h
  | z :: zs, y, h => by
    by_cases hz : p z = true
    · simp only [updateFirst, hz, if_true] at h
      rcases List.mem_cons.mp h with rfl | h
      · exact Or.inr ⟨z, by simp, rfl⟩
      · exact Or.inl (List.mem_cons_of_mem _ h)
    · have hz' : p z = false := by simpa using hz
      simp only [updateFirst, hz', Bool.false_eq_true, if_false] at h
      rcases List.mem_cons.mp h with rfl | h
      · exact Or.inl (by simp)
      · rcases mem_updateFirst p f zs y h with h | ⟨x, hx, hy⟩
        · exact Or.inl (List.mem_cons_of_mem _ h)
        · exact Or.inr ⟨x, List.mem_cons_of_mem _ hx, hy⟩

theorem questions_step (Q : Nat → Question → Prop) (s : Store) (op : Op)
    (hq : ∀ c ∈ s.contests, ∀ q ∈ c.questions, Q c._id q) :
    ∀ c ∈ (step s op).contests, ∀ q ∈ c.questions, Q c._id q := by
  have hupd : ∀ (pr : Contest → Bool) (f : Contest → Contest),
      (∀ x, (f x)._id = x._id ∧ (f x).questions = x.questions) →
      ∀ c ∈ updateFirst pr f s.contests, ∀ q ∈ c.questions, Q c._id q := by
    intro pr f hf c hc q hqc
    rcases mem_updateFirst pr f s.contests c hc with h | ⟨x, hx, rfl⟩
    · exact hq c h q hqc
    · rw [(hf x).1]
      rw [(hf x).2] at hqc
      exact hq x hx q hqc
  cases op with
  | join contestId user clk =>
    rcases join_cases s contestId user clk with ⟨hs, -⟩ | ⟨contest, -, -, -, -, -, -, hjoin⟩
    · simp only [step, hs]
      exact hq
    · simp only [step, hjoin]
      exact hupd _ _ (fun x => ⟨rfl, rfl⟩)
  | submitAnswer contestId user body clk =>
    simp only [step, submitAnswerRoute_contests]
    exact hq
  | submitContest contestId user clk =>
    simp only [step, submitContestRoute_contests]
    exact hq
  | cancelContest contestId =>
    simp only [step, cancelContest]
    split
    · exact hq
    · split
      · exact hq
      · split
        · exact hq
        · exact hupd _ _ (fun x => ⟨rfl, rfl⟩)
  | advanceStatus contestId =>
    simp only [step, advanceStatus]
    refine hupd _ _ (fun x => ?_)
    cases x.status <;> exact ⟨rfl, rfl⟩

theorem participations_step (Q : Nat → Question → Prop) (P : Participation → Prop)
    (hnew : ∀ (s : Store) (contestId userId : Nat) (clk : JoinClock),
      P (newParticipation s contestId userId clk))
    (hans : ∀ (p : Participation) (q : Question) (sel : JsVal) (t1 t2 : Int),
      P p → p.submissionState = .pending → Q p.contestId q →
      (QUESTIONS_PER_CONTEST ≤ p.currentQuestionIndex + 1 →
        P { recordAnswer p q sel (evaluate q sel).scoreForQuestion with
            submissionState := .submitted
            submissionTime := some t1
            updatedAt := t2 }) ∧
      (¬ QUESTIONS_PER_CONTEST ≤ p.currentQuestionIndex + 1 →
        P { recordAnswer p q sel (evaluate q sel).scoreForQuestion with updatedAt := t2 }))
    (hsub : ∀ (p : Participation) (t1 t2 : Int), P p → p.submissionState = .pending →
      P { p with submissionState := .submitted, submissionTime := some t1, updatedAt := t2 })
    (s : Store) (op : Op)
    (hq : ∀ c ∈ s.contests, ∀ q ∈ c.questions, Q c._id q)
    (hp : ∀ p ∈ s.participations, P p) :
    ∀ p ∈ (step s op).participations, P p := by
  have hsave : ∀ (s' : Store) (p' : Participation), s'.participations = s.participations →
      P p' → ∀ y ∈ (saveParticipation s' p').participations, P y := by
    intro s' p' hs' hp' y hy
    simp only [saveParticipation, hs'] at hy
    rcases mem_updateFirst _ _ s.participations y hy with h | ⟨x, -, rfl⟩
    · exact hp y h
    · exact hp'
  cases op with
  | join contestId user clk =>
    rcases join_cases s contestId user clk with ⟨hs, -⟩ | ⟨contest, -, -, -, -, -, -, hjoin⟩
    · simp only [step, hs]
      exact hp
    · simp only [step, hjoin]
      intro y hy
      rcases List.mem_append.mp hy with h | h
      · exact hp y h
      · rw [List.mem_singleton.mp h]
        exact hnew s contestId user._id clk
  | submitAnswer contestId user body clk =>
    simp only [step]
    rcases submitAnswerRoute_cases s contestId user body clk with ⟨r, hr, -⟩ |
      ⟨contest, p, q, sel, hfind, hpa, hidx, hsel, hqq, h1, h2⟩
    · rw [hr]
      exact hp
    · obtain ⟨hmem, hcid, -, hpend⟩ := findActiveParticipation_spec s contestId user._id p hpa
      have hid : contest._id = contestId :=
        find?_id_eq (fun c : Contest => c._id) s.contests contestId contest hfind
      have hQ : Q p.contestId q := by
        rw [hcid, ← hid]
        exact hq contest (List.mem_of_find?_eq_some hfind) q (List.getElem?_mem hqq)
      have hboth := hans p q sel clk.submitted clk.saved (hp p hmem) hpend hQ
      rw [submitAnswerRoute_accept s contestId contest user body clk p q sel hfind hpa hidx hsel
        hqq h1 h2]
      split
      · rename_i hN
        exact hsave _ _ rfl (hboth.1 hN)
      · rename_i hN
        exact hsave _ _ rfl (hboth.2 hN)
  | submitContest contestId user clk =>
    simp only [step]
    rcases submitContestRoute_cases s contestId user clk with ⟨r, hr, -⟩ |
      ⟨contest, p, hfind, hpa, hroute⟩
    · rw [hr]
      exact hp
    · obtain ⟨hmem, -, -, hpend⟩ := findActiveParticipation_spec s contestId user._id p hpa
      rw [hroute]
      exact hsave _ _ rfl (hsub p clk.submitted clk.saved (hp p hmem) hpend)
  | cancelContest contestId =>
    simp only [step, cancelContest]
    split
    · exact hp
    · split
      · exact hp
      · split <;> exact hp
  | advanceStatus contestId => exact hp

theorem participations_run (Q : Nat → Question → Prop) (P : Participation → Prop)
    (hnew : ∀ (s : Store) (contestId userId : Nat) (clk : JoinClock),
      P (newParticipation s contestId userId clk))
    (hans : ∀ (p : Participation) (q : Question) (sel : JsVal) (t1 t2 : Int),
      P p → p.submissionState = .pending → Q p.contestId q →
      (QUESTIONS_PER_CONTEST ≤ p.currentQuestionIndex + 1 →
        P { recordAnswer p q sel (evaluate q sel).scoreForQuestion with
            submissionState := .submitted
            submissionTime := some t1
            updatedAt := t2 }) ∧
      (¬ QUESTIONS_PER_CONTEST ≤ p.currentQuestionIndex + 1 →
        P { recordAnswer p q sel (evaluate q sel).scoreForQuestion with updatedAt := t2 }))
    (hsub : ∀ (p : Participation) (t1 t2 : Int), P p → p.submissionState = .pending →
      P { p with submissionState := .submitted, submissionTime := some t1, updatedAt := t2 })
    (ops : List Op) :
    ∀ s : Store, (∀ c ∈ s.contests, ∀ q ∈ c.questions, Q c._id q) →
      (∀ p ∈ s.participations, P p) → ∀ p ∈ (run s ops).participations, P p := by
  induction ops with
  | nil => exact fun s _ hp => hp
  | cons op ops ih =>
    exact fun s hq hp => ih (step s op) (questions_step Q s op hq)
      (participations_step Q P hnew hans hsub s op hq hp)

theorem participations_reachable (Q : Nat → Question → Prop) (P : Participation → Prop)
    (hnew : ∀ (s : Store) (contestId userId : Nat) (clk : JoinClock),
      P (newParticipation s contestId userId clk))
    (hans : ∀ (p : Participation) (q : Question) (sel : JsVal) (t1 t2 : Int),
      P p → p.submissionState = .pending → Q p.contestId q →
      (QUESTIONS_PER_CONTEST ≤ p.currentQuestionIndex + 1 →
        P { recordAnswer p q sel (evaluate q sel).scoreForQuestion with
            submissionState := .submitted
            submissionTime := some t1
            updatedAt := t2 }) ∧
      (¬ QUESTIONS_PER_CONTEST ≤ p.currentQuestionIndex + 1 →
        P { recordAnswer p q sel (evaluate q sel).scoreForQuestion with updatedAt := t2 }))
    (hsub : ∀ (p : Participation) (t1 t2 : Int), P p → p.submissionState = .pending →
      P { p with submissionState := .submitted, submissionTime := some t1, updatedAt := t2 })
    (contests : List Contest) (s : Store)
    (hq : ∀ c ∈ contests, ∀ q ∈ c.questions, Q c._id q)
    (hreach : Reachable contests s) : ∀ p ∈ s.participations, P p := by
  obtain ⟨ops, rfl⟩ := hreach
  exact participations_run Q P hnew hans hsub ops (emptyStore contests) hq
    (fun p hp => by simp [emptyStore] at hp)

theorem evaluate_score_cases (q : Question) (sel : JsVal) :
    (evaluate q sel).scoreForQuestion = q.score ∨ (evaluate q sel).scoreForQuestion = 0 := by
  unfold evaluate
  split
  · split <;> simp
  · split <;> simp
  · split
    · split <;> simp
    · simp

/-- C24 (counterexample): the sample user joins a contest whose questions have the score
-5 and answers the first question correctly; the running score of the participation in
the reached store is -5. -/
theorem C24_negative_running_score :
    Reachable [penaltyContest] (run (emptyStore [penaltyContest]) penaltyOps) ∧
    (findParticipationById (run (emptyStore [penaltyContest]) penaltyOps) 0).map
      (fun p => p.score) = some (-5) ∧
    (submitAnswerRoute
      (run (emptyStore [penaltyContest]) [.join 6 sampleUser sampleJoinClock]) 6 sampleUser
      sampleBody sampleAnswerClock).1 =
      .ok { isCorrect := true, scoreForQuestion := -5, totalScore := -5,
            nextQuestionIndex := 1, isContestCompleted := false } := by
  refine ⟨⟨penaltyOps, rfl⟩, by decide, by decide⟩

/-- C24 (amended): when no stored question has a negative score, every participation of
every reachable store has a running score greater than or equal to 0. -/
theorem C24_score_nonnegative (contests : List Contest) (s : Store) (p : Participation)
    (hscores : ∀ c ∈ contests, ∀ q ∈ c.questions, 0 ≤ q.score)
    (hreach : Reachable contests s)
    (hmem : p ∈ s.participations) :
    0 ≤ p.score := by
  refine participations_reachable (fun _ q => 0 ≤ q.score) (fun p => 0 ≤ p.score) ?_ ?_ ?_
    contests s hscores hreach p hmem
  · intro s contestId userId clk
    exact le_refl _
  · intro p q sel t1 t2 hp _ hq
    have hpts : 0 ≤ (evaluate q sel).scoreForQuestion := by
      rcases evaluate_score_cases q sel with h | h
      · rw [h]
        exact hq
      · exact le_of_eq h.symm
    have hsum : 0 ≤ p.score + (evaluate q sel).scoreForQuestion := Int.add_nonneg hp hpts
    exact ⟨fun _ => hsum, fun _ => hsum⟩
  · intro p t1 t2 hp _
    exact hp

/-- Witness of C24: the sample user after the first correct answer in contest 1. -/
theorem C24_score_nonnegative_witness :
    0 ≤ sampleAnswered.score :=
  C24_score_nonnegative sampleContests answeredOnce sampleAnswered
    (fun c hc q hq => by
      simp only [sampleContests, List.mem_cons, List.mem_singleton, List.not_mem_nil,
        or_false] at hc
      rcases hc with rfl | rfl | rfl <;>
      · simp only [sampleContest, List.mem_map] at hq
        obtain ⟨i, -, rfl⟩ := hq
        exact (by decide : (0 : Int) ≤ 5))
    ⟨_, rfl⟩ (List.Mem.head _)

/-- C27: every participation of every reachable store has as many recorded answers as
its `currentQuestionIndex`, an index of at most `QUESTIONS_PER_CONTEST` (15), and, while
it is pending, an index below 15; so in a contest that holds 15 questions the question at
the index of a pending participation exists. -/
theorem C27_progress_invariant (contests : List Contest) (s : Store) (p : Participation)
    (hreach : Reachable contests s)
    (hmem : p ∈ s.participations) :
    p.answers.length = p.currentQuestionIndex ∧
    p.currentQuestionIndex ≤ QUESTIONS_PER_CONTEST ∧
    (p.submissionState = .pending → p.currentQuestionIndex < QUESTIONS_PER_CONTEST) ∧
    (∀ contest, findContestById s p.contestId = some contest →
      contest.questions.length = QUESTIONS_PER_CONTEST →
      p.submissionState = .pending →
      ∃ q, contest.questions[p.currentQuestionIndex]? = some q) := by
  have hinv : p.answers.length = p.currentQuestionIndex ∧
      p.currentQuestionIndex ≤ QUESTIONS_PER_CONTEST ∧
      (p.submissionState = .pending → p.currentQuestionIndex < QUESTIONS_PER_CONTEST) := by
    refine participations_reachable (fun _ _ => True)
      (fun p => p.answers.length = p.currentQuestionIndex ∧
        p.currentQuestionIndex ≤ QUESTIONS_PER_CONTEST ∧
        (p.submissionState = .pending → p.currentQuestionIndex < QUESTIONS_PER_CONTEST))
      ?_ ?_ ?_ contests s (fun _ _ _ _ => trivial) hreach p hmem
    · intro s contestId userId clk
      exact ⟨rfl, Nat.zero_le _, fun _ => Nat.zero_lt_succ _⟩
    · intro p q sel t1 t2 hp hpend _
      obtain ⟨h1, h2, h3⟩ := hp
      have hlt := h3 hpend
      constructor
      · intro _
        exact ⟨by simp [recordAnswer, h1], hlt, fun h => by cases h⟩
      · intro hN
        exact ⟨by simp [recordAnswer, h1], hlt, fun _ => not_le.mp hN⟩
    · intro p t1 t2 hp _
      exact ⟨hp.1, hp.2.1, fun h => by cases h⟩
  refine ⟨hinv.1, hinv.2.1, hinv.2.2, ?_⟩
  intro contest _ hlen hpend
  have hlt : p.currentQuestionIndex < contest.questions.length := by
    rw [hlen]
    exact hinv.2.2 hpend
  exact ⟨contest.questions[p.currentQuestionIndex], List.getElem?_eq_getElem hlt⟩

/-- Witness of C27: the sample user after the first correct answer in contest 1. -/
theorem C27_progress_invariant_witness :
    sampleAnswered.answers.length = sampleAnswered.currentQuestionIndex ∧
    sampleAnswered.currentQuestionIndex ≤ QUESTIONS_PER_CONTEST ∧
    (sampleAnswered.submissionState = .pending →
      sampleAnswered.currentQuestionIndex < QUESTIONS_PER_CONTEST) ∧
    (∀ contest, findContestById answeredOnce sampleAnswered.contestId = some contest →
      contest.questions.length = QUESTIONS_PER_CONTEST →
      sampleAnswered.submissionState = .pending →
      ∃ q, contest.questions[sampleAnswered.currentQuestionIndex]? = some q) :=
  C27_progress_invariant sampleContests answeredOnce sampleAnswered ⟨_, rfl⟩ (List.Mem.head _)

/-- C30: for a contest all of whose questions have the score `POINTS_PER_CORRECT_ANSWER`
(5), every participation in that contest, in every reachable store, has a score of at most
5 times its `currentQuestionIndex`, which is at most `MAX_SCORE_PER_CONTEST` (75), and
the score is a multiple of 5 and not negative. -/
theorem C30_score_bound (contests : List Contest) (s : Store) (contestId : Nat)
    (p : Participation)
    (hscores : ∀ c ∈ contests, c._id = contestId →
      ∀ q ∈ c.questions, q.score = POINTS_PER_CORRECT_ANSWER)
    (hreach : Reachable contests s)
    (hmem : p ∈ s.participations)
    (hcid : p.contestId = contestId) :
    p.score ≤ POINTS_PER_CORRECT_ANSWER * p.currentQuestionIndex ∧
    POINTS_PER_CORRECT_ANSWER * (p.currentQuestionIndex : Int) ≤ MAX_SCORE_PER_CONTEST ∧
    POINTS_PER_CORRECT_ANSWER ∣ p.score ∧
    0 ≤ p.score := by
  have hinv := participations_reachable
    (fun cid q => cid = contestId → q.score = POINTS_PER_CORRECT_ANSWER)
    (fun p => p.currentQuestionIndex ≤ QUESTIONS_PER_CONTEST ∧
      (p.submissionState = .pending → p.currentQuestionIndex < QUESTIONS_PER_CONTEST) ∧
      (p.contestId = contestId →
        p.score ≤ POINTS_PER_CORRECT_ANSWER * p.currentQuestionIndex ∧
        POINTS_PER_CORRECT_ANSWER ∣ p.score ∧ 0 ≤ p.score))
    (by
      intro s cid uid clk
      exact ⟨Nat.zero_le _, fun _ => Nat.zero_lt_succ _, fun _ => by
        simp [newParticipation, POINTS_PER_CORRECT_ANSWER]⟩)
    (by
      intro p q sel t1 t2 hp hpend hq
      obtain ⟨-, h2, h3⟩ := hp
      have hlt := h2 hpend
      have hscore : p.contestId = contestId →
          p.score + (evaluate q sel).scoreForQuestion ≤
            POINTS_PER_CORRECT_ANSWER * ((p.currentQuestionIndex + 1 : Nat) : Int) ∧
          POINTS_PER_CORRECT_ANSWER ∣ p.score + (evaluate q sel).scoreForQuestion ∧
          0 ≤ p.score + (evaluate q sel).scoreForQuestion := by
        intro hc
        obtain ⟨hle, hdvd, hpos⟩ := h3 hc
        have hqs := hq hc
        simp only [POINTS_PER_CORRECT_ANSWER] at hle hdvd hqs ⊢
        rcases evaluate_score_cases q sel with h | h <;> rw [h]
        · rw [hqs]
          push_cast
          refine ⟨by omega, ?_, by omega⟩
          exact Int.dvd_add hdvd (dvd_refl _)
        · push_cast
          refine ⟨by omega, ?_, by omega⟩
          simpa using hdvd
      constructor
      · intro _
        exact ⟨hlt, (fun h => by cases h), hscore⟩
      · intro hN
        exact ⟨hlt, fun _ => not_le.mp hN, hscore⟩)
    (by
      intro p t1 t2 hp _
      exact ⟨hp.1, (fun h => by cases h), hp.2.2⟩)
    contests s (fun c hc q hq hid => hscores c hc hid q hq) hreach p hmem
  obtain ⟨h1, -, h3⟩ := hinv
  obtain ⟨hle, hdvd, hpos⟩ := h3 hcid
  refine ⟨hle, ?_, hdvd, hpos⟩
  simp only [POINTS_PER_CORRECT_ANSWER, MAX_SCORE_PER_CONTEST, QUESTIONS_PER_CONTEST] at h1 ⊢
  omega

/-- Witness of C30: the sample user after the first correct answer in contest 1. -/
theorem C30_score_bound_witness :
    sampleAnswered.score ≤ POINTS_PER_CORRECT_ANSWER * sampleAnswered.currentQuestionIndex ∧
    POINTS_PER_CORRECT_ANSWER * (sampleAnswered.currentQuestionIndex : Int) ≤
      MAX_SCORE_PER_CONTEST ∧
    POINTS_PER_CORRECT_ANSWER ∣ sampleAnswered.score ∧
    0 ≤ sampleAnswered.score :=
  C30_score_bound sampleContests answeredOnce 1 sampleAnswered
    (fun c hc _ q hq => by
      simp only [sampleContests, List.mem_cons, List.mem_singleton, List.not_mem_nil,
        or_false] at hc
      rcases hc with rfl | rfl | rfl <;>
      · simp only [sampleContest, List.mem_map] at hq
        obtain ⟨i, -, rfl⟩ := hq
        rfl)
    ⟨_, rfl⟩ (List.Mem.head _) rfl

/-! ## Independence of the contest status -/

theorem sameButStatus_fields (c c' : Contest) (h : SameButStatus c c') :
    c'._id = c._id ∧ c'.questions = c.questions := by
  unfold SameButStatus at h
  rw [h]
  exact ⟨rfl, rfl⟩

theorem find?_statusVariant (id : Nat) (l l' : List Contest)
    (h : List.Forall₂ SameButStatus l l') :
    (l.find? (fun c => c._id == id) = none ∧ l'.find? (fun c => c._id == id) = none) ∨
    ∃ c c', l.find? (fun c => c._id == id) = some c ∧
      l'.find? (fun c => c._id == id) = some c' ∧ SameButStatus c c' := by
  induction h with
  | nil => exact Or.inl ⟨rfl, rfl⟩
  | @cons a b l l' hab _ ih =>
    have hid := (sameButStatus_fields a b hab).1
    by_cases ha : a._id = id
    · right
      exact ⟨a, b, by simp [List.find?, ha], by simp [List.find?, hid, ha], hab⟩
    · have ha' : (a._id == id) = false := by simpa using ha
      have hb' : (b._id == id) = false := by simpa [hid] using ha
      simpa [List.find?, ha', hb'] using ih

theorem statusVariant_save (s s' : Store) (p : Participation) (h : StatusVariant s s') :
    StatusVariant (saveParticipation s p) (saveParticipation s' p) := by
  obtain ⟨h1, h2, h3, h4⟩ := h
  exact ⟨h1, by simp [saveParticipation, h2], h3, h4⟩

theorem statusVariant_create (s s' : Store) (e : LeaderboardEntry) (h : StatusVariant s s') :
    StatusVariant (createLeaderboardEntry s e) (createLeaderboardEntry s' e) := by
  obtain ⟨h1, h2, h3, h4⟩ := h
  exact ⟨h1, h2, by simp [createLeaderboardEntry, h3], h4⟩

theorem submitAnswerRoute_statusVariant (s s' : Store) (contestId : Nat) (user : User)
    (body : AnswerBody) (clk : AnswerClock) (h : StatusVariant s s') :
    (submitAnswerRoute s' contestId user body clk).1 =
      (submitAnswerRoute s contestId user body clk).1 ∧
    StatusVariant (submitAnswerRoute s contestId user body clk).2
      (submitAnswerRoute s' contestId user body clk).2 := by
  have hact : findActiveParticipation s' contestId user._id =
      findActiveParticipation s contestId user._id := by
    simp only [findActiveParticipation, h.2.1]
  rcases find?_statusVariant contestId s.contests s'.contests h.1 with ⟨hn, hn'⟩ |
    ⟨c, c', hc, hc', hcc⟩
  · have hr : submitAnswerRoute s contestId user body clk = (.contestNotFound, s) := by
      simp [submitAnswerRoute, checkContestExists, findContestById, hn]
    have hr' : submitAnswerRoute s' contestId user body clk = (.contestNotFound, s') := by
      simp [submitAnswerRoute, checkContestExists, findContestById, hn']
    rw [hr, hr']
    exact ⟨rfl, h⟩
  · have hq := (sameButStatus_fields c c' hcc).2
    cases hp : findActiveParticipation s contestId user._id with
    | none =>
      rw [submitAnswerRoute_no_participation s contestId c user body clk hc hp,
        submitAnswerRoute_no_participation s' contestId c' user body clk hc' (hact.trans hp)]
      exact ⟨rfl, h⟩
    | some p =>
      rw [submitAnswerRoute_eq s contestId c user body clk p hc hp,
        submitAnswerRoute_eq s' contestId c' user body clk p hc' (hact.trans hp), hq]
      split
      · exact ⟨rfl, h⟩
      · split
        · exact ⟨rfl, h⟩
        · split
          · exact ⟨rfl, h⟩
          · split
            · exact ⟨rfl, h⟩
            · split
              · exact ⟨rfl, h⟩
              · split
                · exact ⟨rfl, statusVariant_save _ _ _ (statusVariant_create _ _ _ h)⟩
                · exact ⟨rfl, statusVariant_save _ _ _ h⟩

theorem submitContestRoute_statusVariant (s s' : Store) (contestId : Nat) (user : User)
    (clk : SubmitClock) (h : StatusVariant s s') :
    (submitContestRoute s' contestId user clk).1 = (submitContestRoute s contestId user clk).1 ∧
    StatusVariant (submitContestRoute s contestId user clk).2
      (submitContestRoute s' contestId user clk).2 := by
  have hact : findActiveParticipation s' contestId user._id =
      findActiveParticipation s contestId user._id := by
    simp only [findActiveParticipation, h.2.1]
  rcases find?_statusVariant contestId s.contests s'.contests h.1 with ⟨hn, hn'⟩ |
    ⟨c, c', hc, hc', hcc⟩
  · have hr : submitContestRoute s contestId user clk = (.contestNotFound, s) := by
      simp [submitContestRoute, checkContestExists, findContestById, hn]
    have hr' : submitContestRoute s' contestId user clk = (.contestNotFound, s') := by
      simp [submitContestRoute, checkContestExists, findContestById, hn']
    rw [hr, hr']
    exact ⟨rfl, h⟩
  · cases hp : findActiveParticipation s contestId user._id with
    | none =>
      rw [submitContestRoute_no_participation s contestId c user clk hc hp,
        submitContestRoute_no_participation s' contestId c' user clk hc' (hact.trans hp)]
      exact ⟨rfl, h⟩
    | some p =>
      rw [submitContestRoute_accept s contestId c user clk p hc hp,
        submitContestRoute_accept s' contestId c' user clk p hc' (hact.trans hp)]
      exact ⟨rfl, statusVariant_create _ _ _ (statusVariant_save _ _ _ h)⟩

/-- C28: for two stores that differ at most in the status of their contests, the same
request with the same clock reads gets the same answer from the submit-answer route and
from the submit-contest route, the participations and the leaderboard after the request
are the same in both, and neither route changes a contest. -/
theorem C28_status_independence (s s' : Store) (contestId : Nat) (user : User)
    (body : AnswerBody) (clk : AnswerClock) (sclk : SubmitClock)
    (h : StatusVariant s s') :
    (submitAnswerRoute s' contestId user body clk).1 =
      (submitAnswerRoute s contestId user body clk).1 ∧
    (submitAnswerRoute s' contestId user body clk).2.participations =
      (submitAnswerRoute s contestId user body clk).2.participations ∧
    (submitAnswerRoute s' contestId user body clk).2.leaderboard =
      (submitAnswerRoute s contestId user body clk).2.leaderboard ∧
    (submitAnswerRoute s contestId user body clk).2.contests = s.contests ∧
    (submitAnswerRoute s' contestId user body clk).2.contests = s'.contests ∧
    (submitContestRoute s' contestId user sclk).1 =
      (submitContestRoute s contestId user sclk).1 ∧
    (submitContestRoute s' contestId user sclk).2.participations =
      (submitContestRoute s contestId user sclk).2.participations ∧
    (submitContestRoute s' contestId user sclk).2.leaderboard =
      (submitContestRoute s contestId user sclk).2.leaderboard ∧
    (submitContestRoute s contestId user sclk).2.contests = s.contests ∧
    (submitContestRoute s' contestId user sclk).2.contests = s'.contests := by
  obtain ⟨ha1, -, ha2, ha3, -⟩ := submitAnswerRoute_statusVariant s s' contestId user body clk h
  obtain ⟨hs1, -, hs2, hs3, -⟩ := submitContestRoute_statusVariant s s' contestId user sclk h
  exact ⟨ha1, ha2, ha3, submitAnswerRoute_contests s contestId user body clk,
    submitAnswerRoute_contests s' contestId user body clk, hs1, hs2, hs3,
    submitContestRoute_contests s contestId user sclk,
    submitContestRoute_contests s' contestId user sclk⟩

/-- Witness of C28: contest 1 pending and contest 1 complete, with the sample user in it;
the first answer, exactly sixty seconds after the join, and a submit. -/
theorem C28_status_independence_witness :
    (submitAnswerRoute joinedOnceComplete 1 sampleUser sampleBody sampleAnswerClock).1 =
      (submitAnswerRoute joinedOnce 1 sampleUser sampleBody sampleAnswerClock).1 ∧
    (submitAnswerRoute joinedOnceComplete 1 sampleUser sampleBody
        sampleAnswerClock).2.participations =
      (submitAnswerRoute joinedOnce 1 sampleUser sampleBody sampleAnswerClock).2.participations ∧
    (submitAnswerRoute joinedOnceComplete 1 sampleUser sampleBody
        sampleAnswerClock).2.leaderboard =
      (submitAnswerRoute joinedOnce 1 sampleUser sampleBody sampleAnswerClock).2.leaderboard ∧
    (submitAnswerRoute joinedOnce 1 sampleUser sampleBody sampleAnswerClock).2.contests =
      joinedOnce.contests ∧
    (submitAnswerRoute joinedOnceComplete 1 sampleUser sampleBody sampleAnswerClock).2.contests =
      joinedOnceComplete.contests ∧
    (submitContestRoute joinedOnceComplete 1 sampleUser sampleSubmitClock).1 =
      (submitContestRoute joinedOnce 1 sampleUser sampleSubmitClock).1 ∧
    (submitContestRoute joinedOnceComplete 1 sampleUser sampleSubmitClock).2.participations =
      (submitContestRoute joinedOnce 1 sampleUser sampleSubmitClock).2.participations ∧
    (submitContestRoute joinedOnceComplete 1 sampleUser sampleSubmitClock).2.leaderboard =
      (submitContestRoute joinedOnce 1 sampleUser sampleSubmitClock).2.leaderboard ∧
    (submitContestRoute joinedOnce 1 sampleUser sampleSubmitClock).2.contests =
      joinedOnce.contests ∧
    (submitContestRoute joinedOnceComplete 1 sampleUser sampleSubmitClock).2.contests =
      joinedOnceComplete.contests :=
  C28_status_independence joinedOnce joinedOnceComplete 1 sampleUser sampleBody
    sampleAnswerClock sampleSubmitClock
    ⟨List.Forall₂.cons rfl (List.Forall₂.cons rfl (List.Forall₂.cons rfl List.Forall₂.nil)),
      rfl, rfl, rfl⟩

/-! ## The two ranks of the leaderboard -/

theorem leaderboard_times_step (s : Store) (op : Op)
    (h : ∀ e ∈ s.leaderboard, e.submissionTime ≠ none) :
    ∀ e ∈ (step s op).leaderboard, e.submissionTime ≠ none := by
  have happ : ∀ (x : LeaderboardEntry), x.submissionTime ≠ none →
      ∀ e ∈ s.leaderboard ++ [x], e.submissionTime ≠ none := by
    intro x hx e he
    rcases List.mem_append.mp he with he | he
    · exact h e he
    · rw [List.mem_singleton.mp he]
      exact hx
  cases op with
  | join contestId user clk =>
    rcases join_cases s contestId user clk with ⟨hs, -⟩ | ⟨contest, -, -, -, -, -, -, hjoin⟩
    · simp only [step, hs]
      exact h
    · simp only [step, hjoin]
      exact h
  | submitAnswer contestId user body clk =>
    simp only [step]
    rcases submitAnswerRoute_cases s contestId user body clk with ⟨r, hr, -⟩ |
      ⟨contest, p, q, sel, hfind, hpa, hidx, hsel, hqq, h1, h2⟩
    · rw [hr]
      exact h
    · rw [submitAnswerRoute_accept s contestId contest user body clk p q sel hfind hpa hidx hsel
        hqq h1 h2]
      split
      · exact happ _ (by simp)
      · exact h
  | submitContest contestId user clk =>
    simp only [step]
    rcases submitContestRoute_cases s contestId user clk with ⟨r, hr, -⟩ |
      ⟨contest, p, hfind, hpa, hroute⟩
    · rw [hr]
      exact h
    · rw [hroute]
      exact happ _ (by simp)
  | cancelContest contestId =>
    simp only [step, cancelContest]
    split
    · exact h
    · split
      · exact h
      · split <;> exact h
  | advanceStatus contestId => exact h

theorem leaderboard_times_reachable (contests : List Contest) (s : Store)
    (hreach : Reachable contests s) : ∀ e ∈ s.leaderboard, e.submissionTime ≠ none := by
  obtain ⟨ops, rfl⟩ := hreach
  have hrun : ∀ (ops : List Op) (s : Store), (∀ e ∈ s.leaderboard, e.submissionTime ≠ none) →
      ∀ e ∈ (run s ops).leaderboard, e.submissionTime ≠ none := by
    intro ops
    induction ops with
    | nil => exact fun s h => h
    | cons op ops ih => exact fun s h => ih (step s op) (leaderboard_times_step s op h)
  exact hrun ops _ (fun e he => by simp [emptyStore] at he)

theorem ranksAbove_not_sortsBefore (e x : LeaderboardEntry) (h : ranksAbove e x = true) :
    sortsBefore e x = false := by
  cases hx : x.submissionTime <;> cases he : e.submissionTime <;>
    simp [ranksAbove, timeBefore, sortsBefore, timeAscending, hx, he] at h ⊢ <;> omega

theorem ranksAbove_of_sortsBefore (e x : LeaderboardEntry) (h : sortsBefore x e = true)
    (hne : ¬ (x.score = e.score ∧ x.submissionTime = e.submissionTime))
    (hx : x.submissionTime ≠ none) (he : e.submissionTime ≠ none) :
    ranksAbove e x = true := by
  cases hxt : x.submissionTime with
  | none => exact absurd hxt hx
  | some tx =>
    cases het : e.submissionTime with
    | none => exact absurd het he
    | some te =>
      simp only [hxt, het, Option.some.injEq] at hne
      simp [ranksAbove, timeBefore, sortsBefore, timeAscending, hxt, het] at h ⊢
      omega

theorem countP_ranksAbove_sorted (sorted : List LeaderboardEntry) (i : Nat)
    (e : LeaderboardEntry)
    (hsorted : sorted.Pairwise (fun a b => sortsBefore a b = true))
    (hi : sorted[i]? = some e) :
    sorted.countP (fun x => ranksAbove e x) ≤ i ∧
    ((∀ x ∈ sorted.take i, ranksAbove e x = true) →
      sorted.countP (fun x => ranksAbove e x) = i) := by
  obtain ⟨hlt, hget⟩ := List.getElem?_eq_some.mp hi
  have hsplit : sorted = sorted.take i ++ e :: sorted.drop (i + 1) := by
    rw [← hget, ← List.drop_eq_getElem_cons hlt, List.take_append_drop]
  have hself : ranksAbove e e = false := by
    cases he : e.submissionTime <;> simp [ranksAbove, timeBefore, he]
  have hafter : (sorted.drop (i + 1)).countP (fun x => ranksAbove e x) = 0 := by
    rw [List.countP_eq_zero]
    intro x hx hr
    rw [hsplit] at hsorted
    have hp := (List.pairwise_append.mp hsorted).2.1
    have hex := List.rel_of_pairwise_cons hp hx
    rw [ranksAbove_not_sortsBefore e x hr] at hex
    cases hex
  have hcount : sorted.countP (fun x => ranksAbove e x) =
      (sorted.take i).countP (fun x => ranksAbove e x) := by
    conv_lhs => rw [hsplit]
    rw [List.countP_append, List.countP_cons, hafter, hself]
    simp
  have hlen : (sorted.take i).length = i := by
    rw [List.length_take]
    omega
  constructor
  · have hle : (sorted.take i).countP (fun x => ranksAbove e x) ≤ (sorted.take i).length :=
      List.countP_le_length _
    rw [hcount]
    omega
  · intro hall
    have heq := List.countP_eq_length.mpr hall
    rw [hcount, heq, hlen]

/-- C26: when `getLeaderboard` answers with the listing, the element at position `index`
of `data` belongs to the entry `e` at position `skip + index` of the sorted entries of the
contest, and the rank the single lookup computes for `e` (the number of entries of the
contest matched by the filter of the count, plus 1) is at most the rank
`skip + index + 1` of the listing, for every page and page size; when the entries of the
contest all carry a submission time (as every entry that the handlers create does, see
`leaderboard_times_reachable`) and no two of them have the same score and the same
submission time, the two ranks are equal. -/
theorem C26_rank_computations_agree (s : Store) (contestId : Nat)
    (user : Option User) (query : LeaderboardQuery) (count : Nat) (pagination : Pagination)
    (data : List RankedEntry) (index : Nat) (r : RankedEntry)
    (hresp : getLeaderboard s contestId user query = .listing count pagination data)
    (hr : data[index]? = some r) :
    r.rank = (pagination.page - 1) * pagination.limit + index + 1 ∧
    ∃ e, (sortedLeaderboard s contestId)[(pagination.page - 1) * pagination.limit + index]? =
        some e ∧
      e ∈ s.leaderboard ∧ e.contestId = contestId ∧
      r.userId = e.userId ∧ r.score = e.score ∧ r.submissionTime = e.submissionTime ∧
      (s.leaderboard.filter (fun x => x.contestId == contestId && ranksAbove e x)).length + 1 ≤
        r.rank ∧
      ((∀ x ∈ s.leaderboard, x.contestId = contestId → x.submissionTime ≠ none) →
        (s.leaderboard.filter (fun x => x.contestId == contestId)).Pairwise
          (fun a b => ¬ (a.score = b.score ∧ a.submissionTime = b.submissionTime)) →
        (s.leaderboard.filter (fun x => x.contestId == contestId && ranksAbove e x)).length + 1 =
          r.rank) := by
  obtain ⟨-, -, -, -, -, hdata⟩ :=
    getLeaderboard_listing s contestId user query count pagination data hresp
  have hperm : (sortedLeaderboard s contestId).Perm
      (s.leaderboard.filter (fun e => e.contestId == contestId)) :=
    List.perm_insertionSort _ _
  have hsorted := sortedLeaderboard_sorted s contestId
  rw [hdata, listing_getElem?] at hr
  split at hr
  · cases hx :
        (sortedLeaderboard s contestId)[(pagination.page - 1) * pagination.limit + index]? with
    | none => simp [hx] at hr
    | some e =>
      simp only [hx, Option.map_some', Option.some.injEq] at hr
      subst hr
      have hmem : e ∈ s.leaderboard.filter (fun e => e.contestId == contestId) :=
        hperm.mem_iff.mp (List.getElem?_mem hx)
      obtain ⟨hmem1, hmem2⟩ := List.mem_filter.mp hmem
      have hec : e.contestId = contestId := by simpa using hmem2
      have hcountEq :
          (s.leaderboard.filter (fun x => x.contestId == contestId && ranksAbove e x)).length =
            (sortedLeaderboard s contestId).countP (fun x => ranksAbove e x) := by
        rw [hperm.countP_eq, List.countP_filter, List.countP_eq_length_filter]
        congr 1
        apply List.filter_congr
        intro x _
        exact Bool.and_comm _ _
      obtain ⟨hle, heq⟩ := countP_ranksAbove_sorted (sortedLeaderboard s contestId) _ e hsorted hx
      refine ⟨rfl, e, rfl, hmem1, hec, rfl, rfl, rfl, ?_, ?_⟩
      · rw [hcountEq]
        exact Nat.succ_le_succ hle
      · intro htimes hdistinct
        rw [hcountEq]
        have hdsorted : (sortedLeaderboard s contestId).Pairwise
            (fun a b => ¬ (a.score = b.score ∧ a.submissionTime = b.submissionTime)) :=
          (hperm.pairwise_iff (fun h hand => h ⟨hand.1.symm, hand.2.symm⟩)).mpr hdistinct
        obtain ⟨hlt, hget⟩ := List.getElem?_eq_some.mp hx
        have hsplit : sortedLeaderboard s contestId =
            (sortedLeaderboard s contestId).take
                ((pagination.page - 1) * pagination.limit + index) ++
              e :: (sortedLeaderboard s contestId).drop
                ((pagination.page - 1) * pagination.limit + index + 1) := by
          rw [← hget, ← List.drop_eq_getElem_cons hlt, List.take_append_drop]
        have hall : ∀ x ∈ (sortedLeaderboard s contestId).take
            ((pagination.page - 1) * pagination.limit + index), ranksAbove e x = true := by
          intro x hxm
          have hxs : x ∈ sortedLeaderboard s contestId := List.mem_of_mem_take hxm
          obtain ⟨hxl, hxc⟩ := List.mem_filter.mp (hperm.mem_iff.mp hxs)
          rw [hsplit] at hsorted hdsorted
          have h1 := (List.pairwise_append.mp hsorted).2.2 x hxm e (by simp)
          have h2 := (List.pairwise_append.mp hdsorted).2.2 x hxm e (by simp)
          exact ranksAbove_of_sortsBefore e x h1 h2 (htimes x hxl (by simpa using hxc))
            (htimes e hmem1 hec)
        rw [heq hall]
  · cases hr

/-- Witness of C26 in `rankingExample`: page 2 of size 2 of contest 1 holds user C with
rank 3, and the count of the single lookup for that entry gives 3 as well. -/
theorem C26_rank_computations_agree_witness :
    getLeaderboard rankingExample 1 none { page := some 2, limit := some 2 } =
        .listing 1 { page := 2, limit := 2, total := 3, pages := 2 }
          [{ rank := 3, userId := 3, score := 40, submissionTime := some 1 }] ∧
      ∃ e, e ∈ rankingExample.leaderboard ∧ e.userId = 3 ∧
        (rankingExample.leaderboard.filter
          (fun x => x.contestId == 1 && ranksAbove e x)).length + 1 = 3 := by
  refine ⟨by decide, ?_⟩
  obtain ⟨-, e, -, hmem, -, hu, -, -, -, heq⟩ :=
    C26_rank_computations_agree rankingExample 1 none { page := some 2, limit := some 2 } 1
      { page := 2, limit := 2, total := 3, pages := 2 }
      [{ rank := 3, userId := 3, score := 40, submissionTime := some 1 }] 0
      { rank := 3, userId := 3, score := 40, submissionTime := some 1 } (by decide) (by decide)
  exact ⟨e, hmem, hu.symm, heq (by decide) (by decide)⟩

/-! ## The pages of the listing -/

theorem fullRanking_getElem? (s : Store) (contestId i : Nat) :
    (fullRanking s contestId)[i]? =
      ((sortedLeaderboard s contestId)[i]?).map (fun entry =>
        ({ rank := i + 1
           userId := entry.userId
           score := entry.score
           submissionTime := entry.submissionTime } : RankedEntry)) := by
  unfold fullRanking
  rw [List.getElem?_map, List.getElem?_enum]
  cases (sortedLeaderboard s contestId)[i]? <;> rfl

theorem fullRanking_length (s : Store) (contestId : Nat) :
    (fullRanking s contestId).length =
      (s.leaderboard.filter (fun e => e.contestId == contestId)).length := by
  unfold fullRanking
  rw [List.length_map, List.enum_length]
  exact (List.perm_insertionSort _ _).length_eq

theorem listing_eq_slice (s : Store) (contestId skip limit : Nat) :
    ((((sortedLeaderboard s contestId).drop skip).take limit).enum.map
        (fun (index, entry) =>
          ({ rank := skip + index + 1
             userId := entry.userId
             score := entry.score
             submissionTime := entry.submissionTime } : RankedEntry))) =
      ((fullRanking s contestId).drop skip).take limit := by
  apply List.ext_getElem?
  intro i
  rw [listing_getElem?, List.getElem?_take]
  split
  · rw [List.getElem?_drop, fullRanking_getElem?]
  · rfl

theorem flatMap_slices {α : Type} (l : List α) (limit k : Nat) :
    (List.range k).flatMap (fun i => (l.drop (i * limit)).take limit) = l.take (k * limit) := by
  induction k with
  | zero => simp
  | succ k ih =>
    rw [List.range_succ, List.flatMap_append, ih, List.flatMap_singleton, Nat.succ_mul,
      List.take_add]

theorem pages_le_iff (n limit k : Nat) (hlimit : 1 ≤ limit) :
    (n + limit - 1) / limit ≤ k ↔ n ≤ k * limit := by
  rw [← Nat.lt_succ_iff, Nat.div_lt_iff_lt_mul (by omega), Nat.succ_mul]
  generalize k * limit = m
  omega

theorem orDefault_pos (n fallback : Nat) (h : 1 ≤ n) : orDefault (some n) fallback = n := by
  cases n with
  | zero => omega
  | succ m => rfl

theorem getLeaderboard_paged (s : Store) (contestId : Nat) (contest : Contest)
    (user : Option User) (page limit : Nat)
    (hfind : findContestById s contestId = some contest)
    (hvis : (contest.isVipOnly && vipAccessDenied user) = false)
    (hown : ownResultOnly contest user = none) (hpage : 1 ≤ page) (hlimit : 1 ≤ limit) :
    getLeaderboard s contestId user { page := some page, limit := some limit } =
      .listing (((fullRanking s contestId).drop ((page - 1) * limit)).take limit).length
        { page := page
          limit := limit
          total := (s.leaderboard.filter (fun e => e.contestId == contestId)).length
          pages :=
            ((s.leaderboard.filter (fun e => e.contestId == contestId)).length + limit - 1) /
              limit }
        (((fullRanking s contestId).drop ((page - 1) * limit)).take limit) := by
  have hid : contest._id = contestId :=
    find?_id_eq (fun c : Contest => c._id) s.contests contestId contest hfind
  unfold getLeaderboard
  simp only [hfind, hvis, hown, orDefault_pos page 1 hpage, orDefault_pos limit 10 hlimit, hid]
  rw [← listing_eq_slice]
  simp

/-- C29: for a contest whose leaderboard `getLeaderboard` lists (the contest is found,
the requester may see it and is not limited to the own result), with `n` entries and a
page size `limit` of at least 1: page `page` (at least 1) answers with the elements of
the sorted ranking from position `(page - 1) * limit` up to `min (page * limit) n`, which
carry the ranks `(page - 1) * limit + 1` onward; the reported number of pages is the
least `k` with `n ≤ k * limit`, the ceiling of `n / limit`; the pages 1 to that number,
one after the other, are the whole ranking, which holds the entries of the contest each
once, with the ranks 1, 2, ..., `n` in order. -/
theorem C29_pages_cover_ranking (s : Store) (contestId : Nat) (contest : Contest)
    (user : Option User) (limit : Nat)
    (hfind : findContestById s contestId = some contest)
    (hvis : (contest.isVipOnly && vipAccessDenied user) = false)
    (hown : ownResultOnly contest user = none) (hlimit : 1 ≤ limit) :
    (∀ page, 1 ≤ page →
      getLeaderboard s contestId user { page := some page, limit := some limit } =
        .listing
          (min (page * limit)
            (s.leaderboard.filter (fun e => e.contestId == contestId)).length -
              (page - 1) * limit)
          { page := page
            limit := limit
            total := (s.leaderboard.filter (fun e => e.contestId == contestId)).length
            pages :=
              ((s.leaderboard.filter (fun e => e.contestId == contestId)).length + limit - 1) /
                limit }
          (((fullRanking s contestId).drop ((page - 1) * limit)).take limit)) ∧
    (∀ page i, i < limit →
      (((fullRanking s contestId).drop ((page - 1) * limit)).take limit)[i]? =
        ((sortedLeaderboard s contestId)[(page - 1) * limit + i]?).map (fun entry =>
          ({ rank := (page - 1) * limit + i + 1
             userId := entry.userId
             score := entry.score
             submissionTime := entry.submissionTime } : RankedEntry))) ∧
    (∀ k, ((s.leaderboard.filter (fun e => e.contestId == contestId)).length + limit - 1) /
        limit ≤ k ↔
      (s.leaderboard.filter (fun e => e.contestId == contestId)).length ≤ k * limit) ∧
    (List.range
        (((s.leaderboard.filter (fun e => e.contestId == contestId)).length + limit - 1) /
          limit)).flatMap
      (fun i => listingData
        (getLeaderboard s contestId user { page := some (i + 1), limit := some limit })) =
      fullRanking s contestId ∧
    (fullRanking s contestId).map (fun r => r.rank) =
      (List.range (s.leaderboard.filter (fun e => e.contestId == contestId)).length).map
        (fun i => i + 1) ∧
    (sortedLeaderboard s contestId).Perm
      (s.leaderboard.filter (fun e => e.contestId == contestId)) ∧
    (fullRanking s contestId).map (fun r => (r.userId, r.score, r.submissionTime)) =
      (sortedLeaderboard s contestId).map (fun e => (e.userId, e.score, e.submissionTime)) := by
  have hlen := fullRanking_length s contestId
  have hperm : (sortedLeaderboard s contestId).Perm
      (s.leaderboard.filter (fun e => e.contestId == contestId)) :=
    List.perm_insertionSort _ _
  refine ⟨?_, ?_, ?_, ?_, ?_, hperm, ?_⟩
  · intro page hpage
    rw [getLeaderboard_paged s contestId contest user page limit hfind hvis hown hpage hlimit]
    congr 1
    rw [List.length_take, List.length_drop, hlen]
    have hmul : page * limit = (page - 1) * limit + limit := by
      obtain ⟨q, rfl⟩ : ∃ q, page = q + 1 := ⟨page - 1, by omega⟩
      rw [Nat.add_sub_cancel, Nat.succ_mul]
    rw [hmul]
    omega
  · intro page i hi
    rw [List.getElem?_take, if_pos hi, List.getElem?_drop, fullRanking_getElem?]
  · exact fun k => pages_le_iff _ limit k hlimit
  · have hfun : (fun i => listingData
        (getLeaderboard s contestId user { page := some (i + 1), limit := some limit })) =
        (fun i => ((fullRanking s contestId).drop (i * limit)).take limit) := by
      funext i
      rw [getLeaderboard_paged s contestId contest user (i + 1) limit hfind hvis hown
        (Nat.succ_le_succ (Nat.zero_le i)) hlimit]
      rfl
    rw [hfun, flatMap_slices]
    apply List.take_of_length_le
    rw [hlen]
    exact (pages_le_iff _ limit _ hlimit).mp (Nat.le_refl _)
  · apply List.ext_getElem?
    intro i
    rw [List.getElem?_map, fullRanking_getElem?, List.getElem?_map]
    by_cases hi : i < (sortedLeaderboard s contestId).length
    · have hi2 : i < (s.leaderboard.filter (fun e => e.contestId == contestId)).length := by
        rw [← hperm.length_eq]
        exact hi
      rw [List.getElem?_eq_getElem hi, List.getElem?_range hi2]
      rfl
    · have hi2 : ¬ i < (s.leaderboard.filter (fun e => e.contestId == contestId)).length := by
        rw [← hperm.length_eq]
        exact hi
      rw [List.getElem?_eq_none (by omega), List.getElem?_eq_none (by simpa using hi2)]
      rfl
  · apply List.ext_getElem?
    intro i
    rw [List.getElem?_map, fullRanking_getElem?, List.getElem?_map]
    cases (sortedLeaderboard s contestId)[i]? <;> rfl

/-- Witness of C29 in `rankingExample`: with page size 2 the three entries of contest 1
come on two pages, B and A on the first and C on the second. -/
theorem C29_pages_cover_ranking_witness :
    getLeaderboard rankingExample 1 none { page := some 2, limit := some 2 } =
        .listing 1 { page := 2, limit := 2, total := 3, pages := 2 }
          [{ rank := 3, userId := 3, score := 40, submissionTime := some 1 }] ∧
      (List.range 2).flatMap (fun i => listingData
          (getLeaderboard rankingExample 1 none { page := some (i + 1), limit := some 2 })) =
        [{ rank := 1, userId := 2, score := 50, submissionTime := some 5 },
         { rank := 2, userId := 1, score := 50, submissionTime := some 10 },
         { rank := 3, userId := 3, score := 40, submissionTime := some 1 }] := by
  obtain ⟨hpage, -, -, hcat, -, -, -⟩ :=
    C29_pages_cover_ranking rankingExample 1 (sampleContest 1) none 2 rfl (by decide)
      (by decide) (by decide)
  exact ⟨(hpage 2 (by decide)).trans (by decide), hcat.trans (by decide)⟩

/-! ## Acceptance of an answer -/

/-- C8 (counterexample): the sample user has a pending participation in contest 1 with
the current index 0 and `updatedAt` 1000; the request with `questionIndex` 0 and no
`selectedOptions`, read at 61000 ms (sixty seconds later), meets the three conditions but
is answered 400 "Please provide questionIndex and selectedOptions", and nothing is
stored. -/
theorem C8_missing_selection_rejected :
    (∃ p, findActiveParticipation joinedOnce 1 sampleUser._id = some p ∧
      p.submissionState = .pending ∧
      (some (JsVal.num 0) : Option JsVal) = some (.num p.currentQuestionIndex) ∧
      sampleAnswerClock.checked - p.updatedAt ≤ QUESTION_TIME_LIMIT * 1000) ∧
    submitAnswerRoute joinedOnce 1 sampleUser
        { questionIndex := some (.num 0), selectedOptions := none } sampleAnswerClock =
      (.missingFields, joinedOnce) :=
  ⟨⟨newParticipation (emptyStore sampleContests) 1 9 sampleJoinClock, rfl, rfl, rfl,
    by decide⟩, rfl⟩

/-- C8 (amended): on a contest whose question list covers the current index of the
caller's pending participation, and with a clock that does not run backwards between the
middleware and the handler: the route answers 200 exactly when the caller has a pending
participation in the contest, `questionIndex` is the number `currentQuestionIndex`, the
handler's clock read is at most 60 seconds (60000 ms) after `updatedAt`, and the body
carries `selectedOptions`.  A different `questionIndex` is answered "Invalid question
index"; with the right index and a selection, a later clock read is answered "Time limit
exceeded for this question"; with the right index and no selection the answer is "Time
limit exceeded for this question" when the middleware's clock read is later than that,
and "Please provide questionIndex and selectedOptions" otherwise; a caller without pending
participation is answered "No active participation found"; none of these changes the
store. -/
theorem C8_accepted_iff_selection_given (s : Store) (contestId : Nat) (contest : Contest)
    (user : User) (body : AnswerBody) (clk : AnswerClock)
    (hfind : findContestById s contestId = some contest)
    (hquestions : ∀ p, findActiveParticipation s contestId user._id = some p →
      p.currentQuestionIndex < contest.questions.length)
    (hclk : clk.validated ≤ clk.checked) :
    ((∃ d, (submitAnswerRoute s contestId user body clk).1 = .ok d) ↔
      ∃ p, findActiveParticipation s contestId user._id = some p ∧
        body.questionIndex = some (.num p.currentQuestionIndex) ∧
        clk.checked - p.updatedAt ≤ QUESTION_TIME_LIMIT * 1000 ∧
        body.selectedOptions ≠ none) ∧
    (∀ p, findActiveParticipation s contestId user._id = some p →
      body.questionIndex ≠ some (.num p.currentQuestionIndex) →
      submitAnswerRoute s contestId user body clk = (.invalidQuestionIndex, s)) ∧
    (∀ p, findActiveParticipation s contestId user._id = some p →
      body.questionIndex = some (.num p.currentQuestionIndex) →
      body.selectedOptions ≠ none →
      clk.checked - p.updatedAt > QUESTION_TIME_LIMIT * 1000 →
      submitAnswerRoute s contestId user body clk = (.timeLimitExceeded, s)) ∧
    (∀ p, findActiveParticipation s contestId user._id = some p →
      body.questionIndex = some (.num p.currentQuestionIndex) →
      body.selectedOptions = none →
      submitAnswerRoute s contestId user body clk =
        if clk.validated - p.updatedAt > QUESTION_TIME_LIMIT * 1000 then
          (.timeLimitExceeded, s)
        else
          (.missingFields, s)) ∧
    (findActiveParticipation s contestId user._id = none →
      submitAnswerRoute s contestId user body clk = (.noActiveParticipation, s)) := by
  have hqex : ∀ p, findActiveParticipation s contestId user._id = some p →
      ∃ q, contest.questions[p.currentQuestionIndex]? = some q := fun p hp =>
    have hlt := hquestions p hp
    ⟨contest.questions[p.currentQuestionIndex], List.getElem?_eq_getElem hlt⟩
  refine ⟨⟨?_, ?_⟩, ?_, ?_, ?_, ?_⟩
  · rintro ⟨d, hd⟩
    cases hpa : findActiveParticipation s contestId user._id with
    | none =>
      rw [submitAnswerRoute_no_participation s contestId contest user _ clk hfind hpa] at hd
      cases hd
    | some p =>
      obtain ⟨q, hq⟩ := hqex p hpa
      cases hsel : body.selectedOptions with
      | none =>
        rw [submitAnswerRoute_eq s contestId contest user body clk p hfind hpa, hsel] at hd
        split at hd
        · cases hd
        · split at hd <;> cases hd
      | some sel =>
        obtain ⟨hi, -, h2⟩ := submitAnswerRoute_ok_inv s contestId contest user body clk p q
          sel d hfind hpa hsel hq hd
        refine ⟨p, rfl, (indexMatches_iff _ _).mp hi, ?_, by simp⟩
        have := (timeLimitExceeded_iff clk.checked p.updatedAt).not.mp (by simp [h2])
        exact not_lt.mp this
  · rintro ⟨p, hpa, hqi, ht, hsome⟩
    obtain ⟨q, hq⟩ := hqex p hpa
    obtain ⟨sel, hsel⟩ : ∃ sel, body.selectedOptions = some sel := by
      cases h : body.selectedOptions with
      | none => exact absurd h hsome
      | some sel => exact ⟨sel, rfl⟩
    have h2 : timeLimitExceeded clk.checked p.updatedAt = false := by
      cases h : timeLimitExceeded clk.checked p.updatedAt
      · rfl
      · exact absurd ((timeLimitExceeded_iff _ _).mp h) (not_lt.mpr ht)
    have h1 := timeLimitExceeded_mono _ _ p.updatedAt hclk h2
    have hacc := submitAnswerRoute_accept s contestId contest user body clk p q sel hfind hpa
      ((indexMatches_iff _ _).mpr hqi) hsel hq h1 h2
    rw [hacc]
    split <;> exact ⟨_, rfl⟩
  · intro p hpa hne
    apply submitAnswerRoute_wrong_index s contestId contest user _ clk p hfind hpa
    cases h : indexMatches body.questionIndex p.currentQuestionIndex
    · rfl
    · exact absurd ((indexMatches_iff _ _).mp h) hne
  · intro p hpa hqi hsome ht
    obtain ⟨q, hq⟩ := hqex p hpa
    obtain ⟨sel, hsel⟩ : ∃ sel, body.selectedOptions = some sel := by
      cases h : body.selectedOptions with
      | none => exact absurd h hsome
      | some sel => exact ⟨sel, rfl⟩
    exact submitAnswerRoute_late s contestId contest user _ clk p q sel hfind hpa
      ((indexMatches_iff _ _).mpr hqi) hsel hq ((timeLimitExceeded_iff _ _).mpr ht)
  · intro p hpa hqi hsel
    have hidx := (indexMatches_iff _ _).mpr hqi
    rw [submitAnswerRoute_eq s contestId contest user body clk p hfind hpa, hsel,
      if_neg (by simp [hidx])]
    by_cases ht : clk.validated - p.updatedAt > QUESTION_TIME_LIMIT * 1000
    · rw [if_pos ((timeLimitExceeded_iff _ _).mpr ht), if_pos ht]
    · have h1 : ¬ timeLimitExceeded clk.validated p.updatedAt = true := fun h =>
        ht ((timeLimitExceeded_iff _ _).mp h)
      rw [if_neg h1, if_neg ht]
  · intro hpa
    exact submitAnswerRoute_no_participation s contestId contest user _ clk hfind hpa

/-- Witness of C8: the sample user answers the first question of contest 1 exactly sixty
seconds after joining, with the selection 0, and is answered 200. -/
theorem C8_accepted_iff_selection_given_witness :
    ∃ d, (submitAnswerRoute joinedOnce 1 sampleUser sampleBody sampleAnswerClock).1 = .ok d :=
  (C8_accepted_iff_selection_given joinedOnce 1 { sampleContest 1 with participantsCount := 1 }
    sampleUser sampleBody sampleAnswerClock rfl
    (fun p hp => by
      have hp' := Option.some.inj hp
      subst hp'
      decide)
    (by decide)).1.mpr
    ⟨newParticipation (emptyStore sampleContests) 1 9 sampleJoinClock, rfl, rfl, by decide,
      by simp [sampleBody]⟩

end QuizContest
